import Mathlib

/-!
# The Python binding bridge of KLayout: `pyaObject.cc`

A shallow embedding of `src/pya/pya/pyaObject.cc`.  The wrapper object
(`PYAObjectBase`) is a record of its C++ members; every member function is a
function on a `World`, which holds the wrapper together with the few pieces of
its surroundings the code reads or writes: the static callbacks cache, the
interpreter singleton, the native side (handle factory, ownership ledger,
callback slots) and a trace of the calls that leave the wrapper.

Pointers are natural numbers, the null pointer is `0`.  A C++ exception is a
value of `Exn` returned next to the world as it was when the exception was
thrown.
-/

namespace pya

/-! ## The reflected class model (gsi) -/

/-- Method descriptor `gsi::MethodBase`, as far as the bridge reads it. -/
structure MethodBase where
  primary_name : String
  n_arguments : Nat
  deriving DecidableEq, Repr

/-- Class descriptor `gsi::ClassBase`: name, `is_managed ()`, the methods between
`begin_callbacks ()` and `end_callbacks ()`, and the `base ()` class if any. -/
inductive ClassBase where
  | root (name : String) (managed : Bool) (cbs : List MethodBase)
  | derived (name : String) (managed : Bool) (cbs : List MethodBase) (parent : ClassBase)
  deriving DecidableEq, Repr

def ClassBase.name : ClassBase → String
  | .root n _ _ => n
  | .derived n _ _ _ => n

def ClassBase.is_managed : ClassBase → Bool
  | .root _ m _ => m
  | .derived _ m _ _ => m

def ClassBase.callbacks : ClassBase → List MethodBase
  | .root _ _ c => c
  | .derived _ _ c _ => c

def ClassBase.base : ClassBase → Option ClassBase
  | .root _ _ _ => none
  | .derived _ _ _ b => some b

/-- Modelled from the spec: the Class Registry accessor `gsi_object (p, required)`
that hands out the ownership ledger (`gsi::ObjectBase`) of a handle.  A managed
class has one for every non-null handle, an unmanaged class has none. -/
def ClassBase.gsi_object (c : ClassBase) (p : Nat) : Option Nat :=
  if c.is_managed && p != 0 then some p else none

/-- Status event kinds `gsi::ObjectBase::StatusEventType`. -/
inductive StatusEventType where
  | ObjectDestroyed
  | ObjectKeep
  | ObjectRelease
  deriving DecidableEq, Repr

/-! ## The script runtime, as far as the bridge looks at it -/

/-- Script values by address.  `method` is a bound method object
(`PyMethod_Check` holds, `PyMethod_Self` is not null), `unbound_method` is the
Python 2 method object without a receiver, `cfunction` is a `PyCFunction`, and
`slotted` is an instance of a type without weak reference support (a class with
`__slots__`, a number, a string). -/
inductive PyObject where
  | object (addr : Nat)
  | function (addr : Nat) (co_argcount : Nat)
  | cfunction (addr : Nat)
  | unbound_method (addr : Nat) (func : PyObject)
  | method (addr : Nat) (self : PyObject) (func : PyObject)
  | slotted (addr : Nat)
  deriving DecidableEq, Repr

/-- Whether the type of the object supports weak references. -/
def PyObject.weakrefs : PyObject → Bool
  | .slotted _ => false
  | _ => true

/-- The call `PyWeakref_NewRef (ob, NULL)`: a weak reference to the object, kept as
the object it refers to; null, with a `TypeError` set, when the type of the object
does not support weak references. -/
def PyWeakref_NewRef (ob : PyObject) : Option PyObject :=
  if ob.weakrefs then some ob else none

def PyCFunction_Check : PyObject → Bool
  | .cfunction _ => true
  | _ => false

/-- Script class object: its address and what attribute lookup on it finds. -/
structure PyTypeObject where
  addr : Nat
  attrs : List (String × PyObject)
  deriving DecidableEq, Repr

/-- Attribute lookup `PyObject_GetAttrString`; `none` is the null result. -/
def PyObject_GetAttrString (ty : PyTypeObject) (nstr : String) : Option PyObject :=
  ty.attrs.lookup nstr

/-! ## CallbackFunction and Callee -/

/-- Members of `CallbackFunction`; a null `PythonRef` is `none`.  The weak
reference is kept as the object it refers to. -/
structure CallbackFunction where
  mp_method : Option MethodBase
  m_callable : Option PyObject
  m_weak_self : Option PyObject
  deriving DecidableEq, Repr

/-- Constructor `CallbackFunction::CallbackFunction (pym, m)`.  The result of
`PyWeakref_NewRef` is stored as it comes: for a receiver that cannot be weakly
referenced `m_weak_self` stays null next to the bare function. -/
def CallbackFunction.new (pym : Option PyObject) (m : Option MethodBase) : CallbackFunction :=
  match pym with
  | some (.method _ self func) =>
    { mp_method := m, m_callable := some func, m_weak_self := PyWeakref_NewRef self }
  | _ => { mp_method := m, m_callable := pym, m_weak_self := none }

/-- Whether the constructor leaves the `TypeError` of a failed `PyWeakref_NewRef`
pending: it neither tests the result nor clears the error. -/
def CallbackFunction.new_leaves_error : Option PyObject → Bool
  | some (.method _ self _) => !self.weakrefs
  | _ => false

/-- The dispatch table `Callee::m_cbfuncs`. -/
abbrev Callee := List CallbackFunction

/-- Member `Callee::add_callback`: the new table and the returned id. -/
def Callee.add_callback (c : Callee) (vf : CallbackFunction) : Callee × Nat :=
  (c ++ [vf], (c ++ [vf]).length - 1)

/-- Member `Callee::clear_callbacks`. -/
def Callee.clear_callbacks (_c : Callee) : Callee := []

/-- The subscriber list `SignalHandler::m_cbfuncs`. -/
abbrev SignalHandler := List CallbackFunction

/-! ## The wrapper and its world -/

/-- Members of `PYAObjectBase`.  `ob_type` is `Py_TYPE (this)`; `m_listener` lists
the handles on whose status event the listener member is subscribed. -/
structure PYAObjectBase where
  ob_type : PyTypeObject
  m_listener : List Nat
  m_callee : Callee
  m_cls_decl : Option ClassBase
  m_obj : Nat
  m_owned : Bool
  m_const_ref : Bool
  m_destroyed : Bool
  m_can_destroy : Bool
  m_signal_table : List (MethodBase × SignalHandler)
  deriving DecidableEq, Repr

/-- Constructor `PYAObjectBase::PYAObjectBase (_cls_decl)`. -/
def PYAObjectBase.new (ty : PyTypeObject) (cls_decl : Option ClassBase) : PYAObjectBase :=
  { ob_type := ty, m_listener := [], m_callee := [], m_cls_decl := cls_decl, m_obj := 0,
    m_owned := false, m_const_ref := false, m_destroyed := false, m_can_destroy := false,
    m_signal_table := [] }

/-- Calls that leave the wrapper. -/
inductive Call where
  | py_incref
  | py_decref
  | cls_create (result : Nat)
  | cls_destroy (o : Nat)
  | listener_add (o : Nat)
  | listener_remove (o : Nat)
  | gsi_keep (o : Nat)
  | set_callback (o : Nat) (m : MethodBase) (id : Option Nat)
  | add_handler (o : Nat) (m : MethodBase)
  | hierarchy_walk (type_addr : Nat)
  deriving DecidableEq, Repr

/-- One entry of the trace: the call and the wrapper members `m_obj`, `m_owned` and
`m_destroyed` at the moment it was made (what a reentrant observer would see). -/
structure Event where
  call : Call
  at_obj : Nat
  at_owned : Bool
  at_destroyed : Bool
  deriving DecidableEq, Repr

/-- C++ exceptions: a failed `tl_assert`, a `tl::Exception` with its message, and
the undefined behaviour of a call through a null class descriptor. -/
inductive Exn where
  | assertion (cond : String)
  | exception (msg : String)
  | null_cls_decl
  deriving DecidableEq, Repr

/-- The wrapper and its surroundings. -/
structure World where
  self : PYAObjectBase
  s_callbacks_cache : List (Nat × List MethodBase)
  interpreter : Bool
  kept : List Nat
  heap_top : Nat
  slots : List (Nat × MethodBase × Nat)
  trace : List Event
  deriving DecidableEq, Repr

/-- Appends a call to the trace, stamped with the wrapper members at that moment. -/
def log (c : Call) (w : World) : World :=
  { w with trace := w.trace ++ [⟨c, w.self.m_obj, w.self.m_owned, w.self.m_destroyed⟩] }

/-- Retention `Py_INCREF (this)`. -/
def Py_INCREF (w : World) : World := log .py_incref w

/-- Release of a retention, `Py_DECREF (this)`.  Whether the count reaches zero
depends on the references the script side holds and is not modelled. -/
def Py_DECREF (w : World) : World := log .py_decref w

/-- Modelled from the spec: the Class Registry factory `create ()`, which hands out
a fresh handle that is not null. -/
def cls_create (w : World) : World × Nat :=
  (log (.cls_create (w.heap_top + 1)) { w with heap_top := w.heap_top + 1 }, w.heap_top + 1)

/-- Modelled from the spec: the ledger query `already_kept ()` of a handle, true
when native code kept the object during construction. -/
def already_kept (w : World) (o : Nat) : Bool := w.kept.contains o

/-- Subscription `status_changed_event ().add (&m_listener, ...)`. -/
def listener_add (w : World) (o : Nat) : World :=
  log (.listener_add o)
    { w with self := { w.self with
        m_listener := if w.self.m_listener.contains o then w.self.m_listener
                      else w.self.m_listener ++ [o] } }

/-- Unsubscription `status_changed_event ().remove (&m_listener, ...)`. -/
def listener_remove (w : World) (o : Nat) : World :=
  log (.listener_remove o)
    { w with self := { w.self with m_listener := w.self.m_listener.filter (fun x => x != o) } }

/-- Native callback slot update `(*m)->set_callback (o, gsi::Callback (id, &m_callee, ..))`;
`none` is the empty `gsi::Callback ()`. -/
def set_callback (w : World) (o : Nat) (m : MethodBase) (id : Option Nat) : World :=
  let others := w.slots.filter (fun x => !(x.1 == o && x.2.1 == m))
  log (.set_callback o m id)
    { w with slots := match id with
                      | some i => others ++ [(o, m, i)]
                      | none => others }

/-- Member `PYAObjectBase::keep_internal`. -/
def keep_internal (w : World) : World :=
  if w.self.m_owned then
    let w1 := Py_INCREF w
    { w1 with self := { w1.self with m_owned := false } }
  else w

/-- Modelled from the spec: the ledger operation `keep ()` of a handle, which
delivers the status `ObjectKeep` to the subscribed listeners.  The listener forwards
to `object_status_changed`, whose `ObjectKeep` branch is `keep_internal`. -/
def gsi_keep (w : World) (o : Nat) : World :=
  let w1 := log (.gsi_keep o) w
  if w1.self.m_listener.contains o then keep_internal w1 else w1

/-- Lookup `s_callbacks_cache.find (type_ref)`. -/
def cache_find (cache : List (Nat × List MethodBase)) (type_addr : Nat) :
    Option (List MethodBase) :=
  cache.lookup type_addr

/-- The methods one class contributes to a cache entry: the body of the
`for (m = cls->begin_callbacks (); ...)` loop of `initialize_callbacks`. -/
def overridden_in (ty : PyTypeObject) (owned : Bool) (cbs : List MethodBase) :
    List MethodBase :=
  cbs.filter (fun m =>
    owned &&
      match PyObject_GetAttrString ty m.primary_name with
      | none => false
      | some py_attr => !PyCFunction_Check py_attr)

/-- The `while (cls) { ...; cls = cls->base (); }` loop of `initialize_callbacks`. -/
def walk_hierarchy (ty : PyTypeObject) (owned : Bool) : ClassBase → List MethodBase
  | .root _ _ cbs => overridden_in ty owned cbs
  | .derived _ _ cbs parent => overridden_in ty owned cbs ++ walk_hierarchy ty owned parent

/-- One round of the installing loop of `initialize_callbacks`. -/
def install_callback (w : World) (m : MethodBase) : World :=
  let py_attr := PyObject_GetAttrString w.self.ob_type m.primary_name
  let r := Callee.add_callback w.self.m_callee (CallbackFunction.new py_attr (some m))
  let w1 := { w with self := { w.self with m_callee := r.1 } }
  set_callback w1 w1.self.m_obj m (some r.2)

/-- Member `PYAObjectBase::initialize_callbacks` (the caching variant, `#if 1`). -/
def initialize_callbacks (w : World) : World :=
  let type_ref := w.self.ob_type
  let w1 :=
    match cache_find w.s_callbacks_cache type_ref.addr with
    | some _ => w
    | none =>
      let entry := match w.self.m_cls_decl with
                   | some cls => walk_hierarchy type_ref w.self.m_owned cls
                   | none => []
      log (.hierarchy_walk type_ref.addr)
        { w with s_callbacks_cache := w.s_callbacks_cache ++ [(type_ref.addr, entry)] }
  ((cache_find w1.s_callbacks_cache type_ref.addr).getD []).foldl install_callback w1

/-- Member `PYAObjectBase::clear_callbacks_cache`. -/
def clear_callbacks_cache (w : World) : World :=
  { w with s_callbacks_cache := [] }

/-- The block `if (cls->is_managed ()) { ... }` of `set`. -/
def set_listener (w : World) (cls : ClassBase) : World :=
  if cls.is_managed then
    let wk := if already_kept w w.self.m_obj then keep_internal w else w
    listener_add wk wk.self.m_obj
  else w

/-- Member `PYAObjectBase::set`. -/
def set (w : World) (obj : Nat) (owned const_ref can_destroy : Bool) : World × Option Exn :=
  match w.self.m_cls_decl with
  | none => (w, none)
  | some cls =>
    if w.self.m_obj != 0 then (w, some (.assertion "! m_obj"))
    else if obj == 0 then (w, some (.assertion "obj"))
    else
      let w1 := { w with self := { w.self with
                    m_obj := obj, m_owned := owned, m_can_destroy := can_destroy,
                    m_const_ref := const_ref } }
      let w2 := initialize_callbacks w1
      let w3 := set_listener w2 cls
      if !w3.self.m_owned then (Py_INCREF w3, none) else (w3, none)

/-- Member `PYAObjectBase::obj`; the returned pointer is `m_obj` of the resulting
world. -/
def obj (w : World) : World × Option Exn :=
  if w.self.m_obj == 0 then
    if w.self.m_destroyed then (w, some (.exception "Object has been destroyed already"))
    else
      match w.self.m_cls_decl with
      | none => (w, some .null_cls_decl)
      | some _ =>
        let r := cls_create w
        set r.1 r.2 true false true
  else (w, none)

/-- The block `if (cls && cls->is_managed ()) { ... }` of `release`, which resets
the ownership of all other clients. -/
def release_others (w : World) : World × Option Exn :=
  match w.self.m_cls_decl with
  | some cls =>
    if cls.is_managed then
      let ro := obj w
      match ro.2 with
      | some e => (ro.1, some e)
      | none =>
        if ro.1.self.m_obj != 0 then (gsi_keep ro.1 ro.1.self.m_obj, none) else (ro.1, none)
    else (w, none)
  | none => (w, none)

/-- The block `if (!m_owned) { m_owned = true; Py_DECREF (this); }` of `release`. -/
def release_own (w : World) : World :=
  if !w.self.m_owned then Py_DECREF { w with self := { w.self with m_owned := true } }
  else w

/-- Member `PYAObjectBase::release`. -/
def release (w : World) : World × Option Exn :=
  let r := release_others w
  match r.2 with
  | some e => (r.1, some e)
  | none => (release_own r.1, none)

/-- Member `PYAObjectBase::keep`. -/
def keep (w : World) : World × Option Exn :=
  match w.self.m_cls_decl with
  | some cls =>
    let ro := obj w
    match ro.2 with
    | some e => (ro.1, some e)
    | none =>
      if ro.1.self.m_obj != 0 then
        if cls.is_managed then (gsi_keep ro.1 ro.1.self.m_obj, none)
        else (keep_internal ro.1, none)
      else (ro.1, none)
  | none => (w, none)

/-- Member `PYAObjectBase::detach_callbacks`. -/
def detach_callbacks (w : World) : World :=
  let w1 :=
    match cache_find w.s_callbacks_cache w.self.ob_type.addr with
    | some entry => entry.foldl (fun acc m => set_callback acc acc.self.m_obj m none) w
    | none => w
  { w1 with self := { w1.self with m_callee := Callee.clear_callbacks w1.self.m_callee } }

/-- The block `if (! m_destroyed && cls && cls->is_managed ()) { ... }` of `detach`. -/
def detach_listener (w : World) : World :=
  match w.self.m_cls_decl with
  | some cls =>
    if !w.self.m_destroyed && cls.is_managed then
      match cls.gsi_object w.self.m_obj with
      | some gsi_object => listener_remove w gsi_object
      | none => w
    else w
  | none => w

/-- Member `PYAObjectBase::detach`. -/
def detach (w : World) : World :=
  if w.self.m_obj != 0 then
    let w1 := detach_listener w
    let w2 := detach_callbacks w1
    { w2 with self := { w2.self with
        m_obj := 0, m_const_ref := false, m_owned := false, m_can_destroy := false } }
  else w

/-- Member `PYAObjectBase::object_status_changed`. -/
def object_status_changed (w : World) (type : StatusEventType) : World × Option Exn :=
  match type with
  | .ObjectDestroyed =>
    if w.interpreter then
      let prev_owner := w.self.m_owned
      let w1 := { w with self := { w.self with m_destroyed := true } }
      let w2 := detach w1
      if !prev_owner then (Py_DECREF w2, none) else (w2, none)
    else (w, none)
  | .ObjectKeep => (keep_internal w, none)
  | .ObjectRelease => release w

/-- Modelled from the spec: the Class Registry operation `destroy (o)`, which frees
the native object.  The ledger of a managed handle delivers the status
`ObjectDestroyed` to a listener that is still subscribed, and goes away with the
handle. -/
def cls_destroy (w : World) (cls : ClassBase) (o : Nat) : World :=
  let w1 := log (.cls_destroy o) w
  if cls.is_managed && w1.self.m_listener.contains o then
    let w2 := (object_status_changed w1 .ObjectDestroyed).1
    { w2 with self := { w2.self with m_listener := w2.self.m_listener.filter (fun x => x != o) } }
  else w1

/-- The block `if (! m_obj) { ... m_obj = m_cls_decl->create (); m_owned = true; }` of
`destroy`, past its two `throw` statements. -/
def destroy_ensure_obj (w : World) : World :=
  if w.self.m_obj == 0 then
    let r := cls_create w
    { r.1 with self := { r.1.self with m_obj := r.2, m_owned := true } }
  else w

/-- Member `PYAObjectBase::destroy`. -/
def destroy (w : World) : World × Option Exn :=
  match w.self.m_cls_decl with
  | none => ({ w with self := { w.self with m_obj := 0 } }, none)
  | some cls =>
    if !w.self.m_can_destroy && w.self.m_obj != 0 then
      (w, some (.exception "Object cannot be destroyed explicitly"))
    else if w.self.m_obj == 0 && w.self.m_destroyed then
      (w, some (.exception "Object has been destroyed already"))
    else
      let w1 := destroy_ensure_obj w
      let o := if w1.self.m_owned || w1.self.m_can_destroy then w1.self.m_obj else 0
      let w2 := detach w1
      let w3 := if o != 0 then cls_destroy w2 cls o else w2
      ({ w3 with self := { w3.self with m_destroyed := true } }, none)

/-- Member `PYAObjectBase::signal_handler`; the returned relay is the entry of
`meth` in `m_signal_table` of the resulting world. -/
def signal_handler (w : World) (meth : MethodBase) : World × Option Exn :=
  match w.self.m_signal_table.lookup meth with
  | some _ => (w, none)
  | none =>
    let w1 := { w with self := { w.self with
                  m_signal_table := w.self.m_signal_table ++ [(meth, [])] } }
    let ro := obj w1
    match ro.2 with
    | some e => (ro.1, some e)
    | none => (log (.add_handler ro.1.self.m_obj meth) ro.1, none)

/-! ## Operations on a wrapper and the states they reach -/

/-- The entry points of a wrapper. -/
inductive Op where
  | set (obj : Nat) (owned const_ref can_destroy : Bool)
  | detach
  | destroy
  | keep
  | keep_internal
  | release
  | object_status_changed (type : StatusEventType)
  | obj
  | signal_handler (meth : MethodBase)
  | clear_callbacks_cache
  deriving DecidableEq, Repr

/-- Runs one entry point. -/
def step (op : Op) (w : World) : World × Option Exn :=
  match op with
  | .set o owned const_ref can_destroy => set w o owned const_ref can_destroy
  | .detach => (detach w, none)
  | .destroy => destroy w
  | .keep => keep w
  | .keep_internal => (keep_internal w, none)
  | .release => release w
  | .object_status_changed type => object_status_changed w type
  | .obj => obj w
  | .signal_handler meth => signal_handler w meth
  | .clear_callbacks_cache => (clear_callbacks_cache w, none)

/-- Runs a sequence of entry points, going on after an exception (the script
catches it). -/
def run (ops : List Op) (w : World) : World :=
  ops.foldl (fun acc op => (step op acc).1) w

/-- A freshly constructed wrapper in given surroundings. -/
def World.fresh (ty : PyTypeObject) (cls_decl : Option ClassBase)
    (cache : List (Nat × List MethodBase)) (interp : Bool) (kept : List Nat)
    (top : Nat) : World :=
  { self := PYAObjectBase.new ty cls_decl, s_callbacks_cache := cache,
    interpreter := interp, kept := kept, heap_top := top, slots := [], trace := [] }

/-- The states a wrapper reaches from its construction: by its entry points, and
by the surroundings starting or stopping the interpreter or keeping handles. -/
inductive Reachable : World → Prop where
  | fresh (ty : PyTypeObject) (cls_decl : Option ClassBase)
      (cache : List (Nat × List MethodBase)) (interp : Bool) (kept : List Nat) (top : Nat) :
      Reachable (World.fresh ty cls_decl cache interp kept top)
  | step (op : Op) (w : World) : Reachable w → Reachable (step op w).1
  | surroundings (interp : Bool) (kept : List Nat) (w : World) :
      Reachable w → Reachable { w with interpreter := interp, kept := kept }

/-- Whether the wrapper has a class descriptor of a managed class. -/
def World.managed (w : World) : Bool :=
  match w.self.m_cls_decl with
  | some cls => cls.is_managed
  | none => false

/-- Whether `detach` unsubscribes the lifecycle listener. -/
def World.unsubscribes (w : World) : Bool :=
  w.self.m_obj != 0 && !w.self.m_destroyed && w.managed

/-- Number of trace entries whose call satisfies `p`. -/
def count_calls (p : Call → Bool) (t : List Event) : Nat :=
  t.countP (fun e => p e.call)

/-- Retentions taken so far: the `Py_INCREF (this)` calls of the trace. -/
def retentions_taken (w : World) : Nat := count_calls (fun c => c == .py_incref) w.trace

/-- Retentions dropped so far: the `Py_DECREF (this)` calls of the trace. -/
def retentions_dropped (w : World) : Nat := count_calls (fun c => c == .py_decref) w.trace

/-- Native frees so far: the calls of the class's `destroy`. -/
def native_destroys (w : World) : Nat :=
  count_calls (fun c => match c with | .cls_destroy _ => true | _ => false) w.trace

/-- Native constructions so far: the calls of the class's `create`. -/
def native_creates (w : World) : Nat :=
  count_calls (fun c => match c with | .cls_create _ => true | _ => false) w.trace

/-- Unsubscriptions of the lifecycle listener so far. -/
def listener_removals (w : World) : Nat :=
  count_calls (fun c => match c with | .listener_remove _ => true | _ => false) w.trace

/-- Subscriptions of the lifecycle listener so far. -/
def listener_additions (w : World) : Nat :=
  count_calls (fun c => match c with | .listener_add _ => true | _ => false) w.trace

/-- The counters that count neither native callback slot updates nor hierarchy
walks. -/
def ignores_bookkeeping (p : Call → Bool) : Prop :=
  (∀ o m id, p (.set_callback o m id) = false) ∧ ∀ a, p (.hierarchy_walk a) = false

/-- Every entry of `ext` is a `set_callback` call or a hierarchy walk, made while
`m_destroyed` was `d`. -/
def bookkeeping (d : Bool) (ext : List Event) : Prop :=
  ∀ e ∈ ext,
    ((∃ o m id, e.call = .set_callback o m id) ∨ ∃ a, e.call = .hierarchy_walk a)
      ∧ e.at_destroyed = d

/-- What `detach` leaves of the wrapper members. -/
def detached (w : World) : PYAObjectBase :=
  if w.self.m_obj != 0 then
    { w.self with
      m_listener := if w.unsubscribes
                    then w.self.m_listener.filter (fun x => x != w.self.m_obj)
                    else w.self.m_listener,
      m_callee := [], m_obj := 0, m_const_ref := false, m_owned := false,
      m_can_destroy := false }
  else w.self

/-- The unsubscription `detach` logs, if it makes one. -/
def unsubscription (w : World) : List Event :=
  if w.unsubscribes then
    [⟨.listener_remove w.self.m_obj, w.self.m_obj, w.self.m_owned, w.self.m_destroyed⟩]
  else []

/-! ## Sample data -/

/-- An overridable method `area ()`. -/
def area : MethodBase := ⟨"area", 0⟩

/-- A native class `Shape` declaring `area` as overridable. -/
def Shape (managed : Bool) : ClassBase := .root "Shape" managed [area]

/-- A script subclass of `Shape` that overrides `area`. -/
def MyShape : PyTypeObject := ⟨100, [("area", .function 7 1)]⟩

/-- A fresh wrapper of class `Shape` and script class `MyShape`, with the interpreter
running, an empty callbacks cache and the given handles kept by native code. -/
def sample (managed : Bool) (kept : List Nat) : World :=
  World.fresh MyShape (some (Shape managed)) [] true kept 10

/-- The sample wrapper after `set (5, owned, false, can_destroy)`. -/
def attached (managed : Bool) (kept : List Nat) (owned can_destroy : Bool) : World :=
  (set (sample managed kept) 5 owned false can_destroy).1

/-! ## Invariants of the reachable states -/

/-- Three facts about every state a wrapper reaches: a handle is attached only when
there is a class descriptor, a script-owned wrapper of a managed class has a
handle, and the listener of a wrapper of a managed class is subscribed to the
attached handle. -/
def Inv (w : World) : Prop :=
  (w.self.m_cls_decl = none → w.self.m_obj = 0)
    ∧ (w.managed = true → w.self.m_owned = true → w.self.m_obj ≠ 0)
    ∧ (w.managed = true → w.self.m_obj ≠ 0 → w.self.m_obj ∈ w.self.m_listener)

/-- What every piece of the code keeps between the world it starts in and the one it
ends in: the class descriptor, a destroyed flag that is set, and `Inv`. -/
def Keeps (w w2 : World) : Prop :=
  w2.self.m_cls_decl = w.self.m_cls_decl
    ∧ (w.self.m_destroyed = true → w2.self.m_destroyed = true)
    ∧ (Inv w → Inv w2)

/-- The sample wrapper, attached as script-owned to the handle `5` of the unmanaged
class, after `signal_handler (area)` has put a relay into its signal table. -/
def listening : World := (signal_handler (attached false [] true true) area).1

/-! ## CallbackFunction: resolution and equality -/

/-- Address of a script object: what a pointer comparison sees. -/
def PyObject.addr : PyObject → Nat
  | .object a => a
  | .function a _ => a
  | .cfunction a => a
  | .unbound_method a _ => a
  | .method a _ _ => a
  | .slotted a => a

/-- A borrowed script pointer as the C API returns it: null, `Py_None`, or an
object given by its address. -/
inductive PyRef where
  | null
  | py_none
  | object (addr : Nat)
  deriving DecidableEq, Repr

/-- The call `PyWeakref_GetObject (ref)`: the referent, `Py_None` once the referent
has expired, null for a null reference.  `expired` lists the addresses of the
objects that have been dropped. -/
def PyWeakref_GetObject (expired : List Nat) : Option PyObject → PyRef
  | none => .null
  | some s => if expired.contains s.addr then .py_none else .object s.addr

/-- The call `PyMethod_New (func, self)`.  The bound method is a temporary; its own
address is not modelled. -/
def PyMethod_New (func self : PyObject) : PyObject := .method 0 self func

/-- Member `CallbackFunction::method`. -/
def CallbackFunction.method (c : CallbackFunction) : Option MethodBase := c.mp_method

/-- Member `CallbackFunction::callable`; `none` is the null `PythonRef ()`. -/
def CallbackFunction.callable (expired : List Nat) (c : CallbackFunction) : Option PyObject :=
  match c.m_callable, c.m_weak_self with
  | some func, some self =>
    match PyWeakref_GetObject expired (some self) with
    | .py_none => none
    | _ => some (PyMethod_New func self)
  | _, _ => c.m_callable

/-- Member `CallbackFunction::is_instance_method`. -/
def CallbackFunction.is_instance_method (c : CallbackFunction) : Bool :=
  c.m_callable.isSome && c.m_weak_self.isSome

/-- Member `CallbackFunction::self_ref`. -/
def CallbackFunction.self_ref (expired : List Nat) (c : CallbackFunction) : PyRef :=
  PyWeakref_GetObject expired c.m_weak_self

/-- Member `CallbackFunction::callable_ref`: the pointer `m_callable.get ()`, `none`
when it is null. -/
def CallbackFunction.callable_ref (c : CallbackFunction) : Option Nat :=
  c.m_callable.map PyObject.addr

/-- Member `CallbackFunction::operator==`. -/
def CallbackFunction.equals (expired : List Nat) (c other : CallbackFunction) : Bool :=
  if c.is_instance_method != other.is_instance_method then false
  else if c.m_weak_self.isSome && (c.self_ref expired != other.self_ref expired) then false
  else c.callable_ref == other.callable_ref

/-! ## SignalHandler: subscription -/

/-- Member `SignalHandler::remove`. -/
def SignalHandler.remove (expired : List Nat) (h : SignalHandler) (callable : Option PyObject) :
    SignalHandler :=
  let cbref := CallbackFunction.new callable none
  h.eraseP (fun c => c.equals expired cbref)

/-- Member `SignalHandler::add`. -/
def SignalHandler.add (expired : List Nat) (h : SignalHandler) (callable : Option PyObject) :
    SignalHandler :=
  SignalHandler.remove expired h callable ++ [CallbackFunction.new callable none]

/-- Member `SignalHandler::clear`. -/
def SignalHandler.clear (_h : SignalHandler) : SignalHandler := []

/-- Member `SignalHandler::assign`. -/
def SignalHandler.assign (_h other : SignalHandler) : SignalHandler := other

/-- The subscription calls on a relay. -/
inductive RelayOp where
  | add (callable : Option PyObject)
  | remove (callable : Option PyObject)
  deriving DecidableEq, Repr

/-- Runs one subscription call. -/
def SignalHandler.apply (expired : List Nat) (h : SignalHandler) : RelayOp → SignalHandler
  | .add f => SignalHandler.add expired h f
  | .remove f => SignalHandler.remove expired h f

/-- The relay reached from `h` by a sequence of subscription calls. -/
def SignalHandler.run (expired : List Nat) (ops : List RelayOp) (h : SignalHandler) :
    SignalHandler :=
  ops.foldl (SignalHandler.apply expired) h

/-- The callable a subscription call is made with. -/
def RelayOp.callable : RelayOp → Option PyObject
  | .add f => f
  | .remove f => f

/-- The relay reached from `h` by a sequence of subscription calls, each made with
the set of objects that have expired by the time of the call. -/
def SignalHandler.run_at (steps : List (List Nat × RelayOp)) (h : SignalHandler) :
    SignalHandler :=
  steps.foldl (fun acc p => SignalHandler.apply p.1 acc p.2) h

/-- What a callback stores of the callable it was built from: whether it is
decomposed, the receiver its weak reference was made for, and the callable pointer. -/
def CallbackFunction.identity (c : CallbackFunction) : Bool × Option Nat × Option Nat :=
  (c.is_instance_method, c.m_weak_self.map PyObject.addr, c.callable_ref)

/-- The receiver the callback refers to weakly, if it has one, has not expired. -/
def CallbackFunction.live (expired : List Nat) (c : CallbackFunction) : Bool :=
  match c.m_weak_self with
  | some s => !expired.contains s.addr
  | none => true

/-- Every call of the sequence is made with a callable whose receiver is alive at
the time of the call. -/
def SignalHandler.live_calls (steps : List (List Nat × RelayOp)) : Bool :=
  steps.all (fun p => (CallbackFunction.new p.2.callable none).live p.1)

/-- No two entries of the relay store the same receiver and callable. -/
def SignalHandler.distinct (h : SignalHandler) : Prop :=
  h.Pairwise (fun a b => a.identity ≠ b.identity)

/-- What decides `operator==` on callbacks the constructor has built: whether the
callback is decomposed, what its receiver resolves to, and the callable pointer. -/
def CallbackFunction.key (expired : List Nat) (c : CallbackFunction) :
    Bool × PyRef × Option Nat :=
  (c.is_instance_method, c.self_ref expired, c.callable_ref)

/-- Every entry of the relay was built by the constructor of `CallbackFunction`. -/
def SignalHandler.built (h : SignalHandler) : Prop :=
  ∀ c ∈ h, ∃ g m, c = CallbackFunction.new g m

/-- No two entries of the relay are equal under `operator==`. -/
def SignalHandler.unique (expired : List Nat) (h : SignalHandler) : Prop :=
  h.Pairwise (fun a b => a.equals expired b = false)

/-! ## Calls from native code into script: Callee and SignalHandler -/

/-- What a script call ends in: `PyObject_CallObject` returns a value, or returns
null and `check_error` throws the script exception or the interpreter-exit
request. -/
inductive PyResult where
  | value (v : Nat)
  | error (msg : String)
  | system_exit
  deriving DecidableEq, Repr

/-- The script runtime and the Value Marshaler as a call into script sees them:
which objects have expired, what calling a callable on an argument tuple ends in,
and how many temporaries `pop_arg` (per native argument) and `push_arg` (for a
script result) leave in the heap they are given.  Values pass the marshaler
unchanged. -/
structure Runtime where
  expired : List Nat
  call_object : PyObject → List (Option Nat) → PyResult
  pop_temps : Nat → Nat
  push_temps : Option Nat → Nat

/-- Exceptions that leave a call into script.  `calling_method` is the
`tl::Exception` that `Callee::call` builds around the message of another one;
`null_callable` stands for handing a null callable to the C API of the script
runtime, `null_method` and `bad_index` for a null method descriptor and an id
outside the dispatch table (all three undefined behaviour). -/
inductive CallExn where
  | python_error (msg : String) (context : Option String)
  | exit_exception
  | assertion (cond : String)
  | calling_method (context : String) (cause : CallExn)
  | null_callable
  | null_method
  | bad_index
  deriving DecidableEq, Repr

/-- One script call: the callable and the argument tuple (a null item is `none`). -/
structure Invocation where
  callable : PyObject
  args : List (Option Nat)
  deriving DecidableEq, Repr

/-- What a call into script did: the script calls in order, what `push_arg` was
given to store in `ret` (if it was called), and the exception if one left. -/
structure Outcome where
  calls : List Invocation
  ret : Option (Option Nat)
  error : Option CallExn
  deriving DecidableEq, Repr

/-- The argument tuple: `PyTuple_New (n)` filled by the loop
`for (a = begin_arguments (); args && a != end_arguments (); ++a)`. -/
def build_argv (n : Nat) (args : List Nat) : List (Option Nat) :=
  (args.take n).map some ++ List.replicate (n - args.length) none

/-- Temporaries the `pop_arg` calls of that loop leave in their heap. -/
def popped_temps (rt : Runtime) (n : Nat) (args : List Nat) : Nat :=
  ((args.take n).map rt.pop_temps).sum

/-- Attribute chain `__code__.co_argcount` of a callable, if it has one. -/
def co_argcount : PyObject → Option Nat
  | .function _ n => some n
  | .method _ _ func => co_argcount func
  | .unbound_method _ func => co_argcount func
  | _ => none

/-- Test `PyObject_HasAttrString (callable, "__self__")`. -/
def has_self_attr : PyObject → Bool
  | .method _ _ _ => true
  | .unbound_method _ _ => true
  | .cfunction _ => true
  | _ => false

/-- The block "determine the number of arguments required" of `SignalHandler::call`:
the count, and whether the block leaves an error pending.  When the lookup of
`__code__` or of `co_argcount` fails, the count stays `args_avail` and the
`AttributeError` that the failed `PyObject_GetAttrString` has set stays pending: the
block has no `PyErr_Clear`. -/
def arg_count (args_avail : Nat) (callable : PyObject) : Int × Bool :=
  if args_avail > 0 then
    match co_argcount callable with
    | some ac => (if has_self_attr callable then (ac : Int) - 1 else (ac : Int), false)
    | none => ((args_avail : Int), true)
  else ((args_avail : Int), false)

/-- The call `PyObject_CallObject (callable, args)` as the script runtime answers it
when an error may be pending on entry: the runtime hands out no result while an
error is set (a value the callable returns is replaced by the null result and a
`SystemError`), so the caller sees a failed call. -/
def PyObject_CallObject (rt : Runtime) (pending : Bool) (callable : PyObject)
    (args : List (Option Nat)) : PyResult :=
  match rt.call_object callable args with
  | .value v => if pending then .error "returned a result with an error set" else .value v
  | r => r

/-- The block "use less arguments if applicable" of `SignalHandler::call`: the
tuple the callable is called with (`PyTuple_GetSlice` clips a negative bound). -/
def pass_args (args_avail : Nat) (argv : List (Option Nat)) (count : Int) : List (Option Nat) :=
  if count = 0 then []
  else if count < (args_avail : Int) then argv.take count.toNat
  else argv

/-- The subscriber loop of `SignalHandler::call`: the script calls made, and the
last result or the exception that ended the loop. -/
def SignalHandler.invoke_all (rt : Runtime) (args_avail : Nat) (argv : List (Option Nat)) :
    List CallbackFunction → Option Nat → List Invocation × Except CallExn (Option Nat)
  | [], result => ([], .ok result)
  | c :: cs, _ =>
    match c.callable rt.expired with
    | none => ([], .error .null_callable)
    | some callable =>
      let count := arg_count args_avail callable
      let argl := pass_args args_avail argv count.1
      match PyObject_CallObject rt count.2 callable argl with
      | .value v =>
        let r := SignalHandler.invoke_all rt args_avail argv cs (some v)
        (⟨callable, argl⟩ :: r.1, r.2)
      | .error msg => ([⟨callable, argl⟩], .error (.python_error msg none))
      | .system_exit => ([⟨callable, argl⟩], .error .exit_exception)

/-- Member `SignalHandler::call`. -/
def SignalHandler.call (rt : Runtime) (h : SignalHandler) (meth : MethodBase)
    (args : List Nat) : Outcome :=
  let args_avail := meth.n_arguments
  let argv := build_argv args_avail args
  let r := SignalHandler.invoke_all rt args_avail argv h none
  match r.2 with
  | .error e => { calls := r.1, ret := none, error := some e }
  | .ok result =>
    if popped_temps rt args_avail args + rt.push_temps result != 0 then
      { calls := r.1, ret := some result, error := some (.assertion "heap.empty ()") }
    else { calls := r.1, ret := some result, error := none }

/-- Member `Callee::call`.  `cls_name` is `mp_obj->cls_decl ()->name ()`, and `mp_obj`
the wrapper as a script value.  The temporaries of `pop_arg` go to the heap declared
before `if (callable)`, those of `push_arg` to the second heap declared inside, which
is the one the assertion looks at. -/
def Callee.call (rt : Runtime) (cls_name : String) (mp_obj : Nat) (c : Callee) (id : Nat)
    (args : List Nat) : Outcome :=
  match List.get? c id with
  | none => { calls := [], ret := none, error := some .bad_index }
  | some cb =>
    match cb.callable rt.expired with
    | none => { calls := [], ret := none, error := none }
    | some callable =>
      match cb.method with
      | none => { calls := [], ret := none, error := some .null_method }
      | some meth =>
        let argv := some mp_obj :: build_argv meth.n_arguments args
        let context := cls_name ++ "." ++ meth.primary_name
        match rt.call_object callable argv with
        | .value v =>
          if rt.push_temps (some v) != 0 then
            { calls := [⟨callable, argv⟩], ret := some (some v),
              error := some (.calling_method context (.assertion "heap.empty ()")) }
          else { calls := [⟨callable, argv⟩], ret := some (some v), error := none }
        | .error msg =>
          { calls := [⟨callable, argv⟩], ret := none,
            error := some (.python_error msg (some context)) }
        | .system_exit =>
          { calls := [⟨callable, argv⟩], ret := none, error := some .exit_exception }

/-- Modelled from the spec: what native code takes as the result of a dispatch, the
value stored in the return buffer, or the return type's default value when nothing
was stored. -/
def native_result (default_value : Nat) (o : Outcome) : Nat :=
  match o.ret with
  | some (some v) => v
  | _ => default_value

/-! ## The spec's wording of equality and construction -/

/-- Equality of two callbacks as the spec words it, on the callables they were built
from: receiver identity and function identity for two bound methods, callable
identity for two other callables, never equal across the two kinds. -/
def spec_equals (p q : Option PyObject) : Bool :=
  match p, q with
  | some (.method _ s f), some (.method _ t g) => s.addr == t.addr && f.addr == g.addr
  | some (.method _ _ _), _ => false
  | _, some (.method _ _ _) => false
  | _, _ => p.map PyObject.addr == q.map PyObject.addr

/-- Whether the callable is a bound method whose receiver has expired. -/
def receiver_expired (expired : List Nat) : Option PyObject → Bool
  | some (.method _ s _) => expired.contains s.addr
  | _ => false

/-- Construction as the spec words it: the callable is decomposed only when it is a
bound method whose receiver is the wrapper's own script object, at address `own`. -/
def CallbackFunction.spec_new (own : Nat) (pym : Option PyObject) (m : Option MethodBase) :
    CallbackFunction :=
  match pym with
  | some (.method _ self func) =>
    if self.addr == own then
      { mp_method := m, m_callable := some func, m_weak_self := some self }
    else { mp_method := m, m_callable := pym, m_weak_self := none }
  | _ => { mp_method := m, m_callable := pym, m_weak_self := none }

/-- A bound method `on_changed` of the object at address `receiver`. -/
def on_changed (receiver : Nat) : PyObject :=
  .method (receiver + 1000) (.object receiver) (.function 7 1)

/-- A bound method `on_changed` of the object at address `receiver`, whose type does
not support weak references. -/
def on_slotted (receiver : Nat) : PyObject :=
  .method (receiver + 1000) (.slotted receiver) (.function 7 1)

/-- A script runtime in which the objects at the given addresses have expired, every
call returns the address of the callable plus 100, and the marshaler leaves no
temporaries. -/
def sample_runtime (expired : List Nat) : Runtime :=
  { expired := expired, call_object := fun f _ => .value (f.addr + 100),
    pop_temps := fun _ => 0, push_temps := fun _ => 0 }

/-- Number of positional arguments a callable declares, as the spec words it: the
parameters of a function; for a bound method the parameters of its function less the
one the receiver takes; for a method object without a receiver the parameters of its
function; `none` for every other callable, whose arity cannot be introspected. -/
def declared_args : PyObject → Option Int
  | .function _ k => some (k : Int)
  | .method _ _ (.function _ k) => some ((k : Int) - 1)
  | .unbound_method _ (.function _ k) => some (k : Int)
  | _ => none

/-- The arguments a subscriber is called with, as the spec words it: a front-aligned
slice of the `n` available arguments sized to what the callable declares, none if it
declares none, all of them if it declares `n` or more or cannot be introspected. -/
def spec_args (n : Nat) (argv : List (Option Nat)) (callable : PyObject) : List (Option Nat) :=
  match declared_args callable with
  | none => argv
  | some k => if k ≤ 0 then [] else if k < (n : Int) then argv.take k.toNat else argv

/-- The argument tuple the subscriber loop of `SignalHandler::call` passes to the
callable of one subscriber. -/
def SignalHandler.passed (n : Nat) (argv : List (Option Nat)) (f : PyObject) :
    List (Option Nat) :=
  pass_args n argv (arg_count n f).1

/-- What the call of one subscriber ends in, as the subscriber loop of
`SignalHandler::call` makes it. -/
def SignalHandler.result_of (rt : Runtime) (n : Nat) (argv : List (Option Nat))
    (f : PyObject) : PyResult :=
  PyObject_CallObject rt (arg_count n f).2 f (SignalHandler.passed n argv f)

/-- One call per subscriber that resolves, in registration order, each with the
arguments the subscriber loop passes. -/
def SignalHandler.invocations (rt : Runtime) (n : Nat) (argv : List (Option Nat))
    (h : SignalHandler) : List Invocation :=
  h.filterMap (fun c =>
    (c.callable rt.expired).map (fun f => ⟨f, SignalHandler.passed n argv f⟩))

/-- Every subscriber resolves, and its call, as the subscriber loop makes it,
returns a value. -/
def SignalHandler.all_return (rt : Runtime) (n : Nat) (argv : List (Option Nat))
    (h : SignalHandler) : Prop :=
  ∀ c ∈ h, ∃ f v, c.callable rt.expired = some f
    ∧ SignalHandler.result_of rt n argv f = .value v

/-- An event `changed` with two arguments. -/
def changed : MethodBase := ⟨"changed", 2⟩

/-- A relay with three plain functions that declare 0, 1 and 2 arguments. -/
def three_subscribers : SignalHandler :=
  [CallbackFunction.new (some (.function 1 0)) none,
   CallbackFunction.new (some (.function 2 1)) none,
   CallbackFunction.new (some (.function 3 2)) none]

/-- A script runtime in which the call of the callable at address 2 raises and every
other call returns the address of the callable. -/
def raising_runtime : Runtime :=
  { expired := [],
    call_object := fun f _ => if f.addr = 2 then .error "boom" else .value f.addr,
    pop_temps := fun _ => 0, push_temps := fun _ => 0 }

/-! ## Several wrappers in shared surroundings -/

/-- Several Bound Objects and the surroundings they share. -/
structure System where
  objs : List PYAObjectBase
  s_callbacks_cache : List (Nat × List MethodBase)
  interpreter : Bool
  kept : List Nat
  heap_top : Nat
  slots : List (Nat × MethodBase × Nat)
  trace : List Event
  deriving DecidableEq, Repr

/-- The world of one wrapper of the system. -/
def System.focus (s : System) (a : PYAObjectBase) : World :=
  { self := a, s_callbacks_cache := s.s_callbacks_cache, interpreter := s.interpreter,
    kept := s.kept, heap_top := s.heap_top, slots := s.slots, trace := s.trace }

/-- Runs one entry point of the wrapper at index `i`; the other wrappers are not
touched (a status notification to another wrapper is a step of its own). -/
def System.step (s : System) (i : Nat) (op : Op) : System × Option Exn :=
  match List.get? s.objs i with
  | none => (s, none)
  | some a =>
    let r := pya.step op (s.focus a)
    ({ objs := s.objs.set i r.1.self, s_callbacks_cache := r.1.s_callbacks_cache,
       interpreter := r.1.interpreter, kept := r.1.kept, heap_top := r.1.heap_top,
       slots := r.1.slots, trace := r.1.trace }, r.2)

/-- Runs a sequence of entry points, each on the wrapper at the given index. -/
def System.run (s : System) (ops : List (Nat × Op)) : System :=
  ops.foldl (fun acc p => (acc.step p.1 p.2).1) s

/-- Number of wrappers that have the handle `o` attached. -/
def System.holders (s : System) (o : Nat) : Nat :=
  s.objs.countP (fun a => a.m_obj == o)

/-- Hierarchy walks so far. -/
def hierarchy_walks (t : List Event) : Nat :=
  count_calls (fun c => match c with | .hierarchy_walk _ => true | _ => false) t

/-- Two fresh wrappers of the unmanaged class `Shape`, both of script class
`MyShape`, with an empty callbacks cache. -/
def two_wrappers : System :=
  { objs := [PYAObjectBase.new MyShape (some (Shape false)),
             PYAObjectBase.new MyShape (some (Shape false))],
    s_callbacks_cache := [], interpreter := true, kept := [], heap_top := 10, slots := [],
    trace := [] }

/-- Every entry of `ext` is a `set_callback` call. -/
def slot_updates (ext : List Event) : Prop :=
  ∀ e ∈ ext, ∃ o m id, e.call = .set_callback o m id

/-- The cache entries of `w` are still there in `w2`. -/
def CacheKept (w w2 : World) : Prop :=
  ∀ t e, cache_find w.s_callbacks_cache t = some e → cache_find w2.s_callbacks_cache t = some e

/-- The callback `initialize_callbacks` installs for a cached method. -/
def installed (ty : PyTypeObject) (m : MethodBase) : CallbackFunction :=
  CallbackFunction.new (PyObject_GetAttrString ty m.primary_name) (some m)

/-- Whether the script class overrides the method, as the spec words it: it has the
attribute, and the attribute is not a native stub. -/
def overrides (ty : PyTypeObject) (m : MethodBase) : Bool :=
  match PyObject_GetAttrString ty m.primary_name with
  | none => false
  | some py_attr => !PyCFunction_Check py_attr

/-- The cache entry of a script class as the spec words it: the overridable methods
the class overrides, from the most-derived native class upward. -/
def spec_entry (ty : PyTypeObject) : ClassBase → List MethodBase
  | .root _ _ cbs => cbs.filter (overrides ty)
  | .derived _ _ cbs parent => cbs.filter (overrides ty) ++ spec_entry ty parent


/-! ## Sample data for calls into script -/

/-- An overridable method `scaled (factor)` with one argument. -/
def scaled : MethodBase := ⟨"scaled", 1⟩

/-- A dispatch table whose entry `0` is the script function that overrides `scaled`
(it declares the receiver and one argument). -/
def scaled_table : Callee := [CallbackFunction.new (some (.function 7 2)) (some scaled)]

/-- A script runtime in which nothing has expired, every call returns the address of
the callable plus 100, `pop_arg` leaves one temporary per native argument and
`push_arg` leaves none. -/
def leaky_runtime : Runtime :=
  { expired := [], call_object := fun f _ => .value (f.addr + 100),
    pop_temps := fun _ => 1, push_temps := fun _ => 0 }

/-! ## Native callback slots -/

/-- Every native callback slot holds an id inside the wrapper's dispatch table. -/
def slots_valid (w : World) : Bool :=
  w.slots.all (fun x => decide (x.2.2 < w.self.m_callee.length))

/-- The sample wrapper after it was attached to the handle `5` as script-owned, the
callbacks cache was invalidated, and the wrapper was detached. -/
def stale : World :=
  run [.set 5 true false true, .clear_callbacks_cache, .detach] (sample false [])

/-- The sample wrapper of the managed class after a successful `destroy ()`. -/
def destroyed_sample : World := (destroy (sample true [])).1

/-! ## The balance of retentions -/

/-- Retentions the members of the wrapper account for: one while a handle is attached
and the wrapper is native-owned, none otherwise. -/
def held (w : World) : Nat :=
  if w.self.m_obj != 0 && !w.self.m_owned then 1 else 0

/-- The retentions taken so far are those dropped plus the one the members account
for, and a wrapper without a handle has `m_owned = false`. -/
def Balance (w : World) : Prop :=
  retentions_taken w = retentions_dropped w + held w
    ∧ (w.self.m_obj = 0 → w.self.m_owned = false)

/-- Whether `obj ()` would create a handle of a managed class that native code has
kept during construction. -/
def World.creates_kept (w : World) : Bool :=
  w.self.m_obj == 0 && !w.self.m_destroyed && w.managed && already_kept w (w.heap_top + 1)

/-- The calls of the entry points under which the retentions stay balanced.  Left
out are: `set` of a kept handle of a managed class as script-owned, and a lazy
creation of such a handle; `detach` and a `destroy` that goes through, of a
native-owned wrapper or of a wrapper that is marked destroyed; `release` without a
handle on a wrapper of a class that is not managed; the `ObjectDestroyed` status
without a handle. -/
def keeps_balance (w : World) : Op → Bool
  | .set o owned _ _ => w.self.m_obj != 0 || !(owned && w.managed && already_kept w o)
  | .detach => w.self.m_obj == 0 || w.self.m_owned
  | .destroy =>
    w.self.m_obj == 0 || !w.self.m_can_destroy || (w.self.m_owned && !w.self.m_destroyed)
  | .release => (w.self.m_obj != 0 || w.managed) && !w.creates_kept
  | .object_status_changed .ObjectRelease => (w.self.m_obj != 0 || w.managed) && !w.creates_kept
  | .object_status_changed .ObjectDestroyed => w.self.m_obj != 0 || !w.interpreter
  | .object_status_changed .ObjectKeep => true
  | .keep => !w.creates_kept
  | .obj => !w.creates_kept
  | .signal_handler _ => !w.creates_kept
  | .keep_internal => true
  | .clear_callbacks_cache => true

/-- Every call of the sequence is one under which the retentions stay balanced, in
the state it is made in. -/
def admissible : World → List Op → Bool
  | _, [] => true
  | w, op :: ops => keeps_balance w op && admissible (step op w).1 ops
/-! ## Frame lemmas -/

@[simp] theorem log_self (c : Call) (w : World) : (log c w).self = w.self := rfl

@[simp] theorem log_trace (c : Call) (w : World) :
    (log c w).trace = w.trace ++ [⟨c, w.self.m_obj, w.self.m_owned, w.self.m_destroyed⟩] := rfl

@[simp] theorem log_cache (c : Call) (w : World) :
    (log c w).s_callbacks_cache = w.s_callbacks_cache := rfl

@[simp] theorem log_interpreter (c : Call) (w : World) :
    (log c w).interpreter = w.interpreter := rfl

@[simp] theorem log_kept (c : Call) (w : World) : (log c w).kept = w.kept := rfl

@[simp] theorem log_heap_top (c : Call) (w : World) : (log c w).heap_top = w.heap_top := rfl

@[simp] theorem log_slots (c : Call) (w : World) : (log c w).slots = w.slots := rfl

theorem count_calls_append (p : Call → Bool) (t u : List Event) :
    count_calls p (t ++ u) = count_calls p t + count_calls p u := by
  simp [count_calls, List.countP_append]

@[simp] theorem count_calls_nil (p : Call → Bool) : count_calls p [] = 0 := rfl

@[simp] theorem count_calls_cons (p : Call → Bool) (e : Event) (t : List Event) :
    count_calls p (e :: t) = (if p e.call then 1 else 0) + count_calls p t := by
  simp [count_calls, List.countP_cons, Nat.add_comm]

@[simp] theorem count_calls_snoc (p : Call → Bool) (t : List Event) (e : Event) :
    count_calls p (t ++ [e]) = count_calls p t + (if p e.call then 1 else 0) := by
  simp [count_calls, List.countP_append, List.countP_cons]

theorem bookkeeping_nil (d : Bool) : bookkeeping d [] := by
  intro e he; simp at he

theorem bookkeeping_append {d : Bool} {a b : List Event}
    (ha : bookkeeping d a) (hb : bookkeeping d b) : bookkeeping d (a ++ b) := by
  intro e he
  rcases List.mem_append.mp he with h | h
  · exact ha e h
  · exact hb e h

theorem bookkeeping_cons {d : Bool} {e : Event} {b : List Event}
    (hc : (∃ o m id, e.call = .set_callback o m id) ∨ ∃ a, e.call = .hierarchy_walk a)
    (hd : e.at_destroyed = d) (hb : bookkeeping d b) : bookkeeping d (e :: b) := by
  intro x hx
  rcases List.mem_cons.mp hx with h | h
  · subst h; exact ⟨hc, hd⟩
  · exact hb x h

theorem count_calls_bookkeeping {p : Call → Bool} (hp : ignores_bookkeeping p) {d : Bool}
    {ext : List Event} (h : bookkeeping d ext) : count_calls p ext = 0 := by
  unfold count_calls
  rw [List.countP_eq_zero]
  intro e he
  rcases (h e he).1 with ⟨o, m, id, hc⟩ | ⟨a, hc⟩
  · simp [hc, hp.1 o m id]
  · simp [hc, hp.2 a]

theorem clear_slots_frame (entry : List MethodBase) (w : World) :
    ∃ s ext, entry.foldl (fun acc m => set_callback acc acc.self.m_obj m none) w
        = { w with slots := s, trace := w.trace ++ ext }
      ∧ bookkeeping w.self.m_destroyed ext := by
  induction entry generalizing w with
  | nil => exact ⟨w.slots, [], by simp, bookkeeping_nil _⟩
  | cons m ms ih =>
    obtain ⟨s, ext, h1, h2⟩ := ih (set_callback w w.self.m_obj m none)
    refine ⟨s, ⟨.set_callback w.self.m_obj m none, w.self.m_obj, w.self.m_owned,
      w.self.m_destroyed⟩ :: ext, ?_, ?_⟩
    · rw [List.foldl_cons, h1]
      simp [set_callback, log]
    · exact bookkeeping_cons (Or.inl ⟨_, _, _, rfl⟩) rfl h2

theorem detach_callbacks_frame (w : World) :
    ∃ s ext, detach_callbacks w
        = { w with self := { w.self with m_callee := [] }, slots := s,
                   trace := w.trace ++ ext }
      ∧ bookkeeping w.self.m_destroyed ext := by
  unfold detach_callbacks
  cases h : cache_find w.s_callbacks_cache w.self.ob_type.addr with
  | none => exact ⟨w.slots, [], by simp [Callee.clear_callbacks], bookkeeping_nil _⟩
  | some entry =>
    obtain ⟨s, ext, h1, h2⟩ := clear_slots_frame entry w
    exact ⟨s, ext, by simp [h1, Callee.clear_callbacks], h2⟩

theorem detach_listener_eq (w : World) :
    detach_listener w = if w.unsubscribes then listener_remove w w.self.m_obj else w := by
  unfold detach_listener World.unsubscribes World.managed
  cases hc : w.self.m_cls_decl with
  | none => simp
  | some cls =>
    by_cases h0 : w.self.m_obj = 0 <;>
    cases hd : w.self.m_destroyed <;> cases hm : cls.is_managed <;>
      simp [h0, ClassBase.gsi_object, hm]

theorem detach_frame (w : World) :
    ∃ s ext, detach w
        = { w with self := detached w, slots := s,
                   trace := w.trace ++ unsubscription w ++ ext }
      ∧ bookkeeping w.self.m_destroyed ext := by
  unfold detach
  by_cases h0 : w.self.m_obj = 0
  · exact ⟨w.slots, [], by simp [h0, World.unsubscribes, detached, unsubscription],
      bookkeeping_nil _⟩
  · simp only [bne_iff_ne, ne_eq, h0, not_false_eq_true, if_true]
    obtain ⟨s, ext, h1, h2⟩ := detach_callbacks_frame (detach_listener w)
    refine ⟨s, ext, ?_, ?_⟩
    · show ({ (detach_callbacks (detach_listener w)) with self := _ } : World) = _
      rw [h1, detach_listener_eq]
      cases hu : w.unsubscribes <;> simp [listener_remove, detached, unsubscription, hu, h0, log]
    · rw [detach_listener_eq] at h2
      cases hu : w.unsubscribes <;> simpa [hu, listener_remove] using h2

/-! ## Explicit destruction -/

theorem detach_obj (w : World) : (detach w).self.m_obj = 0 := by
  obtain ⟨s, ext, h, _⟩ := detach_frame w
  rw [h]
  by_cases h0 : w.self.m_obj = 0 <;> simp [detached, h0]

theorem detach_idle (w : World) (h0 : w.self.m_obj = 0) : detach w = w := by
  simp [detach, h0]

theorem notify_destroyed_idle (w : World) (h0 : w.self.m_obj = 0) :
    (object_status_changed w .ObjectDestroyed).1
      = if w.interpreter then
          (if w.self.m_owned then { w with self := { w.self with m_destroyed := true } }
           else Py_DECREF { w with self := { w.self with m_destroyed := true } })
        else w := by
  unfold object_status_changed
  cases hi : w.interpreter <;> cases ho : w.self.m_owned <;> simp [detach_idle, h0]

/-- What the native `destroy` of a handle does to a wrapper that has no handle
attached: it logs the call, and a listener still subscribed to the handle receives
the `ObjectDestroyed` status. -/
theorem cls_destroy_idle (w : World) (cls : ClassBase) (o : Nat) (h0 : w.self.m_obj = 0) :
    ∃ l d ext, cls_destroy w cls o
        = { w with self := { w.self with m_listener := l, m_destroyed := d },
                   trace := w.trace
                     ++ [⟨.cls_destroy o, 0, w.self.m_owned, w.self.m_destroyed⟩] ++ ext }
      ∧ (w.self.m_destroyed = true → d = true)
      ∧ ∀ p : Call → Bool, p .py_decref = false → count_calls p ext = 0 := by
  obtain ⟨⟨ty, li, ca, cd, ob, ow, cr, de, cn, st⟩, cache, interp, kept, top, slots, trace⟩ := w
  simp only at h0
  subst h0
  unfold cls_destroy
  by_cases hb : (cls.is_managed && li.contains o) = true
  · simp only [log_self, hb, if_true]
    rw [notify_destroyed_idle _ rfl]
    cases interp <;> cases ow
    · exact ⟨li.filter (fun x => x != o), de, [], by simp [log], id, by simp⟩
    · exact ⟨li.filter (fun x => x != o), de, [], by simp [log], id, by simp⟩
    · refine ⟨li.filter (fun x => x != o), true, [⟨.py_decref, 0, false, true⟩], ?_,
        fun _ => rfl, ?_⟩
      · simp [log, Py_DECREF]
      · intro p hp; simp [count_calls, hp]
    · exact ⟨li.filter (fun x => x != o), true, [], by simp [log], fun _ => rfl, by simp⟩
  · simp only [log_self, hb]
    exact ⟨li, de, [], by simp [log], id, by simp⟩

theorem detach_count (p : Call → Bool) (hp : ignores_bookkeeping p) (w : World) :
    count_calls p (detach w).trace
      = count_calls p w.trace + count_calls p (unsubscription w) := by
  obtain ⟨s, ext, h, hb⟩ := detach_frame w
  rw [h]
  simp [count_calls_append, count_calls_bookkeeping hp hb]

theorem destroy_ensure_obj_ne (w : World) (h : w.self.m_obj ≠ 0) : destroy_ensure_obj w = w := by
  simp [destroy_ensure_obj, h]

theorem destroy_ensure_obj_new (w : World) (h : w.self.m_obj = 0) :
    destroy_ensure_obj w
      = { w with self := { w.self with m_obj := w.heap_top + 1, m_owned := true },
                 heap_top := w.heap_top + 1,
                 trace := w.trace
                   ++ [⟨.cls_create (w.heap_top + 1), 0, w.self.m_owned, w.self.m_destroyed⟩] } := by
  simp [destroy_ensure_obj, h, cls_create, log]

/-- Past its `throw` statements `destroy` detaches, frees the handle it holds or
has just created, and then sets the destroyed flag. -/
theorem destroy_runs (w : World) (cls : ClassBase) (hcls : w.self.m_cls_decl = some cls)
    (hpre : (w.self.m_obj ≠ 0 ∧ w.self.m_can_destroy = true)
          ∨ (w.self.m_obj = 0 ∧ w.self.m_destroyed = false)) :
    (destroy_ensure_obj w).self.m_obj ≠ 0 ∧
    destroy w =
      ({ (cls_destroy (detach (destroy_ensure_obj w)) cls (destroy_ensure_obj w).self.m_obj) with
          self := { (cls_destroy (detach (destroy_ensure_obj w)) cls
                      (destroy_ensure_obj w).self.m_obj).self with m_destroyed := true } },
        none) := by
  rcases hpre with ⟨h0, hc⟩ | ⟨h0, hd⟩
  · refine ⟨by simpa [destroy_ensure_obj_ne w h0] using h0, ?_⟩
    unfold destroy
    simp [hcls, h0, hc, destroy_ensure_obj_ne w h0]
  · refine ⟨by simp [destroy_ensure_obj_new w h0], ?_⟩
    unfold destroy
    simp [hcls, h0, hd, destroy_ensure_obj_new w h0]

theorem destroy_ok_pre (w : World) (cls : ClassBase) (hcls : w.self.m_cls_decl = some cls)
    (hok : (destroy w).2 = none) :
    (w.self.m_obj ≠ 0 ∧ w.self.m_can_destroy = true)
      ∨ (w.self.m_obj = 0 ∧ w.self.m_destroyed = false) := by
  by_cases h0 : w.self.m_obj = 0
  · right
    refine ⟨h0, ?_⟩
    cases hd : w.self.m_destroyed
    · rfl
    · simp [destroy, hcls, h0, hd] at hok
  · left
    refine ⟨h0, ?_⟩
    cases hc : w.self.m_can_destroy
    · simp [destroy, hcls, h0, hc] at hok
    · rfl

theorem destroy_ok_post (w : World) (cls : ClassBase) (hcls : w.self.m_cls_decl = some cls)
    (hok : (destroy w).2 = none) :
    (destroy w).1.self.m_cls_decl = some cls ∧ (destroy w).1.self.m_obj = 0
      ∧ (destroy w).1.self.m_owned = false ∧ (destroy w).1.self.m_const_ref = false
      ∧ (destroy w).1.self.m_can_destroy = false ∧ (destroy w).1.self.m_destroyed = true := by
  have hpre := destroy_ok_pre w cls hcls hok
  obtain ⟨_, hrun⟩ := destroy_runs w cls hcls hpre
  obtain ⟨s, ext, hd, _⟩ := detach_frame (destroy_ensure_obj w)
  obtain ⟨l, d, ext2, hc, _, _⟩ :=
    cls_destroy_idle (detach (destroy_ensure_obj w)) cls (destroy_ensure_obj w).self.m_obj
      (detach_obj _)
  rw [hrun, hc, hd]
  rcases hpre with ⟨h0, _⟩ | ⟨h0, _⟩
  · simp [destroy_ensure_obj_ne w h0, detached, h0, hcls]
  · simp [destroy_ensure_obj_new w h0, detached, hcls]

theorem destroy_already_destroyed (w : World) (cls : ClassBase)
    (hcls : w.self.m_cls_decl = some cls) (h0 : w.self.m_obj = 0)
    (hd : w.self.m_destroyed = true) :
    destroy w = (w, some (.exception "Object has been destroyed already")) := by
  simp [destroy, hcls, h0, hd]

/-- C1: on a wrapper with a class descriptor, an attached handle and
`m_can_destroy = false`, `destroy ()` throws 'Object cannot be destroyed
explicitly' and leaves the whole world as it was: every member of the wrapper is
unchanged, the handle stays attached and no native destroy is called. -/
theorem destroy_without_permission (w : World) (cls : ClassBase)
    (hcls : w.self.m_cls_decl = some cls) (hobj : w.self.m_obj ≠ 0)
    (hcd : w.self.m_can_destroy = false) :
    destroy w = (w, some (.exception "Object cannot be destroyed explicitly"))
      ∧ (destroy w).1.self = w.self
      ∧ (destroy w).1.self.m_obj ≠ 0
      ∧ native_destroys (destroy w).1 = native_destroys w := by
  have h : destroy w = (w, some (.exception "Object cannot be destroyed explicitly")) := by
    simp [destroy, hcls, hobj, hcd]
  rw [h]
  exact ⟨rfl, rfl, hobj, rfl⟩

theorem destroy_without_permission_witness :
    (attached false [] true false).self.m_cls_decl = some (Shape false)
      ∧ (attached false [] true false).self.m_obj ≠ 0
      ∧ (attached false [] true false).self.m_can_destroy = false
      ∧ (destroy (attached false [] true false)
            = (attached false [] true false,
                some (.exception "Object cannot be destroyed explicitly"))
          ∧ (destroy (attached false [] true false)).1.self = (attached false [] true false).self
          ∧ (destroy (attached false [] true false)).1.self.m_obj ≠ 0
          ∧ native_destroys (destroy (attached false [] true false)).1
              = native_destroys (attached false [] true false)) :=
  ⟨by decide, by decide, by decide,
    destroy_without_permission (attached false [] true false) (Shape false)
      (by decide) (by decide) (by decide)⟩

/-- C2: once one `destroy ()` has succeeded on a wrapper with a class descriptor,
every further `destroy ()` throws 'Object has been destroyed already' and returns
the world exactly as the first call left it: no handle is created, the native
destroy is not called again (the trace is the same) and no member changes. -/
theorem destroy_twice (w : World) (cls : ClassBase)
    (hcls : w.self.m_cls_decl = some cls) (hok : (destroy w).2 = none) (n : Nat) :
    destroy ((fun x => (destroy x).1)^[n] (destroy w).1)
        = ((destroy w).1, some (.exception "Object has been destroyed already"))
      ∧ native_creates (destroy ((fun x => (destroy x).1)^[n] (destroy w).1)).1
          = native_creates (destroy w).1
      ∧ native_destroys (destroy ((fun x => (destroy x).1)^[n] (destroy w).1)).1
          = native_destroys (destroy w).1 := by
  obtain ⟨hc, h0, _, _, _, hd⟩ := destroy_ok_post w cls hcls hok
  have hfix : (fun x => (destroy x).1)^[n] (destroy w).1 = (destroy w).1 := by
    induction n with
    | zero => rfl
    | succ k ih =>
      rw [Function.iterate_succ_apply', ih, destroy_already_destroyed _ cls hc h0 hd]
  rw [hfix, destroy_already_destroyed _ cls hc h0 hd]
  exact ⟨rfl, rfl, rfl⟩

theorem destroy_twice_witness :
    (attached true [] true true).self.m_cls_decl = some (Shape true)
      ∧ (destroy (attached true [] true true)).2 = none
      ∧ (destroy ((fun x => (destroy x).1)^[3] (destroy (attached true [] true true)).1)
            = ((destroy (attached true [] true true)).1,
                some (.exception "Object has been destroyed already"))
          ∧ native_creates
                (destroy ((fun x => (destroy x).1)^[3] (destroy (attached true [] true true)).1)).1
              = native_creates (destroy (attached true [] true true)).1
          ∧ native_destroys
                (destroy ((fun x => (destroy x).1)^[3] (destroy (attached true [] true true)).1)).1
              = native_destroys (destroy (attached true [] true true)).1) :=
  ⟨by decide, by decide,
    destroy_twice (attached true [] true true) (Shape true) (by decide) (by decide) 3⟩

/-- C3: on a wrapper with a class descriptor that has an attached handle with
`m_can_destroy = true`, or no handle and `m_destroyed = false`, `destroy ()`
succeeds and calls the class's `destroy` exactly once.  The freed handle is the
attached one (no `create ()` call), or the one `create ()` hands out, which is
stored and marked script-owned before `detach ()`.  The free comes right after
everything `detach ()` did, at a moment when the wrapper has no handle and the
destroyed flag still has its old value; at the end there is no handle, `m_owned`,
`m_const_ref` and `m_can_destroy` are false and `m_destroyed` is true. -/
theorem destroy_frees_once (w : World) (cls : ClassBase)
    (hcls : w.self.m_cls_decl = some cls)
    (hpre : (w.self.m_obj ≠ 0 ∧ w.self.m_can_destroy = true)
          ∨ (w.self.m_obj = 0 ∧ w.self.m_destroyed = false)) :
    (destroy w).2 = none
      ∧ native_destroys (destroy w).1 = native_destroys w + 1
      ∧ (w.self.m_obj ≠ 0 →
          destroy_ensure_obj w = w ∧ native_creates (destroy w).1 = native_creates w)
      ∧ (w.self.m_obj = 0 →
          (destroy_ensure_obj w).self.m_obj = w.heap_top + 1
          ∧ (destroy_ensure_obj w).self.m_owned = true
          ∧ (destroy_ensure_obj w).trace
              = w.trace ++ [⟨.cls_create (w.heap_top + 1), 0, w.self.m_owned, false⟩]
          ∧ native_creates (destroy w).1 = native_creates w + 1)
      ∧ (∃ post, (destroy w).1.trace
            = (detach (destroy_ensure_obj w)).trace
              ++ [⟨.cls_destroy (destroy_ensure_obj w).self.m_obj, 0, false,
                    w.self.m_destroyed⟩]
              ++ post
          ∧ count_calls (fun c => match c with | .cls_destroy _ => true | _ => false) post = 0)
      ∧ (destroy w).1.self.m_obj = 0
      ∧ (destroy w).1.self.m_owned = false
      ∧ (destroy w).1.self.m_const_ref = false
      ∧ (destroy w).1.self.m_can_destroy = false
      ∧ (destroy w).1.self.m_destroyed = true := by
  obtain ⟨hne, hrun⟩ := destroy_runs w cls hcls hpre
  have hok : (destroy w).2 = none := by rw [hrun]
  obtain ⟨_, p0, p1, p2, p3, p4⟩ := destroy_ok_post w cls hcls hok
  obtain ⟨s, ext, hd, hb⟩ := detach_frame (destroy_ensure_obj w)
  obtain ⟨l, d, ext2, hc, _, hcount⟩ :=
    cls_destroy_idle (detach (destroy_ensure_obj w)) cls (destroy_ensure_obj w).self.m_obj
      (detach_obj _)
  have hown : (detach (destroy_ensure_obj w)).self.m_owned = false := by
    rw [hd]; simp [detached, hne]
  have hdes : (detach (destroy_ensure_obj w)).self.m_destroyed = w.self.m_destroyed := by
    rw [hd]
    rcases hpre with ⟨h0, _⟩ | ⟨h0, _⟩
    · simp [detached, destroy_ensure_obj_ne w h0]; split <;> rfl
    · simp [detached, destroy_ensure_obj_new w h0]
  have htrace : (destroy w).1.trace
      = (detach (destroy_ensure_obj w)).trace
        ++ [⟨.cls_destroy (destroy_ensure_obj w).self.m_obj, 0, false, w.self.m_destroyed⟩]
        ++ ext2 := by
    rw [hrun]
    show (cls_destroy (detach (destroy_ensure_obj w)) cls (destroy_ensure_obj w).self.m_obj).trace
      = _
    rw [hc, hown, hdes]
  have hcd : ∀ p : Call → Bool, ignores_bookkeeping p → p .py_decref = false →
      (∀ o, p (.listener_remove o) = false) →
      count_calls p (destroy w).1.trace
        = count_calls p (destroy_ensure_obj w).trace
          + (if p (.cls_destroy (destroy_ensure_obj w).self.m_obj) then 1 else 0) := by
    intro p hp hdec hrem
    rw [htrace, count_calls_append, count_calls_snoc, detach_count p hp, hcount p hdec]
    have : count_calls p (unsubscription (destroy_ensure_obj w)) = 0 := by
      unfold unsubscription
      split <;> simp [count_calls, hrem]
    simp [this]
  refine ⟨hok, ?_, ?_, ?_, ⟨ext2, htrace, hcount _ rfl⟩, p0, p1, p2, p3, p4⟩
  · unfold native_destroys
    rw [hcd _ ⟨fun _ _ _ => rfl, fun _ => rfl⟩ rfl (fun _ => rfl)]
    rcases hpre with ⟨h0, _⟩ | ⟨h0, _⟩
    · simp [destroy_ensure_obj_ne w h0]
    · simp [destroy_ensure_obj_new w h0]
  · intro h0
    refine ⟨destroy_ensure_obj_ne w h0, ?_⟩
    unfold native_creates
    rw [hcd _ ⟨fun _ _ _ => rfl, fun _ => rfl⟩ rfl (fun _ => rfl)]
    simp [destroy_ensure_obj_ne w h0]
  · intro h0
    have hdf : w.self.m_destroyed = false := by
      rcases hpre with ⟨h1, _⟩ | ⟨_, h1⟩
      · exact absurd h0 h1
      · exact h1
    refine ⟨by simp [destroy_ensure_obj_new w h0], by simp [destroy_ensure_obj_new w h0],
      by simp [destroy_ensure_obj_new w h0, hdf], ?_⟩
    unfold native_creates
    rw [hcd _ ⟨fun _ _ _ => rfl, fun _ => rfl⟩ rfl (fun _ => rfl)]
    simp [destroy_ensure_obj_new w h0]

theorem destroy_frees_once_witness :
    (sample true []).self.m_cls_decl = some (Shape true)
      ∧ (((sample true []).self.m_obj ≠ 0 ∧ (sample true []).self.m_can_destroy = true)
          ∨ ((sample true []).self.m_obj = 0 ∧ (sample true []).self.m_destroyed = false))
      ∧ (destroy (sample true [])).2 = none
      ∧ native_destroys (destroy (sample true [])).1 = native_destroys (sample true []) + 1 :=
  ⟨by decide, by decide,
    (destroy_frees_once (sample true []) (Shape true) (by decide) (by decide)).1,
    (destroy_frees_once (sample true []) (Shape true) (by decide) (by decide)).2.1⟩

/-! ## Attaching -/

theorem install_frame (entry : List MethodBase) (w : World) :
    ∃ cbs s ext, entry.foldl install_callback w
        = { w with self := { w.self with m_callee := w.self.m_callee ++ cbs }, slots := s,
                   trace := w.trace ++ ext }
      ∧ bookkeeping w.self.m_destroyed ext := by
  induction entry generalizing w with
  | nil => exact ⟨[], w.slots, [], by simp, bookkeeping_nil _⟩
  | cons m ms ih =>
    obtain ⟨cbs, s, ext, h1, h2⟩ := ih (install_callback w m)
    refine ⟨CallbackFunction.new (PyObject_GetAttrString w.self.ob_type m.primary_name) (some m)
        :: cbs, s,
      ⟨.set_callback w.self.m_obj m (some ((w.self.m_callee ++ [CallbackFunction.new
          (PyObject_GetAttrString w.self.ob_type m.primary_name) (some m)]).length - 1)),
        w.self.m_obj, w.self.m_owned, w.self.m_destroyed⟩ :: ext, ?_, ?_⟩
    · rw [List.foldl_cons, h1]
      simp [install_callback, set_callback, log, Callee.add_callback]
    · exact bookkeeping_cons (Or.inl ⟨_, _, _, rfl⟩) rfl
        (by simpa [install_callback, set_callback, Callee.add_callback] using h2)

theorem initialize_callbacks_frame (w : World) :
    ∃ cbs cache s ext, initialize_callbacks w
        = { w with self := { w.self with m_callee := w.self.m_callee ++ cbs },
                   s_callbacks_cache := cache, slots := s, trace := w.trace ++ ext }
      ∧ bookkeeping w.self.m_destroyed ext := by
  unfold initialize_callbacks
  cases hf : cache_find w.s_callbacks_cache w.self.ob_type.addr with
  | some entry =>
    obtain ⟨cbs, s, ext, h1, h2⟩ := install_frame entry w
    exact ⟨cbs, w.s_callbacks_cache, s, ext, by simp [hf, h1], h2⟩
  | none =>
    simp only [hf]
    generalize hw1 : log (Call.hierarchy_walk w.self.ob_type.addr) _ = w1
    obtain ⟨cbs, s, ext, h1, h2⟩ :=
      install_frame ((cache_find w1.s_callbacks_cache w.self.ob_type.addr).getD []) w1
    refine ⟨cbs, w1.s_callbacks_cache, s,
      ⟨.hierarchy_walk w.self.ob_type.addr, w.self.m_obj, w.self.m_owned, w.self.m_destroyed⟩
        :: ext, ?_, ?_⟩
    · rw [h1]
      subst hw1
      simp [log]
    · refine bookkeeping_cons (Or.inr ⟨_, rfl⟩) rfl ?_
      subst hw1
      simpa using h2

theorem set_listener_eq (w : World) (cls : ClassBase) :
    set_listener w cls
      = if cls.is_managed then
          (if w.kept.contains w.self.m_obj && w.self.m_owned then
            { w with self := { w.self with
                        m_owned := false,
                        m_listener := if w.self.m_listener.contains w.self.m_obj
                                      then w.self.m_listener
                                      else w.self.m_listener ++ [w.self.m_obj] },
                     trace := w.trace
                       ++ [⟨.py_incref, w.self.m_obj, true, w.self.m_destroyed⟩,
                           ⟨.listener_add w.self.m_obj, w.self.m_obj, false,
                             w.self.m_destroyed⟩] }
          else
            { w with self := { w.self with
                        m_listener := if w.self.m_listener.contains w.self.m_obj
                                      then w.self.m_listener
                                      else w.self.m_listener ++ [w.self.m_obj] },
                     trace := w.trace
                       ++ [⟨.listener_add w.self.m_obj, w.self.m_obj, w.self.m_owned,
                             w.self.m_destroyed⟩] })
        else w := by
  unfold set_listener
  cases hm : cls.is_managed
  · simp
  · by_cases hk : w.self.m_obj ∈ w.kept <;> cases ho : w.self.m_owned <;>
      simp [already_kept, keep_internal, listener_add, log, Py_INCREF, hk, ho]

/-- The world `set` hands to its listener block: the members are stored and the
callbacks are installed. -/
theorem set_runs (w : World) (cls : ClassBase) (hcls : w.self.m_cls_decl = some cls)
    (h0 : w.self.m_obj = 0) (o : Nat) (ho : o ≠ 0) (owned const_ref can_destroy : Bool) :
    ∃ cbs cache s ext w2,
      w2 = { w with self := { w.self with
                      m_obj := o, m_owned := owned, m_can_destroy := can_destroy,
                      m_const_ref := const_ref, m_callee := w.self.m_callee ++ cbs },
                    s_callbacks_cache := cache, slots := s, trace := w.trace ++ ext }
      ∧ bookkeeping w.self.m_destroyed ext
      ∧ set w o owned const_ref can_destroy
          = (if !(set_listener w2 cls).self.m_owned then Py_INCREF (set_listener w2 cls)
             else set_listener w2 cls, none) := by
  obtain ⟨⟨ty, li, ca, cd, ob, ow, cr, de, cn, st⟩, cache, interp, kept, top, slots, trace⟩ := w
  simp only at hcls h0
  subst hcls h0
  obtain ⟨cbs, cache2, s, ext, h1, h2⟩ :=
    initialize_callbacks_frame
      { self := ⟨ty, li, ca, some cls, o, owned, const_ref, de, can_destroy, st⟩,
        s_callbacks_cache := cache, interpreter := interp, kept := kept, heap_top := top,
        slots := slots, trace := trace }
  refine ⟨cbs, cache2, s, ext, _, rfl, h2, ?_⟩
  unfold set
  simp only [bne_self_eq_false, Bool.false_eq_true, if_false, beq_iff_eq, ho, h1]
  split <;> rfl

/-- What a successful `set` leaves: the members, and the retentions it takes: two
when a script-owned wrapper is attached to a kept handle of a managed class, none
when it stays script-owned, one when it is attached as native-owned. -/
theorem set_attaches (w : World) (cls : ClassBase) (hcls : w.self.m_cls_decl = some cls)
    (h0 : w.self.m_obj = 0) (o : Nat) (ho : o ≠ 0) (owned const_ref can_destroy : Bool) :
    (set w o owned const_ref can_destroy).2 = none
      ∧ (set w o owned const_ref can_destroy).1.self.m_obj = o
      ∧ (set w o owned const_ref can_destroy).1.self.m_owned
          = (owned && !(cls.is_managed && w.kept.contains o))
      ∧ (set w o owned const_ref can_destroy).1.self.m_cls_decl = some cls
      ∧ (set w o owned const_ref can_destroy).1.self.m_destroyed = w.self.m_destroyed
      ∧ (set w o owned const_ref can_destroy).1.self.m_const_ref = const_ref
      ∧ (set w o owned const_ref can_destroy).1.self.m_can_destroy = can_destroy
      ∧ retentions_taken (set w o owned const_ref can_destroy).1
          = retentions_taken w
            + (if owned && cls.is_managed && w.kept.contains o then 2
               else if owned then 0 else 1)
      ∧ (cls.is_managed = true → o ∈ (set w o owned const_ref can_destroy).1.self.m_listener) := by
  obtain ⟨cbs, cache, s, ext, w2, hw2, hb, hset⟩ :=
    set_runs w cls hcls h0 o ho owned const_ref can_destroy
  have hc : count_calls (fun c => c == .py_incref) ext = 0 :=
    count_calls_bookkeeping ⟨fun _ _ _ => rfl, fun _ => rfl⟩ hb
  rw [hset, set_listener_eq]
  subst hw2
  unfold retentions_taken
  cases hm : cls.is_managed <;> by_cases hk : o ∈ w.kept <;> cases owned <;>
    by_cases hl : o ∈ w.self.m_listener <;>
    simp [hm, hk, hl, hcls, Py_INCREF, log, count_calls_append, hc]

/-- C6: the code at the failing input.  A fresh script-owned wrapper of a managed
class is attached with `owned = true` to the handle `5`, which the ledger reports as
already kept: it ends native-owned, and `set` has taken two retentions, one in
`keep_internal` and one more in its last statement. -/
theorem set_kept_takes_two_retentions :
    (sample true [5]).self.m_cls_decl = some (Shape true)
      ∧ (sample true [5]).self.m_obj = 0
      ∧ (set (sample true [5]) 5 true false true).2 = none
      ∧ (set (sample true [5]) 5 true false true).1.self.m_owned = false
      ∧ retentions_taken (set (sample true [5]) 5 true false true).1
          = retentions_taken (sample true [5]) + 2 := by
  decide

/-! ## What every entry point keeps -/

theorem Keeps.refl (w : World) : Keeps w w := ⟨rfl, id, id⟩

theorem Keeps.trans {a b c : World} (h1 : Keeps a b) (h2 : Keeps b c) : Keeps a c :=
  ⟨h2.1.trans h1.1, fun h => h2.2.1 (h1.2.1 h), fun h => h2.2.2 (h1.2.2 h)⟩

theorem keeps_of_self_eq {w w2 : World} (h : w2.self = w.self) : Keeps w w2 := by
  unfold Keeps Inv World.managed
  rw [h]
  exact ⟨rfl, id, id⟩

theorem keeps_log (c : Call) (w : World) : Keeps w (log c w) := keeps_of_self_eq rfl

theorem keeps_keep_internal (w : World) : Keeps w (keep_internal w) := by
  unfold keep_internal
  split
  · exact ⟨rfl, id, fun hi => ⟨hi.1, fun _ h => by simp [Py_INCREF] at h, hi.2.2⟩⟩
  · exact Keeps.refl w

theorem keeps_gsi_keep (w : World) (o : Nat) : Keeps w (gsi_keep w o) := by
  unfold gsi_keep
  simp only []
  split
  · exact (keeps_log _ w).trans (keeps_keep_internal _)
  · exact keeps_log _ w

theorem keeps_detach (w : World) : Keeps w (detach w) := by
  obtain ⟨s, ext, h, _⟩ := detach_frame w
  rw [h]
  unfold Keeps Inv World.managed detached
  by_cases h0 : w.self.m_obj = 0
  · simp [h0]
  · simp [h0]

theorem keeps_set (w : World) (o : Nat) (owned const_ref can_destroy : Bool) :
    Keeps w (set w o owned const_ref can_destroy).1 := by
  cases hcls : w.self.m_cls_decl with
  | none => simp [set, hcls, Keeps.refl]
  | some cls =>
    by_cases h0 : w.self.m_obj = 0
    · by_cases ho : o = 0
      · simp [set, hcls, h0, ho, Keeps.refl]
      · obtain ⟨_, h1, _, h3, h4, _, _, _, h8⟩ :=
          set_attaches w cls hcls h0 o ho owned const_ref can_destroy
        refine ⟨by rw [h3, hcls], fun h => by rw [h4]; exact h, fun _ => ?_⟩
        unfold Inv World.managed
        rw [h1, h3]
        exact ⟨fun h => by simp at h, fun _ _ => ho, fun hm _ => h8 hm⟩
    · simp [set, hcls, h0, Keeps.refl]

theorem obj_attached (w : World) (h : w.self.m_obj ≠ 0) : obj w = (w, none) := by
  simp [obj, h]

theorem obj_creates (w : World) (cls : ClassBase) (hcls : w.self.m_cls_decl = some cls)
    (h0 : w.self.m_obj = 0) (hd : w.self.m_destroyed = false) :
    obj w = set (cls_create w).1 (w.heap_top + 1) true false true := by
  simp [obj, hcls, h0, hd, cls_create]

theorem obj_throws (w : World) (h : (obj w).2 ≠ none) : (obj w).1 = w := by
  by_cases h0 : w.self.m_obj = 0
  · cases hd : w.self.m_destroyed
    · cases hcls : w.self.m_cls_decl with
      | none => simp [obj, hcls, h0, hd]
      | some cls =>
        rw [obj_creates w cls hcls h0 hd] at h
        exact absurd (set_attaches (cls_create w).1 cls (by simpa [cls_create] using hcls)
          (by simpa [cls_create] using h0) (w.heap_top + 1) (by simp) true false true).1 h
    · simp [obj, h0, hd]
  · rw [obj_attached w h0]

theorem obj_returns (w : World) (h : (obj w).2 = none) : (obj w).1.self.m_obj ≠ 0 := by
  by_cases h0 : w.self.m_obj = 0
  · cases hd : w.self.m_destroyed
    · cases hcls : w.self.m_cls_decl with
      | none => simp [obj, hcls, h0, hd] at h
      | some cls =>
        rw [obj_creates w cls hcls h0 hd]
        rw [(set_attaches (cls_create w).1 cls (by simpa [cls_create] using hcls)
          (by simpa [cls_create] using h0) (w.heap_top + 1) (by simp) true false true).2.1]
        simp
    · simp [obj, h0, hd] at h
  · rw [obj_attached w h0]; exact h0

theorem keeps_obj (w : World) : Keeps w (obj w).1 := by
  by_cases h0 : w.self.m_obj = 0
  · cases hd : w.self.m_destroyed
    · cases hcls : w.self.m_cls_decl with
      | none => simp [obj, hcls, h0, hd, Keeps.refl]
      | some cls =>
        rw [obj_creates w cls hcls h0 hd]
        exact (keeps_of_self_eq (rfl : (cls_create w).1.self = w.self)).trans (keeps_set _ _ _ _ _)
    · simp [obj, h0, hd, Keeps.refl]
  · rw [obj_attached w h0]; exact Keeps.refl w

theorem gsi_keep_obj (w : World) (o : Nat) : (gsi_keep w o).self.m_obj = w.self.m_obj := by
  unfold gsi_keep keep_internal
  simp only [log_self]
  split
  · split <;> rfl
  · rfl

theorem release_others_unmanaged (w : World) (h : w.managed = false) :
    release_others w = (w, none) := by
  unfold release_others
  unfold World.managed at h
  cases hcls : w.self.m_cls_decl with
  | none => rfl
  | some cls =>
    rw [hcls] at h
    simp only [] at h
    simp [h]

theorem release_others_managed (w : World) (h : w.managed = true) :
    release_others w
      = if (obj w).2 = none then (gsi_keep (obj w).1 (obj w).1.self.m_obj, none)
        else ((obj w).1, (obj w).2) := by
  unfold release_others
  unfold World.managed at h
  cases hcls : w.self.m_cls_decl with
  | none => rw [hcls] at h; simp at h
  | some cls =>
    rw [hcls] at h
    simp only [] at h
    simp only [h, if_true]
    cases ho : (obj w).2 with
    | some e => simp
    | none =>
      have hne := obj_returns w ho
      simp [hne]

theorem keeps_release_others (w : World) :
    Keeps w (release_others w).1
      ∧ ((release_others w).2 = none → w.managed = true → (release_others w).1.self.m_obj ≠ 0) := by
  cases hm : w.managed
  · rw [release_others_unmanaged w hm]
    exact ⟨Keeps.refl w, fun _ h => by simp at h⟩
  · rw [release_others_managed w hm]
    cases ho : (obj w).2 with
    | some e => simp [keeps_obj]
    | none =>
      simp only [if_true]
      exact ⟨(keeps_obj w).trans (keeps_gsi_keep _ _),
        fun _ _ => by rw [gsi_keep_obj]; exact obj_returns w ho⟩

theorem keeps_release_own (w : World) (h : w.managed = true → w.self.m_obj ≠ 0) :
    Keeps w (release_own w) := by
  unfold release_own
  split
  · refine ⟨rfl, id, fun hi => ⟨hi.1, fun hm _ => h hm, hi.2.2⟩⟩
  · exact Keeps.refl w

theorem keeps_release (w : World) : Keeps w (release w).1 := by
  obtain ⟨hk, hne⟩ := keeps_release_others w
  unfold release
  simp only []
  cases hr : (release_others w).2 with
  | some e => exact hk
  | none =>
    refine hk.trans (keeps_release_own _ (fun hm => hne hr ?_))
    have := hk.1
    unfold World.managed at hm ⊢
    rwa [this] at hm

theorem keeps_keep (w : World) : Keeps w (keep w).1 := by
  unfold keep
  cases hcls : w.self.m_cls_decl with
  | none => exact Keeps.refl w
  | some cls =>
    simp only []
    cases ho : (obj w).2 with
    | some e => exact keeps_obj w
    | none =>
      have hne := obj_returns w ho
      simp only [bne_iff_ne, ne_eq, hne, not_false_eq_true, if_true]
      split
      · exact (keeps_obj w).trans (keeps_gsi_keep _ _)
      · exact (keeps_obj w).trans (keeps_keep_internal _)

theorem keeps_mark_destroyed (w : World) :
    Keeps w { w with self := { w.self with m_destroyed := true } } :=
  ⟨rfl, fun _ => rfl, id⟩

theorem keeps_object_status_changed (w : World) (type : StatusEventType) :
    Keeps w (object_status_changed w type).1 := by
  cases type with
  | ObjectDestroyed =>
    unfold object_status_changed
    simp only []
    split
    · split
      · exact ((keeps_mark_destroyed w).trans (keeps_detach _)).trans (keeps_log _ _)
      · exact (keeps_mark_destroyed w).trans (keeps_detach _)
    · exact Keeps.refl w
  | ObjectKeep => exact keeps_keep_internal w
  | ObjectRelease => exact keeps_release w

theorem keeps_destroy (w : World) : Keeps w (destroy w).1 := by
  cases hcls : w.self.m_cls_decl with
  | none =>
    have hd : (destroy w).1 = { w with self := { w.self with m_obj := 0 } } := by
      simp [destroy, hcls]
    rw [hd]
    exact ⟨rfl, id, fun _ => ⟨fun _ => rfl, fun hm => by simp [World.managed, hcls] at hm,
      fun hm => by simp [World.managed, hcls] at hm⟩⟩
  | some cls =>
    by_cases hok : (destroy w).2 = none
    · obtain ⟨h1, h2, h3, _, _, h6⟩ := destroy_ok_post w cls hcls hok
      refine ⟨by rw [h1, hcls], fun _ => h6, fun _ => ⟨fun h => ?_, fun _ h => ?_,
        fun _ h => absurd h2 h⟩⟩
      · rw [h1] at h; simp at h
      · rw [h3] at h; simp at h
    · have : (destroy w).1 = w := by
        unfold destroy at hok ⊢
        simp only [hcls] at hok ⊢
        split at hok
        · simp_all
        · split at hok
          · simp_all
          · simp at hok
      rw [this]
      exact Keeps.refl w

theorem keeps_signal_handler (w : World) (meth : MethodBase) :
    Keeps w (signal_handler w meth).1 := by
  unfold signal_handler
  split
  · exact Keeps.refl w
  · simp only []
    have h1 : Keeps w { w with self := { w.self with
        m_signal_table := w.self.m_signal_table ++ [(meth, [])] } } := ⟨rfl, id, id⟩
    split
    · exact h1.trans (keeps_obj _)
    · exact (h1.trans (keeps_obj _)).trans (keeps_log _ _)

theorem keeps_step (op : Op) (w : World) : Keeps w (step op w).1 := by
  cases op with
  | set o owned const_ref can_destroy => exact keeps_set w o owned const_ref can_destroy
  | detach => exact keeps_detach w
  | destroy => exact keeps_destroy w
  | keep => exact keeps_keep w
  | keep_internal => exact keeps_keep_internal w
  | release => exact keeps_release w
  | object_status_changed type => exact keeps_object_status_changed w type
  | obj => exact keeps_obj w
  | signal_handler meth => exact keeps_signal_handler w meth
  | clear_callbacks_cache => exact keeps_of_self_eq rfl

/-- Every reachable state satisfies `Inv`. -/
theorem reachable_inv (w : World) (h : Reachable w) : Inv w := by
  induction h with
  | fresh ty cls_decl cache interp kept top =>
    exact ⟨fun _ => rfl, fun _ h => by simp [World.fresh, PYAObjectBase.new] at h,
      fun _ h => by simp [World.fresh, PYAObjectBase.new] at h⟩
  | step op w _ ih => exact (keeps_step op w).2.2 ih
  | surroundings interp kept w _ ih => exact ih

/-! ## The claims on the lifecycle -/

/-- C4: the destroyed flag is monotonic.  From a state with `m_destroyed = true`,
every entry point (`set`, `detach`, `destroy`, `keep`, `keep_internal`, `release`,
a status notification of any kind, `obj`, and also `signal_handler` and
`clear_callbacks_cache`) ends in a state with `m_destroyed = true`, whether it
returns or throws. -/
theorem destroyed_is_monotonic (op : Op) (w : World) (h : w.self.m_destroyed = true) :
    (step op w).1.self.m_destroyed = true :=
  (keeps_step op w).2.1 h

theorem destroyed_is_monotonic_witness :
    (destroy (sample true [])).1.self.m_destroyed = true
      ∧ (step (.set 5 true false true) (destroy (sample true [])).1).1.self.m_destroyed = true :=
  ⟨by decide,
    destroyed_is_monotonic (.set 5 true false true) (destroy (sample true [])).1 (by decide)⟩

/-- C5: on every reachable wrapper that has a handle attached, `set` with any handle
and any flags fails the assertion `! m_obj` and returns the world as it was: the
attached handle, the flags, the dispatch table and the listener subscriptions are
unchanged, no retention is taken and no listener is subscribed. -/
theorem set_when_attached (w : World) (hr : Reachable w) (hobj : w.self.m_obj ≠ 0)
    (o : Nat) (owned const_ref can_destroy : Bool) :
    set w o owned const_ref can_destroy = (w, some (.assertion "! m_obj"))
      ∧ (set w o owned const_ref can_destroy).1.self = w.self
      ∧ retentions_taken (set w o owned const_ref can_destroy).1 = retentions_taken w
      ∧ listener_additions (set w o owned const_ref can_destroy).1 = listener_additions w := by
  have h : set w o owned const_ref can_destroy = (w, some (.assertion "! m_obj")) := by
    cases hcls : w.self.m_cls_decl with
    | none => exact absurd ((reachable_inv w hr).1 hcls) hobj
    | some cls => simp [set, hcls, hobj]
  rw [h]
  exact ⟨rfl, rfl, rfl, rfl⟩

theorem set_when_attached_witness :
    Reachable (attached true [] true true)
      ∧ (attached true [] true true).self.m_obj ≠ 0
      ∧ (set (attached true [] true true) 6 false false true
            = (attached true [] true true, some (.assertion "! m_obj"))
          ∧ (set (attached true [] true true) 6 false false true).1.self
              = (attached true [] true true).self
          ∧ retentions_taken (set (attached true [] true true) 6 false false true).1
              = retentions_taken (attached true [] true true)
          ∧ listener_additions (set (attached true [] true true) 6 false false true).1
              = listener_additions (attached true [] true true)) :=
  ⟨Reachable.step (.set 5 true false true) _ (Reachable.fresh _ _ _ _ _ _), by decide,
    set_when_attached (attached true [] true true)
      (Reachable.step (.set 5 true false true) _ (Reachable.fresh _ _ _ _ _ _)) (by decide)
      6 false false true⟩

/-- C7, the claim as stated fails: the sample wrapper has a handle attached and one
relay in its signal table, and after `detach ()` the signal table still holds that
relay. -/
theorem detach_keeps_signal_table :
    listening.self.m_obj ≠ 0
      ∧ ¬ ((detach listening).self.m_signal_table = []) := by
  decide

/-- C7, amended: on a wrapper with an attached handle, `detach ()` leaves no
handle, `m_owned`, `m_const_ref` and `m_can_destroy` false and the dispatch table
empty; the destroyed flag and the signal table are as before; the lifecycle
listener is unsubscribed from the handle exactly when `m_destroyed` was false and
the class is managed, and otherwise the subscriptions are untouched. -/
theorem detach_resets (w : World) (hobj : w.self.m_obj ≠ 0) :
    (detach w).self.m_obj = 0
      ∧ (detach w).self.m_owned = false
      ∧ (detach w).self.m_const_ref = false
      ∧ (detach w).self.m_can_destroy = false
      ∧ (detach w).self.m_callee = []
      ∧ (detach w).self.m_signal_table = w.self.m_signal_table
      ∧ (detach w).self.m_destroyed = w.self.m_destroyed
      ∧ listener_removals (detach w)
          = listener_removals w + (if !w.self.m_destroyed && w.managed then 1 else 0)
      ∧ ((!w.self.m_destroyed && w.managed) = true →
          w.self.m_obj ∉ (detach w).self.m_listener)
      ∧ ((!w.self.m_destroyed && w.managed) = false →
          (detach w).self.m_listener = w.self.m_listener) := by
  obtain ⟨s, ext, h, hb⟩ := detach_frame w
  have hu : w.unsubscribes = (!w.self.m_destroyed && w.managed) := by
    have : (w.self.m_obj != 0) = true := by simpa using hobj
    simp [World.unsubscribes, this]
  refine ⟨?_, ?_, ?_, ?_, ?_, ?_, ?_, ?_, ?_, ?_⟩
  · exact detach_obj w
  · rw [h]; simp [detached, hobj]
  · rw [h]; simp [detached, hobj]
  · rw [h]; simp [detached, hobj]
  · rw [h]; simp [detached, hobj]
  · rw [h]; simp [detached, hobj]
  · rw [h]; simp [detached, hobj]
  · unfold listener_removals
    rw [detach_count _ ⟨fun _ _ _ => rfl, fun _ => rfl⟩, unsubscription, hu]
    split <;> simp
  · intro hc
    rw [h]
    simp [detached, hobj, hu, hc, List.mem_filter]
  · intro hc
    rw [h]
    simp [detached, hobj, hu, hc]

theorem detach_resets_witness :
    (attached true [] true true).self.m_obj ≠ 0
      ∧ (detach (attached true [] true true)).self.m_obj = 0
      ∧ (detach (attached true [] true true)).self.m_callee = []
      ∧ listener_removals (detach (attached true [] true true))
          = listener_removals (attached true [] true true)
            + (if !(attached true [] true true).self.m_destroyed
                  && (attached true [] true true).managed then 1 else 0) :=
  ⟨by decide, (detach_resets (attached true [] true true) (by decide)).1,
    (detach_resets (attached true [] true true) (by decide)).2.2.2.2.1,
    (detach_resets (attached true [] true true) (by decide)).2.2.2.2.2.2.2.1⟩

/-- C8: with an interpreter present, the notification `ObjectDestroyed` on a wrapper
with an attached handle sets `m_destroyed` before it detaches: every call it makes
sees `m_destroyed = true`, `detach ()` does not unsubscribe the listener, and the
end state has no handle, `m_owned`, `m_const_ref` and `m_can_destroy` false and an
empty dispatch table.  It drops exactly one retention if the wrapper was
native-owned before and none if it was script-owned, and it never calls the
class's `destroy`. -/
theorem destroyed_notification (w : World) (hobj : w.self.m_obj ≠ 0)
    (hi : w.interpreter = true) :
    (object_status_changed w .ObjectDestroyed).2 = none
      ∧ (object_status_changed w .ObjectDestroyed).1.self.m_destroyed = true
      ∧ (object_status_changed w .ObjectDestroyed).1.self.m_obj = 0
      ∧ (object_status_changed w .ObjectDestroyed).1.self.m_owned = false
      ∧ (object_status_changed w .ObjectDestroyed).1.self.m_const_ref = false
      ∧ (object_status_changed w .ObjectDestroyed).1.self.m_can_destroy = false
      ∧ (object_status_changed w .ObjectDestroyed).1.self.m_callee = []
      ∧ (object_status_changed w .ObjectDestroyed).1.self.m_listener = w.self.m_listener
      ∧ listener_removals (object_status_changed w .ObjectDestroyed).1 = listener_removals w
      ∧ native_destroys (object_status_changed w .ObjectDestroyed).1 = native_destroys w
      ∧ retentions_dropped (object_status_changed w .ObjectDestroyed).1
          = retentions_dropped w + (if w.self.m_owned then 0 else 1)
      ∧ ∃ ext, (object_status_changed w .ObjectDestroyed).1.trace = w.trace ++ ext
          ∧ ∀ e ∈ ext, e.at_destroyed = true := by
  obtain ⟨s, ext, h, hb⟩ := detach_frame { w with self := { w.self with m_destroyed := true } }
  have hu : unsubscription { w with self := { w.self with m_destroyed := true } } = [] := by
    simp [unsubscription, World.unsubscribes]
  have hd : detached { w with self := { w.self with m_destroyed := true } }
      = { w.self with m_destroyed := true, m_callee := [], m_obj := 0, m_const_ref := false,
                      m_owned := false, m_can_destroy := false } := by
    simp [detached, World.unsubscribes, hobj]
  rw [hu, hd] at h
  have hc1 : count_calls (fun c => match c with | .listener_remove _ => true | _ => false) ext
      = 0 := count_calls_bookkeeping ⟨fun _ _ _ => rfl, fun _ => rfl⟩ hb
  have hc2 : count_calls (fun c => match c with | .cls_destroy _ => true | _ => false) ext
      = 0 := count_calls_bookkeeping ⟨fun _ _ _ => rfl, fun _ => rfl⟩ hb
  have hc3 : count_calls (fun c => c == .py_decref) ext = 0 :=
    count_calls_bookkeeping ⟨fun _ _ _ => rfl, fun _ => rfl⟩ hb
  cases ho : w.self.m_owned
  · have hr : object_status_changed w .ObjectDestroyed
        = (Py_DECREF (detach { w with self := { w.self with m_destroyed := true } }), none) := by
      simp [object_status_changed, hi, ho]
    rw [hr, h]
    refine ⟨rfl, rfl, rfl, rfl, rfl, rfl, rfl, rfl, ?_, ?_, ?_, ext ++ [⟨.py_decref, 0, false, true⟩],
      by simp [Py_DECREF, log], ?_⟩
    · simp [listener_removals, Py_DECREF, log, count_calls_append, hc1]
    · simp [native_destroys, Py_DECREF, log, count_calls_append, hc2]
    · simp [retentions_dropped, Py_DECREF, log, count_calls_append, hc3]
    · intro e he
      rcases List.mem_append.mp he with h1 | h1
      · exact (hb e h1).2
      · simp at h1; rw [h1]
  · have hr : object_status_changed w .ObjectDestroyed
        = (detach { w with self := { w.self with m_destroyed := true } }, none) := by
      simp [object_status_changed, hi, ho]
    rw [hr, h]
    refine ⟨rfl, rfl, rfl, rfl, rfl, rfl, rfl, rfl, ?_, ?_, ?_, ext, by simp, ?_⟩
    · simp [listener_removals, count_calls_append, hc1]
    · simp [native_destroys, count_calls_append, hc2]
    · simp [retentions_dropped, count_calls_append, hc3]
    · intro e he
      exact (hb e he).2

theorem destroyed_notification_witness :
    (attached true [] false true).self.m_obj ≠ 0
      ∧ (attached true [] false true).interpreter = true
      ∧ (object_status_changed (attached true [] false true) .ObjectDestroyed).1.self.m_destroyed
          = true
      ∧ (object_status_changed (attached true [] false true) .ObjectDestroyed).1.self.m_obj = 0
      ∧ retentions_dropped (object_status_changed (attached true [] false true) .ObjectDestroyed).1
          = retentions_dropped (attached true [] false true)
            + (if (attached true [] false true).self.m_owned then 0 else 1) :=
  ⟨by decide, by decide,
    (destroyed_notification (attached true [] false true) (by decide) (by decide)).2.1,
    (destroyed_notification (attached true [] false true) (by decide) (by decide)).2.2.1,
    (destroyed_notification (attached true [] false true) (by decide)
      (by decide)).2.2.2.2.2.2.2.2.2.2.1⟩

theorem keep_internal_owned (w : World) (ho : w.self.m_owned = true) :
    keep_internal w
      = { w with self := { w.self with m_owned := false },
                 trace := w.trace ++ [⟨.py_incref, w.self.m_obj, true, w.self.m_destroyed⟩] } := by
  simp [keep_internal, ho, Py_INCREF, log]

theorem keep_internal_native (w : World) (ho : w.self.m_owned = false) :
    keep_internal w = w := by
  simp [keep_internal, ho]

theorem keep_unmanaged (w : World) (cls : ClassBase) (hcls : w.self.m_cls_decl = some cls)
    (hm : cls.is_managed = false) (hobj : w.self.m_obj ≠ 0) :
    keep w = (keep_internal w, none) := by
  simp [keep, hcls, hm, obj_attached w hobj, hobj]

theorem keep_managed (w : World) (cls : ClassBase) (hcls : w.self.m_cls_decl = some cls)
    (hm : cls.is_managed = true) (hobj : w.self.m_obj ≠ 0) :
    keep w = (gsi_keep w w.self.m_obj, none) := by
  simp [keep, hcls, hm, obj_attached w hobj, hobj]

/-- C9: on a script-owned wrapper with an attached handle, `keep_internal` changes
no member but `m_owned`, which becomes false, and takes exactly one retention; a
second `keep_internal` right after it changes nothing at all.  The notification
`ObjectKeep` is `keep_internal`; `keep ()` on a wrapper of an unmanaged class is
`keep_internal`; `keep ()` on a reachable wrapper of a managed class reaches it
through the ledger, with the same members and retentions, and a second `keep ()`
changes no member and takes no retention. -/
theorem capture_twice (w : World) (ho : w.self.m_owned = true) (hobj : w.self.m_obj ≠ 0) :
    (keep_internal w).self = { w.self with m_owned := false }
      ∧ retentions_taken (keep_internal w) = retentions_taken w + 1
      ∧ keep_internal (keep_internal w) = keep_internal w
      ∧ object_status_changed w .ObjectKeep = (keep_internal w, none)
      ∧ (∀ cls, w.self.m_cls_decl = some cls → cls.is_managed = false →
          keep w = (keep_internal w, none)
          ∧ keep (keep w).1 = (keep_internal w, none))
      ∧ (∀ cls, w.self.m_cls_decl = some cls → cls.is_managed = true → Reachable w →
          (keep w).2 = none
          ∧ (keep w).1.self = (keep_internal w).self
          ∧ retentions_taken (keep w).1 = retentions_taken w + 1
          ∧ (keep (keep w).1).2 = none
          ∧ (keep (keep w).1).1.self = (keep w).1.self
          ∧ retentions_taken (keep (keep w).1).1 = retentions_taken (keep w).1) := by
  have h1 := keep_internal_owned w ho
  have h2 : keep_internal (keep_internal w) = keep_internal w :=
    keep_internal_native _ (by rw [h1])
  refine ⟨by rw [h1], by rw [h1]; simp [retentions_taken], h2, rfl, ?_, ?_⟩
  · intro cls hcls hm
    have hk := keep_unmanaged w cls hcls hm hobj
    refine ⟨hk, ?_⟩
    rw [hk, keep_unmanaged (keep_internal w) cls (by rw [h1]; exact hcls) hm
      (by rw [h1]; exact hobj), h2]
  · intro cls hcls hm hr
    have hsub : w.self.m_obj ∈ w.self.m_listener :=
      (reachable_inv w hr).2.2 (by simp [World.managed, hcls, hm]) hobj
    have hk := keep_managed w cls hcls hm hobj
    have hg : gsi_keep w w.self.m_obj
        = { w with self := { w.self with m_owned := false },
                   trace := w.trace
                     ++ [⟨.gsi_keep w.self.m_obj, w.self.m_obj, true, w.self.m_destroyed⟩,
                         ⟨.py_incref, w.self.m_obj, true, w.self.m_destroyed⟩] } := by
      simp [gsi_keep, keep_internal, Py_INCREF, log, hsub, ho]
    have hk2 := keep_managed (keep w).1 cls (by rw [hk, hg]; exact hcls) hm
      (by rw [hk, hg]; exact hobj)
    rw [hk2, hk, hg, h1]
    refine ⟨rfl, rfl, by simp [retentions_taken, count_calls_append], rfl, ?_, ?_⟩
    · simp [gsi_keep, keep_internal, log, hsub]
    · simp [gsi_keep, keep_internal, log, hsub, retentions_taken, count_calls_append]

theorem capture_twice_witness :
    (attached false [] true true).self.m_owned = true
      ∧ (attached false [] true true).self.m_obj ≠ 0
      ∧ retentions_taken (keep_internal (attached false [] true true))
          = retentions_taken (attached false [] true true) + 1
      ∧ keep_internal (keep_internal (attached false [] true true))
          = keep_internal (attached false [] true true) :=
  ⟨by decide, by decide,
    (capture_twice (attached false [] true true) (by decide) (by decide)).2.1,
    (capture_twice (attached false [] true true) (by decide) (by decide)).2.2.1⟩

/-- C10, the claim as stated fails: the sample wrapper of the managed class,
attached as script-owned to the handle `5`, is reachable and script-owned, and
`release ()` on it drops a retention (the one the ledger's `ObjectKeep`
notification has just made `keep_internal` take). -/
theorem release_script_owned_drops :
    Reachable (attached true [] true true)
      ∧ (attached true [] true true).self.m_owned = true
      ∧ ¬ (retentions_dropped (release (attached true [] true true)).1
            = retentions_dropped (attached true [] true true)) :=
  ⟨Reachable.step (.set 5 true false true) _ (Reachable.fresh _ _ _ _ _ _), by decide,
    by decide⟩

/-- C10, amended: on every reachable script-owned wrapper `release ()` throws
nothing, creates no native handle and leaves every member of the wrapper as it
was.  For a wrapper without a managed class it is a no-op on the whole world: no
retention is taken or dropped.  For a managed class it calls the ledger's
`keep ()`, whose `ObjectKeep` notification makes `keep_internal` take one
retention, and then drops exactly that one, so the retentions held are as
before. -/
theorem release_script_owned (w : World) (hr : Reachable w) (ho : w.self.m_owned = true) :
    (release w).2 = none
      ∧ (release w).1.self = w.self
      ∧ native_creates (release w).1 = native_creates w
      ∧ (w.managed = false → (release w).1 = w)
      ∧ (w.managed = true →
          (release w).1.trace
            = w.trace ++ [⟨.gsi_keep w.self.m_obj, w.self.m_obj, true, w.self.m_destroyed⟩,
                          ⟨.py_incref, w.self.m_obj, true, w.self.m_destroyed⟩,
                          ⟨.py_decref, w.self.m_obj, true, w.self.m_destroyed⟩])
      ∧ retentions_taken (release w).1 = retentions_taken w + (if w.managed then 1 else 0)
      ∧ retentions_dropped (release w).1
          = retentions_dropped w + (if w.managed then 1 else 0) := by
  have hinv := reachable_inv w hr
  cases hm : w.managed
  · have h : release w = (w, none) := by
      simp [release, release_others_unmanaged w hm, release_own, ho]
    rw [h]
    simp
  · have hobj : w.self.m_obj ≠ 0 := hinv.2.1 hm ho
    have hs : w.self.m_obj ∈ w.self.m_listener := hinv.2.2 hm hobj
    have h1 : release_others w = (gsi_keep w w.self.m_obj, none) := by
      rw [release_others_managed w hm, obj_attached w hobj]
      simp
    have h : release w = (release_own (gsi_keep w w.self.m_obj), none) := by
      simp [release, h1]
    rw [h]
    obtain ⟨⟨ty, li, ca, cd, ob, ow, cr, de, cn, st⟩, cache, interp, kept, top, slots, trace⟩ := w
    simp only at ho hs
    subst ho
    simp [release_own, gsi_keep, keep_internal, Py_INCREF, Py_DECREF, log, hs,
      native_creates, retentions_taken, retentions_dropped, count_calls_append]

theorem release_script_owned_witness :
    Reachable (attached true [] true true)
      ∧ (attached true [] true true).self.m_owned = true
      ∧ (release (attached true [] true true)).2 = none
      ∧ (release (attached true [] true true)).1.self = (attached true [] true true).self
      ∧ native_creates (release (attached true [] true true)).1
          = native_creates (attached true [] true true) :=
  ⟨Reachable.step (.set 5 true false true) _ (Reachable.fresh _ _ _ _ _ _), by decide,
    (release_script_owned (attached true [] true true)
      (Reachable.step (.set 5 true false true) _ (Reachable.fresh _ _ _ _ _ _)) (by decide)).1,
    (release_script_owned (attached true [] true true)
      (Reachable.step (.set 5 true false true) _ (Reachable.fresh _ _ _ _ _ _)) (by decide)).2.1,
    (release_script_owned (attached true [] true true)
      (Reachable.step (.set 5 true false true) _ (Reachable.fresh _ _ _ _ _ _))
      (by decide)).2.2.1⟩

/-! ## The Signal Relay: subscription -/

/-- A callback the constructor has built has a callable whenever it has a weak
reference. -/
theorem new_stored (p : Option PyObject) (m : Option MethodBase) :
    (CallbackFunction.new p m).m_weak_self.isSome = true →
      (CallbackFunction.new p m).m_callable.isSome = true := by
  unfold CallbackFunction.new
  split <;> simp

theorem equals_stored_iff_key (expired : List Nat) (c d : CallbackFunction)
    (hc : c.m_weak_self.isSome = true → c.m_callable.isSome = true)
    (hd : d.m_weak_self.isSome = true → d.m_callable.isSome = true) :
    c.equals expired d = true ↔ c.key expired = d.key expired := by
  obtain ⟨mc, cc, wc⟩ := c
  obtain ⟨md, cd, wd⟩ := d
  cases cc <;> cases wc <;> cases cd <;> cases wd <;>
    simp [CallbackFunction.equals, CallbackFunction.key,
      CallbackFunction.is_instance_method, CallbackFunction.self_ref,
      CallbackFunction.callable_ref, PyWeakref_GetObject] at hc hd ⊢

theorem equals_new_iff_key (expired : List Nat) (p q : Option PyObject)
    (m n : Option MethodBase) :
    (CallbackFunction.new p m).equals expired (CallbackFunction.new q n) = true
      ↔ (CallbackFunction.new p m).key expired = (CallbackFunction.new q n).key expired :=
  equals_stored_iff_key expired _ _ (new_stored p m) (new_stored q n)

theorem equals_iff_key {expired : List Nat} {c d : CallbackFunction}
    (hc : ∃ g m, c = CallbackFunction.new g m) (hd : ∃ g m, d = CallbackFunction.new g m) :
    c.equals expired d = true ↔ c.key expired = d.key expired := by
  obtain ⟨p, m, rfl⟩ := hc
  obtain ⟨q, n, rfl⟩ := hd
  exact equals_new_iff_key expired p q m n

theorem equals_self {expired : List Nat} {c : CallbackFunction}
    (hc : ∃ g m, c = CallbackFunction.new g m) : c.equals expired c = true :=
  (equals_iff_key hc hc).2 rfl

/-- Erasing the first entry that matches leaves no match, when the entries have
distinct keys and matching means having the key `k`. -/
theorem eraseP_no_match {α κ : Type} (K : α → κ) (k : κ) (p : α → Bool) (l : List α)
    (hp : ∀ c ∈ l, p c = true ↔ K c = k) (hl : l.Pairwise (fun a b => K a ≠ K b)) :
    (∀ c ∈ l.eraseP p, p c = false) ∧ l.eraseP p = l.filter (fun c => !p c) := by
  induction l with
  | nil => simp
  | cons x xs ih =>
    have hx := hp x (List.mem_cons_self x xs)
    have hxs : ∀ c ∈ xs, p c = true ↔ K c = k := fun c hc => hp c (List.mem_cons_of_mem x hc)
    obtain ⟨h1, h2⟩ := List.pairwise_cons.mp hl
    by_cases hpx : p x = true
    · have hno : ∀ c ∈ xs, p c = false := by
        intro c hc
        cases hpc : p c
        · rfl
        · exact absurd ((hx.1 hpx).trans ((hxs c hc).1 hpc).symm) (h1 c hc)
      refine ⟨by simpa [List.eraseP_cons_of_pos hpx] using hno, ?_⟩
      rw [List.eraseP_cons_of_pos hpx, List.filter_cons]
      simp only [hpx, Bool.not_true, Bool.false_eq_true, if_false]
      symm
      rw [List.filter_eq_self]
      intro c hc
      simp [hno c hc]
    · obtain ⟨i1, i2⟩ := ih hxs h2
      have hpx2 : p x = false := by simpa using hpx
      refine ⟨?_, ?_⟩
      · intro c hc
        rw [List.eraseP_cons_of_neg hpx] at hc
        rcases List.mem_cons.mp hc with h | h
        · rw [h]; exact hpx2
        · exact i1 c h
      · rw [List.eraseP_cons_of_neg hpx, List.filter_cons, i2]
        simp [hpx2]

theorem unique_iff_keys {expired : List Nat} {h : SignalHandler} (hb : h.built) :
    h.unique expired ↔ h.Pairwise (fun a b => a.key expired ≠ b.key expired) := by
  unfold SignalHandler.unique
  induction h with
  | nil => simp
  | cons x xs ih =>
    have hbx : SignalHandler.built xs := fun c hc => hb c (List.mem_cons_of_mem x hc)
    rw [List.pairwise_cons, List.pairwise_cons, ih hbx]
    refine and_congr_left (fun _ => forall₂_congr (fun c hc => ?_))
    have : x.equals expired c = true ↔ x.key expired = c.key expired :=
      equals_iff_key (hb x (List.mem_cons_self x xs)) (hb c (List.mem_cons_of_mem x hc))
    constructor
    · intro h1 h2; rw [this.2 h2] at h1; exact Bool.noConfusion h1
    · intro h1
      cases he : x.equals expired c
      · rfl
      · exact absurd (this.1 he) h1

/-- What `remove` does to a relay without duplicates: the result has no duplicates,
no entry equal to the callable, and is the relay without its matching entries. -/
theorem remove_spec (expired : List Nat) (h : SignalHandler) (f : Option PyObject)
    (hb : h.built) (hu : h.unique expired) :
    (SignalHandler.remove expired h f).built
      ∧ (SignalHandler.remove expired h f).unique expired
      ∧ (∀ c ∈ SignalHandler.remove expired h f,
          c.equals expired (CallbackFunction.new f none) = false)
      ∧ SignalHandler.remove expired h f
          = h.filter (fun c => !c.equals expired (CallbackFunction.new f none)) := by
  have hk := (unique_iff_keys hb).1 hu
  obtain ⟨h1, h2⟩ := eraseP_no_match (CallbackFunction.key expired)
    ((CallbackFunction.new f none).key expired)
    (fun c => c.equals expired (CallbackFunction.new f none)) h
    (fun c hc => equals_iff_key (hb c hc) ⟨f, none, rfl⟩) hk
  refine ⟨fun c hc => hb c (List.mem_of_mem_eraseP hc), ?_, h1, h2⟩
  exact List.Pairwise.sublist (List.eraseP_sublist h) hu

/-- What `add` does to a relay without duplicates. -/
theorem add_spec (expired : List Nat) (h : SignalHandler) (f : Option PyObject)
    (hb : h.built) (hu : h.unique expired) :
    (SignalHandler.add expired h f).built
      ∧ (SignalHandler.add expired h f).unique expired
      ∧ (SignalHandler.add expired h f).countP
          (fun c => c.equals expired (CallbackFunction.new f none)) = 1
      ∧ SignalHandler.add expired h f
          = h.filter (fun c => !c.equals expired (CallbackFunction.new f none))
              ++ [CallbackFunction.new f none] := by
  obtain ⟨r1, r2, r3, r4⟩ := remove_spec expired h f hb hu
  unfold SignalHandler.add
  refine ⟨?_, ?_, ?_, by rw [r4]⟩
  · intro c hc
    rcases List.mem_append.mp hc with h1 | h1
    · exact r1 c h1
    · simp at h1; exact ⟨f, none, h1⟩
  · unfold SignalHandler.unique
    rw [List.pairwise_append]
    refine ⟨r2, by simp, ?_⟩
    intro a ha b hb2
    simp at hb2
    rw [hb2]
    exact r3 a ha
  · rw [List.countP_append, List.countP_eq_zero.2 (fun c hc => by simp [r3 c hc])]
    simp [equals_self ⟨f, none, rfl⟩]

theorem run_spec (expired : List Nat) (ops : List RelayOp) (h : SignalHandler)
    (hb : h.built) (hu : h.unique expired) :
    (SignalHandler.run expired ops h).built ∧ (SignalHandler.run expired ops h).unique expired := by
  induction ops generalizing h with
  | nil => exact ⟨hb, hu⟩
  | cons op ops ih =>
    unfold SignalHandler.run
    rw [List.foldl_cons]
    cases op with
    | add f =>
      obtain ⟨a1, a2, _⟩ := add_spec expired h f hb hu
      exact ih _ a1 a2
    | remove f =>
      obtain ⟨a1, a2, _⟩ := remove_spec expired h f hb hu
      exact ih _ a1 a2

/-- With the receiver of one of two built callbacks alive, the keys `operator==`
compares agree exactly when the two store the same receiver and callable. -/
theorem key_eq_iff_identity (expired : List Nat) (c d : CallbackFunction)
    (hl : c.live expired = true) :
    c.key expired = d.key expired ↔ c.identity = d.identity := by
  obtain ⟨mc, cc, wc⟩ := c
  obtain ⟨md, cd, wd⟩ := d
  cases wc with
  | none =>
    cases wd <;>
      simp [CallbackFunction.key, CallbackFunction.identity, CallbackFunction.self_ref,
        PyWeakref_GetObject]
    split <;> simp
  | some s =>
    have hs : s.addr ∉ expired := by simpa [CallbackFunction.live] using hl
    cases wd with
    | none =>
      simp [CallbackFunction.key, CallbackFunction.identity, CallbackFunction.self_ref,
        PyWeakref_GetObject, hs]
    | some t =>
      by_cases ht : t.addr ∈ expired
      · have hst : s.addr ≠ t.addr := fun h => hs (h ▸ ht)
        simp [CallbackFunction.key, CallbackFunction.identity, CallbackFunction.self_ref,
          PyWeakref_GetObject, hs, ht, hst]
      · simp [CallbackFunction.key, CallbackFunction.identity, CallbackFunction.self_ref,
          PyWeakref_GetObject, hs, ht]

/-- Against a callback whose receiver is alive, `operator==` on built callbacks
decides whether the two store the same receiver and callable. -/
theorem equals_iff_identity {expired : List Nat} {c d : CallbackFunction}
    (hc : ∃ g m, c = CallbackFunction.new g m) (hd : ∃ g m, d = CallbackFunction.new g m)
    (hl : c.live expired = true ∨ d.live expired = true) :
    c.equals expired d = true ↔ c.identity = d.identity := by
  rw [equals_iff_key hc hd]
  rcases hl with hl | hl
  · exact key_eq_iff_identity expired c d hl
  · constructor
    · intro h; exact ((key_eq_iff_identity expired d c hl).1 h.symm).symm
    · intro h; exact ((key_eq_iff_identity expired d c hl).2 h.symm).symm

/-- What `remove` does to a relay whose entries are distinct, when the receiver of
the callable is alive at the time of the call. -/
theorem remove_at_spec (expired : List Nat) (h : SignalHandler) (f : Option PyObject)
    (hb : h.built) (hu : h.distinct)
    (hf : (CallbackFunction.new f none).live expired = true) :
    (SignalHandler.remove expired h f).built
      ∧ (SignalHandler.remove expired h f).distinct
      ∧ (∀ c ∈ SignalHandler.remove expired h f,
          c.equals expired (CallbackFunction.new f none) = false)
      ∧ SignalHandler.remove expired h f
          = h.filter (fun c => !c.equals expired (CallbackFunction.new f none)) := by
  obtain ⟨h1, h2⟩ := eraseP_no_match CallbackFunction.identity
    (CallbackFunction.new f none).identity
    (fun c => c.equals expired (CallbackFunction.new f none)) h
    (fun c hc => equals_iff_identity (hb c hc) ⟨f, none, rfl⟩ (Or.inr hf)) hu
  refine ⟨fun c hc => hb c (List.mem_of_mem_eraseP hc), ?_, h1, h2⟩
  exact List.Pairwise.sublist (List.eraseP_sublist h) hu

/-- What `add` does to a relay whose entries are distinct, when the receiver of the
callable is alive at the time of the call. -/
theorem add_at_spec (expired : List Nat) (h : SignalHandler) (f : Option PyObject)
    (hb : h.built) (hu : h.distinct)
    (hf : (CallbackFunction.new f none).live expired = true) :
    (SignalHandler.add expired h f).built
      ∧ (SignalHandler.add expired h f).distinct
      ∧ (SignalHandler.add expired h f).countP
          (fun c => c.equals expired (CallbackFunction.new f none)) = 1
      ∧ SignalHandler.add expired h f
          = h.filter (fun c => !c.equals expired (CallbackFunction.new f none))
              ++ [CallbackFunction.new f none] := by
  obtain ⟨r1, r2, r3, r4⟩ := remove_at_spec expired h f hb hu hf
  unfold SignalHandler.add
  refine ⟨?_, ?_, ?_, by rw [r4]⟩
  · intro c hc
    rcases List.mem_append.mp hc with h1 | h1
    · exact r1 c h1
    · simp at h1; exact ⟨f, none, h1⟩
  · unfold SignalHandler.distinct
    rw [List.pairwise_append]
    refine ⟨r2, by simp, ?_⟩
    intro a ha b hb2
    simp at hb2
    rw [hb2]
    intro hid
    have := (equals_iff_identity (r1 a ha) ⟨f, none, rfl⟩ (Or.inr hf)).2 hid
    rw [r3 a ha] at this
    exact Bool.noConfusion this
  · rw [List.countP_append, List.countP_eq_zero.2 (fun c hc => by simp [r3 c hc])]
    simp [equals_self ⟨f, none, rfl⟩]

theorem run_at_spec (steps : List (List Nat × RelayOp)) (h : SignalHandler)
    (hb : h.built) (hu : h.distinct) (hl : SignalHandler.live_calls steps = true) :
    (SignalHandler.run_at steps h).built ∧ (SignalHandler.run_at steps h).distinct := by
  induction steps generalizing h with
  | nil => exact ⟨hb, hu⟩
  | cons p ps ih =>
    simp only [SignalHandler.live_calls, List.all_cons, Bool.and_eq_true] at hl
    unfold SignalHandler.run_at
    rw [List.foldl_cons]
    obtain ⟨e, op⟩ := p
    cases op with
    | add f =>
      obtain ⟨a1, a2, _⟩ := add_at_spec e h f hb hu hl.1
      exact ih _ a1 a2 hl.2
    | remove f =>
      obtain ⟨a1, a2, _⟩ := remove_at_spec e h f hb hu hl.1
      exact ih _ a1 a2 hl.2

/-- C12, the claim as stated fails: the relay reached by subscribing the same
function bound to the objects at addresses 50 and 51, while both are alive, has no
two entries that are equal under `operator==`; once both receivers have expired its
two entries are equal. -/
theorem relay_entries_equal_after_expiry :
    SignalHandler.run [] [.add (some (on_changed 50)), .add (some (on_changed 51))] []
        = [CallbackFunction.new (some (on_changed 50)) none,
           CallbackFunction.new (some (on_changed 51)) none]
      ∧ (CallbackFunction.new (some (on_changed 50)) none).equals []
          (CallbackFunction.new (some (on_changed 51)) none) = false
      ∧ (CallbackFunction.new (some (on_changed 50)) none).equals [50, 51]
          (CallbackFunction.new (some (on_changed 51)) none) = true
      ∧ ¬ SignalHandler.unique [50, 51]
          (SignalHandler.run [] [.add (some (on_changed 50)), .add (some (on_changed 51))] []) := by
  refine ⟨by decide, by decide, by decide, ?_⟩
  have h : SignalHandler.run [] [.add (some (on_changed 50)), .add (some (on_changed 51))] []
      = [CallbackFunction.new (some (on_changed 50)) none,
         CallbackFunction.new (some (on_changed 51)) none] := by decide
  rw [h]
  unfold SignalHandler.unique
  simp only [List.pairwise_cons, List.mem_singleton, forall_eq, List.not_mem_nil,
    false_implies, implies_true, List.Pairwise.nil, and_true]
  decide

/-- C12, amended: a subscription is never duplicated.  In every relay reached from
the empty relay by a sequence of `add` and `remove` calls, each made with a callable
whose receiver is alive at the time of the call, no two entries store the same
receiver and callable; so at any time two entries are equal under `operator==` only
if the receivers of both have expired.  `add (f)` leaves exactly one entry equal to
`f`, the last one, behind the other entries in their previous order;
`add (f); add (f); remove (f)` leaves no entry equal to `f`, and the empty relay when
it started from the empty relay. -/
theorem relay_never_duplicates (steps : List (List Nat × RelayOp))
    (hl : SignalHandler.live_calls steps = true) (expired : List Nat) (f : Option PyObject)
    (hf : (CallbackFunction.new f none).live expired = true) :
    (SignalHandler.run_at steps []).distinct
      ∧ (∀ now : List Nat, (SignalHandler.run_at steps []).Pairwise
          (fun a b => a.equals now b = true → a.live now = false ∧ b.live now = false))
      ∧ (SignalHandler.add expired (SignalHandler.run_at steps []) f).countP
          (fun c => c.equals expired (CallbackFunction.new f none)) = 1
      ∧ SignalHandler.add expired (SignalHandler.run_at steps []) f
          = (SignalHandler.run_at steps []).filter
              (fun c => !c.equals expired (CallbackFunction.new f none))
            ++ [CallbackFunction.new f none]
      ∧ (∀ later last : List Nat,
          (CallbackFunction.new f none).live later = true →
          (CallbackFunction.new f none).live last = true →
          (SignalHandler.remove last
              (SignalHandler.add later
                (SignalHandler.add expired (SignalHandler.run_at steps []) f) f) f).countP
            (fun c => c.equals last (CallbackFunction.new f none)) = 0
          ∧ SignalHandler.remove last
              (SignalHandler.add later (SignalHandler.add expired [] f) f) f = []) := by
  have hb0 : SignalHandler.built [] := fun c hc => by simp at hc
  have hu0 : SignalHandler.distinct [] := List.Pairwise.nil
  obtain ⟨hb, hu⟩ := run_at_spec steps [] hb0 hu0 hl
  obtain ⟨a1, a2, a3, a4⟩ := add_at_spec expired _ f hb hu hf
  refine ⟨hu, fun now => ?_, a3, a4, fun later last h2 h3 => ?_⟩
  · refine List.Pairwise.imp_of_mem ?_ hu
    intro a b ha hb2 hab heq
    cases hla : a.live now
    · cases hlb : b.live now
      · exact ⟨rfl, rfl⟩
      · exact absurd ((equals_iff_identity (hb a ha) (hb b hb2) (Or.inr hlb)).1 heq) hab
    · exact absurd ((equals_iff_identity (hb a ha) (hb b hb2) (Or.inl hla)).1 heq) hab
  · obtain ⟨b1, b2, _, _⟩ := add_at_spec later _ f a1 a2 h2
    obtain ⟨_, _, c3, _⟩ := remove_at_spec last _ f b1 b2 h3
    refine ⟨List.countP_eq_zero.2 (fun c hc => by simp [c3 c hc]), ?_⟩
    have he : ∀ e, (CallbackFunction.new f none).equals e (CallbackFunction.new f none) = true :=
      fun e => equals_self ⟨f, none, rfl⟩
    simp [SignalHandler.add, SignalHandler.remove, he]

theorem relay_never_duplicates_witness :
    SignalHandler.live_calls
        [([], .add (some (on_changed 50))), ([], .add (some (on_changed 51))),
         ([50], .remove (some (on_changed 51)))] = true
      ∧ (CallbackFunction.new (some (on_changed 51)) none).live [50] = true
      ∧ (SignalHandler.run_at
          [([], .add (some (on_changed 50))), ([], .add (some (on_changed 51))),
           ([50], .remove (some (on_changed 51)))] []).distinct
      ∧ (SignalHandler.add [50]
          (SignalHandler.run_at
            [([], .add (some (on_changed 50))), ([], .add (some (on_changed 51))),
             ([50], .remove (some (on_changed 51)))] [])
          (some (on_changed 51))).countP
            (fun c => c.equals [50] (CallbackFunction.new (some (on_changed 51)) none)) = 1 :=
  ⟨by decide, by decide,
    (relay_never_duplicates
      [([], .add (some (on_changed 50))), ([], .add (some (on_changed 51))),
       ([50], .remove (some (on_changed 51)))] (by decide) [50] (some (on_changed 51))
      (by decide)).1,
    (relay_never_duplicates
      [([], .add (some (on_changed 50))), ([], .add (some (on_changed 51))),
       ([50], .remove (some (on_changed 51)))] (by decide) [50] (some (on_changed 51))
      (by decide)).2.2.1⟩
/-! ## CallbackFunction: equality, construction, resolution -/

/-- C15, the claim as stated fails: two callbacks built from the same function
bound to two different receivers, at addresses 50 and 51, compare equal once both
receivers have expired, while the spec's equality tells them apart. -/
theorem equals_of_expired_receivers :
    (CallbackFunction.new (some (on_changed 50)) none).equals [50, 51]
        (CallbackFunction.new (some (on_changed 51)) none) = true
      ∧ spec_equals (some (on_changed 50)) (some (on_changed 51)) = false := by
  decide

/-- C15, amended: `operator==` on two callbacks the constructor has built, from
callables whose receivers support weak references, decides identity as the spec
defines it (same receiver and same function for two decomposed bound methods, same
callable for two plain callables, never equal across the two kinds) for every pair
of which at least one receiver has not expired; two decomposed callbacks whose
receivers have both expired are equal exactly when they hold the same function. -/
theorem equals_decides_identity (expired : List Nat) (p q : Option PyObject)
    (m n : Option MethodBase) (hp : CallbackFunction.new_leaves_error p = false)
    (hq : CallbackFunction.new_leaves_error q = false) :
    ((receiver_expired expired p && receiver_expired expired q) = false →
        (CallbackFunction.new p m).equals expired (CallbackFunction.new q n) = spec_equals p q)
      ∧ ((receiver_expired expired p && receiver_expired expired q) = true →
        (CallbackFunction.new p m).equals expired (CallbackFunction.new q n)
          = ((CallbackFunction.new p m).callable_ref == (CallbackFunction.new q n).callable_ref)) := by
  have hnew : ∀ (r : Option PyObject) (k : Option MethodBase),
      CallbackFunction.new_leaves_error r = false →
      CallbackFunction.new r k
        = (match r with
           | some (.method _ s f) => ⟨k, some f, some s⟩
           | _ => ⟨k, r, none⟩) := by
    intro r k hr
    rcases r with _ | (_ | _ | _ | _ | ⟨a, s, f⟩ | _) <;> try rfl
    have hs : s.weakrefs = true := by simpa [CallbackFunction.new_leaves_error] using hr
    simp [CallbackFunction.new, PyWeakref_NewRef, hs]
  rw [hnew p m hp, hnew q n hq]
  rcases p with _ | (_ | _ | _ | _ | ⟨a, s, f⟩ | _) <;>
    rcases q with _ | (_ | _ | _ | _ | ⟨b, t, g⟩ | _) <;>
    try (simp [CallbackFunction.equals,
      CallbackFunction.is_instance_method, CallbackFunction.self_ref,
      CallbackFunction.callable_ref, PyWeakref_GetObject, spec_equals, receiver_expired]; done)
  simp only [CallbackFunction.equals,
    CallbackFunction.is_instance_method, CallbackFunction.self_ref,
    CallbackFunction.callable_ref, PyWeakref_GetObject, spec_equals, receiver_expired,
    Option.map_some']
  generalize s.addr = x
  generalize t.addr = y
  generalize f.addr = u
  generalize g.addr = v
  by_cases hs : x ∈ expired <;> by_cases ht : y ∈ expired <;> by_cases hxy : x = y <;>
    by_cases huv : u = v <;> simp [hs, ht, hxy, huv]

theorem equals_decides_identity_witness :
    CallbackFunction.new_leaves_error (some (on_changed 50)) = false
      ∧ CallbackFunction.new_leaves_error (some (on_changed 51)) = false
      ∧ (receiver_expired [50] (some (on_changed 50))
        && receiver_expired [50] (some (on_changed 51))) = false
      ∧ (CallbackFunction.new (some (on_changed 50)) none).equals [50]
            (CallbackFunction.new (some (on_changed 51)) none)
          = spec_equals (some (on_changed 50)) (some (on_changed 51)) :=
  ⟨rfl, rfl, by decide,
    (equals_decides_identity [50] (some (on_changed 50)) (some (on_changed 51)) none none
      rfl rfl).1 (by decide)⟩

/-- C16, the claim as stated fails: for a wrapper whose own script object is at
address 99, a bound method of the different object at address 50 is decomposed all
the same (the constructor differs from the one the spec words), it is held through
a weak reference to its receiver, and once that receiver has expired `callable ()`
no longer returns it. -/
theorem new_decomposes_foreign_method :
    CallbackFunction.new (some (on_changed 50)) none
        ≠ CallbackFunction.spec_new 99 (some (on_changed 50)) none
      ∧ (CallbackFunction.new (some (on_changed 50)) none).m_weak_self = some (.object 50)
      ∧ (CallbackFunction.new (some (on_changed 50)) none).callable [50] = none := by
  decide

/-- C16, amended: the constructor decomposes a callable into a weak receiver
reference plus the unbound function only when it is a bound method with a receiver,
and it does so for every such method whose receiver supports weak references,
whoever the receiver is; `callable ()` then returns a bound method of that function
on that receiver until the receiver expires, and null afterwards.  Every callable
that is not a bound method is stored as a strong reference to the callable itself,
and `callable ()` returns it whatever has expired. -/
theorem new_decomposes_bound_methods (pym : Option PyObject) (m : Option MethodBase)
    (expired : List Nat) :
    ((CallbackFunction.new pym m).m_weak_self.isSome = true →
        ∃ a s f, pym = some (.method a s f))
      ∧ (∀ a s f, pym = some (.method a s f) → s.weakrefs = true →
          (CallbackFunction.new pym m).m_callable = some f
          ∧ (CallbackFunction.new pym m).m_weak_self = some s
          ∧ (CallbackFunction.new pym m).callable expired
              = if expired.contains s.addr then none else some (PyMethod_New f s))
      ∧ ((∀ a s f, pym ≠ some (.method a s f)) →
          (CallbackFunction.new pym m).m_callable = pym
          ∧ (CallbackFunction.new pym m).m_weak_self = none
          ∧ (CallbackFunction.new pym m).callable expired = pym) := by
  rcases pym with _ | (_ | _ | _ | _ | ⟨a, s, f⟩ | _) <;>
    simp [CallbackFunction.new, CallbackFunction.callable]
  intro hs
  simp only [PyWeakref_NewRef, hs, if_true, PyWeakref_GetObject, true_and]
  split <;> simp_all

theorem new_decomposes_bound_methods_witness :
    (PyObject.object 50).weakrefs = true
      ∧ (CallbackFunction.new (some (on_changed 50)) none).m_callable = some (.function 7 1)
      ∧ (CallbackFunction.new (some (on_changed 50)) none).m_weak_self = some (.object 50)
      ∧ (CallbackFunction.new (some (on_changed 50)) none).callable []
          = (if ([] : List Nat).contains (PyObject.object 50).addr then none
             else some (PyMethod_New (.function 7 1) (.object 50))) :=
  ⟨rfl, (new_decomposes_bound_methods (some (on_changed 50)) none []).2.1 1050 (.object 50)
    (.function 7 1) rfl rfl⟩

/-- A callback built from a bound method whose receiver supports weak references
resolves to a bound method of the same function on the same receiver while the
receiver is alive, and to null once the receiver has been dropped.  A dispatch
through an entry of the dispatch table that resolves to null makes no script call,
throws nothing and stores nothing in the return buffer, so the native result is the
return type's default value. -/
theorem dispatch_to_expired_receiver (rt : Runtime) (cls_name : String) (mp_obj : Nat)
    (c : Callee) (id : Nat) (args : List Nat) (a : Nat) (s f : PyObject)
    (m : Option MethodBase) (default_value : Nat) (hs : s.weakrefs = true) :
    (rt.expired.contains s.addr = false →
        (CallbackFunction.new (some (.method a s f)) m).callable rt.expired
          = some (PyMethod_New f s))
      ∧ (rt.expired.contains s.addr = true →
        (CallbackFunction.new (some (.method a s f)) m).callable rt.expired = none)
      ∧ (∀ cb, List.get? c id = some cb → cb.callable rt.expired = none →
          (Callee.call rt cls_name mp_obj c id args).calls = []
          ∧ (Callee.call rt cls_name mp_obj c id args).error = none
          ∧ (Callee.call rt cls_name mp_obj c id args).ret = none
          ∧ native_result default_value (Callee.call rt cls_name mp_obj c id args)
              = default_value) := by
  refine ⟨?_, ?_, ?_⟩
  · intro h
    have hn : s.addr ∉ rt.expired := by simpa using h
    simp [CallbackFunction.new, CallbackFunction.callable, PyWeakref_GetObject,
      PyWeakref_NewRef, hs, hn]
  · intro h
    have hn : s.addr ∈ rt.expired := by simpa using h
    simp [CallbackFunction.new, CallbackFunction.callable, PyWeakref_GetObject,
      PyWeakref_NewRef, hs, hn]
  · intro cb hcb hnone
    unfold Callee.call
    rw [hcb]
    simp only [hnone]
    simp [native_result]

/-- C17: the code at the failing input.  A callback is built from a bound method of
the object at address 60, whose type does not support weak references.  The
constructor stores the null result of `PyWeakref_NewRef` next to the bare
function, so `callable ()` returns the bare function while the receiver is alive,
in place of a bound method on the receiver, and goes on returning it once the
receiver has been dropped, in place of null; a dispatch through the entry then calls
the function and stores its result.  For the receiver at address 50, which supports
weak references, `callable ()` returns the bound method and then null, and the
dispatch makes no call. -/
theorem resolve_without_weak_reference :
    (CallbackFunction.new (some (on_slotted 60)) (some area)).m_weak_self = none
      ∧ CallbackFunction.new_leaves_error (some (on_slotted 60)) = true
      ∧ (CallbackFunction.new (some (on_slotted 60)) (some area)).callable []
          = some (.function 7 1)
      ∧ (CallbackFunction.new (some (on_slotted 60)) (some area)).callable [60]
          = some (.function 7 1)
      ∧ Callee.call (sample_runtime [60]) "Shape" 1
            [CallbackFunction.new (some (on_slotted 60)) (some area)] 0 []
          = { calls := [⟨.function 7 1, [some 1]⟩], ret := some (some 107), error := none }
      ∧ native_result 0 (Callee.call (sample_runtime [60]) "Shape" 1
            [CallbackFunction.new (some (on_slotted 60)) (some area)] 0 []) = 107
      ∧ (CallbackFunction.new (some (on_changed 50)) (some area)).callable []
          = some (PyMethod_New (.function 7 1) (.object 50))
      ∧ (CallbackFunction.new (some (on_changed 50)) (some area)).callable [50] = none
      ∧ Callee.call (sample_runtime [50]) "Shape" 1
            [CallbackFunction.new (some (on_changed 50)) (some area)] 0 []
          = { calls := [], ret := none, error := none }
      ∧ native_result 0 (Callee.call (sample_runtime [50]) "Shape" 1
            [CallbackFunction.new (some (on_changed 50)) (some area)] 0 []) = 0 := by
  decide
/-! ## The Signal Relay: broadcast -/

theorem build_argv_length (n : Nat) (args : List Nat) : (build_argv n args).length = n := by
  simp [build_argv, List.length_take]
  omega

theorem pass_args_clipped (n : Nat) (argv : List (Option Nat)) (k : Int) :
    pass_args n argv k
      = if k ≤ 0 then [] else if k < (n : Int) then argv.take k.toNat else argv := by
  unfold pass_args
  by_cases h0 : k = 0
  · simp [h0]
  · by_cases hneg : k ≤ 0
    · have hlt : k < (n : Int) := by omega
      have ht : k.toNat = 0 := by omega
      simp [h0, hneg, hlt, ht]
    · simp [h0, hneg]

/-- The arguments the subscriber loop passes are those the spec gives, for a
function, for a bound method of a function, and for a callable without an argument
count. -/
theorem passed_eq_spec (n : Nat) (argv : List (Option Nat)) (hl : argv.length = n)
    (f : PyObject)
    (hf : (∃ a k, f = .function a k) ∨ (∃ a s b k, f = .method a s (.function b k))
      ∨ co_argcount f = none) :
    SignalHandler.passed n argv f = spec_args n argv f := by
  unfold SignalHandler.passed
  rw [pass_args_clipped]
  by_cases hn : n = 0
  · subst hn
    have : argv = [] := List.length_eq_zero.mp hl
    subst this
    unfold spec_args
    cases declared_args f <;> simp
  · have hpos : n > 0 := Nat.pos_of_ne_zero hn
    have h1 : ¬ ((n : Int) ≤ 0) := by omega
    rcases hf with ⟨a, k, rfl⟩ | ⟨a, s, b, k, rfl⟩ | hco
    · simp [arg_count, spec_args, declared_args, co_argcount, has_self_attr, hpos]
    · simp [arg_count, spec_args, declared_args, co_argcount, has_self_attr, hpos]
    · have hd : declared_args f = none := by
        cases f with
        | function a k => simp [co_argcount] at hco
        | unbound_method a g => cases g <;> simp_all [co_argcount, declared_args]
        | method a s g => cases g <;> simp_all [co_argcount, declared_args]
        | _ => rfl
      simp [arg_count, spec_args, hco, hd, hpos, h1]

/-- The subscriber loop over a prefix of subscribers that all return: their calls are
made in order, and the loop goes on with the rest, holding the value the last
subscriber of the prefix returned. -/
theorem invoke_all_prefix (rt : Runtime) (n : Nat) (argv : List (Option Nat))
    (pre rest : List CallbackFunction) (result : Option Nat)
    (hpre : SignalHandler.all_return rt n argv pre) :
    ∃ r, SignalHandler.invoke_all rt n argv (pre ++ rest) result
        = (SignalHandler.invocations rt n argv pre
            ++ (SignalHandler.invoke_all rt n argv rest r).1,
           (SignalHandler.invoke_all rt n argv rest r).2)
      ∧ (pre = [] → r = result)
      ∧ (∀ c f v, pre.getLast? = some c → c.callable rt.expired = some f →
          SignalHandler.result_of rt n argv f = .value v → r = some v) := by
  induction pre generalizing result with
  | nil =>
    exact ⟨result, by simp [SignalHandler.invocations], fun _ => rfl,
      fun c f v h => by simp at h⟩
  | cons c cs ih =>
    obtain ⟨f, v, hf, hv⟩ := hpre c (List.mem_cons_self c cs)
    obtain ⟨r, hr, hnil, hlast⟩ := ih (some v) (fun d hd => hpre d (List.mem_cons_of_mem c hd))
    refine ⟨r, ?_, fun h => by simp at h, ?_⟩
    · rw [List.cons_append, SignalHandler.invoke_all]
      have hv2 : PyObject_CallObject rt (arg_count n f).2 f (pass_args n argv (arg_count n f).1)
          = .value v := hv
      simp only [hf, hv2, hr]
      simp [SignalHandler.invocations, hf, SignalHandler.passed]
    · intro d g u hd hg hu
      cases cs with
      | nil =>
        simp at hd
        subst hd
        rw [hf] at hg
        cases hg
        rw [hv] at hu
        cases hu
        exact hnil rfl
      | cons x xs =>
        rw [List.getLast?_cons_cons] at hd
        exact hlast d g u hd hg hu

theorem invocations_length (rt : Runtime) (n : Nat) (argv : List (Option Nat))
    (h : SignalHandler) (hall : SignalHandler.all_return rt n argv h) :
    (SignalHandler.invocations rt n argv h).length = h.length := by
  induction h with
  | nil => rfl
  | cons c cs ih =>
    obtain ⟨f, v, hf, _⟩ := hall c (List.mem_cons_self c cs)
    have := ih (fun d hd => hall d (List.mem_cons_of_mem c hd))
    simp only [SignalHandler.invocations] at this ⊢
    simp [List.filterMap_cons, hf, this]

/-- When every subscriber of a relay resolves and its call, as the subscriber loop
makes it, returns, `SignalHandler::call` calls every subscriber exactly once, in
registration order, each with the arguments the loop passes.  What is stored as the
native result is the value the last subscriber returned, and nothing is thrown when
the marshaler leaves no temporaries. -/
theorem broadcast_calls_each_subscriber (rt : Runtime) (h : SignalHandler) (meth : MethodBase)
    (args : List Nat)
    (hall : SignalHandler.all_return rt meth.n_arguments
      (build_argv meth.n_arguments args) h) :
    (SignalHandler.call rt h meth args).calls
        = SignalHandler.invocations rt meth.n_arguments (build_argv meth.n_arguments args) h
      ∧ (SignalHandler.call rt h meth args).calls.length = h.length
      ∧ (∀ c f v, h.getLast? = some c → c.callable rt.expired = some f →
          SignalHandler.result_of rt meth.n_arguments (build_argv meth.n_arguments args) f
            = .value v →
          (SignalHandler.call rt h meth args).ret = some (some v))
      ∧ ((∀ x, rt.pop_temps x = 0) → (∀ r, rt.push_temps r = 0) →
          (SignalHandler.call rt h meth args).error = none) := by
  obtain ⟨r, hr, _, hlast⟩ := invoke_all_prefix rt meth.n_arguments
    (build_argv meth.n_arguments args) h [] none hall
  rw [List.append_nil] at hr
  have hpt : (∀ x, rt.pop_temps x = 0) → popped_temps rt meth.n_arguments args = 0 := by
    intro hp
    unfold popped_temps
    induction (List.take meth.n_arguments args) with
    | nil => rfl
    | cons x xs ih => simp [hp x, ih]
  have hcalls : (SignalHandler.call rt h meth args).calls
      = SignalHandler.invocations rt meth.n_arguments (build_argv meth.n_arguments args) h := by
    unfold SignalHandler.call
    simp only [hr, SignalHandler.invoke_all, List.append_nil]
    split <;> rfl
  refine ⟨hcalls, ?_, ?_, ?_⟩
  · rw [hcalls]
    exact invocations_length rt _ _ h hall
  · intro c f v hc hf hv
    have hrv := hlast c f v hc hf hv
    unfold SignalHandler.call
    simp only [hr, SignalHandler.invoke_all, hrv]
    split <;> rfl
  · intro hp hq
    unfold SignalHandler.call
    simp [hr, SignalHandler.invoke_all, hpt hp, hq]

theorem three_subscribers_return :
    SignalHandler.all_return (sample_runtime []) changed.n_arguments
      (build_argv changed.n_arguments [10, 20]) three_subscribers := by
  intro c hc
  simp only [three_subscribers, List.mem_cons, List.mem_singleton, List.not_mem_nil,
    or_false] at hc
  rcases hc with rfl | rfl | rfl
  · exact ⟨.function 1 0, 101, rfl, rfl⟩
  · exact ⟨.function 2 1, 102, rfl, rfl⟩
  · exact ⟨.function 3 2, 103, rfl, rfl⟩

/-- C14: when the call of the subscriber at index `i` (the one after the prefix
`pre`) raises, `SignalHandler::call` throws at once: the subscribers up to and
including it have been called once each in order, no later subscriber is called,
and nothing is stored as the native result. -/
theorem broadcast_stops_at_exception (rt : Runtime) (pre post : List CallbackFunction)
    (c : CallbackFunction) (meth : MethodBase) (args : List Nat) (f : PyObject)
    (hpre : SignalHandler.all_return rt meth.n_arguments
      (build_argv meth.n_arguments args) pre)
    (hf : c.callable rt.expired = some f)
    (hraise : ∀ v, SignalHandler.result_of rt meth.n_arguments
      (build_argv meth.n_arguments args) f ≠ .value v) :
    (SignalHandler.call rt (pre ++ c :: post) meth args).calls
        = SignalHandler.invocations rt meth.n_arguments (build_argv meth.n_arguments args) pre
          ++ [⟨f, SignalHandler.passed meth.n_arguments (build_argv meth.n_arguments args) f⟩]
      ∧ (SignalHandler.call rt (pre ++ c :: post) meth args).calls.length = pre.length + 1
      ∧ (SignalHandler.call rt (pre ++ c :: post) meth args).ret = none
      ∧ (SignalHandler.call rt (pre ++ c :: post) meth args).error
          = (match SignalHandler.result_of rt meth.n_arguments
                (build_argv meth.n_arguments args) f with
             | .error msg => some (.python_error msg none)
             | _ => some .exit_exception) := by
  obtain ⟨r, hr, _, _⟩ := invoke_all_prefix rt meth.n_arguments
    (build_argv meth.n_arguments args) pre (c :: post) none hpre
  have hlen := invocations_length rt _ _ pre hpre
  unfold SignalHandler.call
  simp only [hr]
  rw [SignalHandler.invoke_all]
  simp only [hf]
  have hres : PyObject_CallObject rt
      (arg_count meth.n_arguments f).2 f
      (pass_args meth.n_arguments (build_argv meth.n_arguments args)
        (arg_count meth.n_arguments f).1)
      = SignalHandler.result_of rt meth.n_arguments (build_argv meth.n_arguments args) f := rfl
  rw [hres]
  cases hc : SignalHandler.result_of rt meth.n_arguments
      (build_argv meth.n_arguments args) f with
  | value v => exact absurd hc (hraise v)
  | error msg => simp [hlen, SignalHandler.passed]
  | system_exit => simp [hlen, SignalHandler.passed]

theorem first_subscriber_returns :
    SignalHandler.all_return raising_runtime changed.n_arguments
      (build_argv changed.n_arguments [10, 20])
      [CallbackFunction.new (some (.function 1 0)) none] := by
  intro c hc
  simp only [List.mem_singleton] at hc
  subst hc
  exact ⟨.function 1 0, 1, rfl, rfl⟩

theorem broadcast_stops_at_exception_witness :
    SignalHandler.all_return raising_runtime changed.n_arguments
        (build_argv changed.n_arguments [10, 20])
        [CallbackFunction.new (some (.function 1 0)) none]
      ∧ (CallbackFunction.new (some (.function 2 1)) none).callable raising_runtime.expired
          = some (.function 2 1)
      ∧ SignalHandler.result_of raising_runtime changed.n_arguments
            (build_argv changed.n_arguments [10, 20]) (.function 2 1) = .error "boom"
      ∧ (SignalHandler.call raising_runtime
            ([CallbackFunction.new (some (.function 1 0)) none]
              ++ CallbackFunction.new (some (.function 2 1)) none
                :: [CallbackFunction.new (some (.function 3 2)) none])
            changed [10, 20]).calls.length = 2
      ∧ (SignalHandler.call raising_runtime
            ([CallbackFunction.new (some (.function 1 0)) none]
              ++ CallbackFunction.new (some (.function 2 1)) none
                :: [CallbackFunction.new (some (.function 3 2)) none])
            changed [10, 20]).ret = none :=
  ⟨first_subscriber_returns, rfl, by decide,
    (broadcast_stops_at_exception raising_runtime
      [CallbackFunction.new (some (.function 1 0)) none]
      [CallbackFunction.new (some (.function 3 2)) none]
      (CallbackFunction.new (some (.function 2 1)) none) changed [10, 20] (.function 2 1)
      first_subscriber_returns rfl
      (fun v h => by
        simp [SignalHandler.result_of, PyObject_CallObject, raising_runtime, PyObject.addr]
          at h)).2.1,
    (broadcast_stops_at_exception raising_runtime
      [CallbackFunction.new (some (.function 1 0)) none]
      [CallbackFunction.new (some (.function 3 2)) none]
      (CallbackFunction.new (some (.function 2 1)) none) changed [10, 20] (.function 2 1)
      first_subscriber_returns rfl
      (fun v h => by
        simp [SignalHandler.result_of, PyObject_CallObject, raising_runtime, PyObject.addr]
          at h)).2.2.1⟩

/-- What `SignalHandler::call` does at a subscriber that resolves to null: it hands
the null callable to the script runtime, after the calls of the subscribers before
it; no later subscriber is called. -/
theorem broadcast_at_null_callable (rt : Runtime) (pre post : List CallbackFunction)
    (c : CallbackFunction) (meth : MethodBase) (args : List Nat)
    (hpre : SignalHandler.all_return rt meth.n_arguments
      (build_argv meth.n_arguments args) pre)
    (hc : c.callable rt.expired = none) :
    SignalHandler.call rt (pre ++ c :: post) meth args
      = { calls := SignalHandler.invocations rt meth.n_arguments
                     (build_argv meth.n_arguments args) pre,
          ret := none, error := some .null_callable } := by
  obtain ⟨r, hr, _, _⟩ := invoke_all_prefix rt meth.n_arguments
    (build_argv meth.n_arguments args) pre (c :: post) none hpre
  unfold SignalHandler.call
  simp only [hr]
  rw [SignalHandler.invoke_all]
  simp [hc]

/-- C20: the code at the failing input.  The relay holds a bound method of the
object at address 50, which has expired, and behind it a live plain function;
`SignalHandler::call` hands the null callable of the first entry to the script
runtime, and the live subscriber behind it is never called. -/
theorem broadcast_with_expired_entry :
    (CallbackFunction.new (some (on_changed 50)) none).callable (sample_runtime [50]).expired
        = none
      ∧ (CallbackFunction.new (some (.function 2 1)) none).callable
            (sample_runtime [50]).expired = some (.function 2 1)
      ∧ SignalHandler.call (sample_runtime [50])
            [CallbackFunction.new (some (on_changed 50)) none,
             CallbackFunction.new (some (.function 2 1)) none] changed [10, 20]
          = { calls := [], ret := none, error := some .null_callable } := by
  decide

/-! ## Attachment is per wrapper -/

/-- C11, the claim as stated fails: two wrappers that start with no handle are
attached to the same handle `5` one after the other; the second `set` succeeds, and
the handle is then attached to two Bound Objects. -/
theorem two_wrappers_share_a_handle :
    System.holders two_wrappers 5 = 0
      ∧ (System.step two_wrappers 0 (.set 5 true false true)).2 = none
      ∧ (System.step (System.step two_wrappers 0 (.set 5 true false true)).1 1
            (.set 5 true false true)).2 = none
      ∧ System.holders
            (System.run two_wrappers [(0, .set 5 true false true), (1, .set 5 true false true)])
            5 = 2 := by
  decide

theorem countP_set {α : Type} (p : α → Bool) (l : List α) (i : Nat) (a b : α)
    (h : List.get? l i = some a) :
    (l.set i b).countP p + (if p a then 1 else 0) = l.countP p + (if p b then 1 else 0) := by
  induction l generalizing i with
  | nil => simp at h
  | cons x xs ih =>
    cases i with
    | zero =>
      simp at h
      subst h
      simp [List.countP_cons]
      omega
    | succ k =>
      simp at h
      have := ih k (by simpa using h)
      simp [List.countP_cons] at this ⊢
      omega

theorem set_same {α : Type} (l : List α) (i : Nat) (a : α) (h : List.get? l i = some a) :
    l.set i a = l := by
  induction l generalizing i with
  | nil => rfl
  | cons x xs ih =>
    cases i with
    | zero => simp at h; simp [h]
    | succ k => simp at h; simp [ih k (by simpa using h)]

theorem get_set_other {α : Type} (l : List α) (i j : Nat) (b : α) (h : j ≠ i) :
    List.get? (l.set i b) j = List.get? l j := by
  simp [List.getElem?_set, Ne.symm h]

theorem system_step_eq (s : System) (i : Nat) (op : Op) (a : PYAObjectBase)
    (hi : List.get? s.objs i = some a) :
    System.step s i op
      = ({ objs := s.objs.set i (step op (s.focus a)).1.self,
           s_callbacks_cache := (step op (s.focus a)).1.s_callbacks_cache,
           interpreter := (step op (s.focus a)).1.interpreter,
           kept := (step op (s.focus a)).1.kept,
           heap_top := (step op (s.focus a)).1.heap_top,
           slots := (step op (s.focus a)).1.slots,
           trace := (step op (s.focus a)).1.trace }, (step op (s.focus a)).2) := by
  unfold System.step
  rw [hi]

theorem get_set_self {α : Type} (l : List α) (i : Nat) (a b : α)
    (h : List.get? l i = some a) : List.get? (l.set i b) i = some b := by
  induction l generalizing i with
  | nil => simp at h
  | cons x xs ih =>
    cases i with
    | zero => simp
    | succ k => simp at h; simpa using ih k (by simpa using h)

/-- C11, amended: attachment is single per Bound Object, not per handle.  In every
state of a system of wrappers, `set` on a wrapper that has a class descriptor and a
handle fails the assertion `! m_obj` and changes nothing; `set` of a handle that is
not null on a wrapper that has a class descriptor and no handle succeeds whatever
the other wrappers hold: the handle is attached, the other wrappers are unchanged,
and the number of wrappers holding that handle grows by one. -/
theorem attach_is_per_wrapper (s : System) (i : Nat) (a : PYAObjectBase)
    (hi : List.get? s.objs i = some a) (cls : ClassBase) (hcls : a.m_cls_decl = some cls)
    (o : Nat) (ho : o ≠ 0) (owned const_ref can_destroy : Bool) :
    (a.m_obj ≠ 0 →
        System.step s i (.set o owned const_ref can_destroy)
          = (s, some (.assertion "! m_obj")))
      ∧ (a.m_obj = 0 →
        (System.step s i (.set o owned const_ref can_destroy)).2 = none
        ∧ (List.get? (System.step s i (.set o owned const_ref can_destroy)).1.objs i).map
            (fun b => b.m_obj) = some o
        ∧ (∀ j, j ≠ i →
            List.get? (System.step s i (.set o owned const_ref can_destroy)).1.objs j
              = List.get? s.objs j)
        ∧ System.holders (System.step s i (.set o owned const_ref can_destroy)).1 o
            = System.holders s o + 1) := by
  rw [system_step_eq s i _ a hi]
  refine ⟨fun h0 => ?_, fun h0 => ?_⟩
  · have hs : step (.set o owned const_ref can_destroy) (s.focus a)
        = (s.focus a, some (.assertion "! m_obj")) := by
      simp [step, set, System.focus, hcls, h0]
    rw [hs]
    simp [System.focus, set_same s.objs i a hi]
  · obtain ⟨h1, h2, _⟩ := set_attaches (s.focus a) cls hcls h0 o ho owned const_ref can_destroy
    refine ⟨h1, ?_, fun j hj => get_set_other _ _ _ _ hj, ?_⟩
    · rw [get_set_self s.objs i a _ hi]
      exact congrArg some h2
    · have hc := countP_set (fun b : PYAObjectBase => b.m_obj == o) s.objs i a
        (step (.set o owned const_ref can_destroy) (s.focus a)).1.self hi
      have hb : ((step (.set o owned const_ref can_destroy) (s.focus a)).1.self.m_obj == o)
          = true := by simpa using h2
      have ha : (a.m_obj == o) = false := by
        simp [h0]; exact fun h => ho h.symm
      simp only [hb, ha, if_true, Bool.false_eq_true, if_false, Nat.add_zero] at hc
      exact hc

theorem attach_is_per_wrapper_witness :
    List.get? (System.step two_wrappers 0 (.set 5 true false true)).1.objs 1
        = some (PYAObjectBase.new MyShape (some (Shape false)))
      ∧ (PYAObjectBase.new MyShape (some (Shape false))).m_cls_decl = some (Shape false)
      ∧ (5 : Nat) ≠ 0
      ∧ (PYAObjectBase.new MyShape (some (Shape false))).m_obj = 0
      ∧ (System.step (System.step two_wrappers 0 (.set 5 true false true)).1 1
            (.set 5 true false true)).2 = none
      ∧ System.holders (System.step (System.step two_wrappers 0 (.set 5 true false true)).1 1
            (.set 5 true false true)).1 5
          = System.holders (System.step two_wrappers 0 (.set 5 true false true)).1 5 + 1 :=
  ⟨by decide, by decide, by decide, by decide,
    ((attach_is_per_wrapper (System.step two_wrappers 0 (.set 5 true false true)).1 1
      (PYAObjectBase.new MyShape (some (Shape false))) (by decide) (Shape false) (by decide)
      5 (by decide) true false true).2 (by decide)).1,
    ((attach_is_per_wrapper (System.step two_wrappers 0 (.set 5 true false true)).1 1
      (PYAObjectBase.new MyShape (some (Shape false))) (by decide) (Shape false) (by decide)
      5 (by decide) true false true).2 (by decide)).2.2.2⟩

/-! ## The Class Callback Cache -/

theorem cache_find_append (cache : List (Nat × List MethodBase)) (t k : Nat)
    (e : List MethodBase) :
    cache_find (cache ++ [(t, e)]) k
      = (cache_find cache k).or (if k = t then some e else none) := by
  unfold cache_find
  rw [List.lookup_append]
  congr 1
  by_cases h : k = t
  · subst h; simp
  · have : (k == t) = false := by simpa using h
    simp [List.lookup_cons, this, h]

theorem slot_updates_walks {ext : List Event} (h : slot_updates ext) :
    hierarchy_walks ext = 0 := by
  unfold hierarchy_walks count_calls
  rw [List.countP_eq_zero]
  intro e he
  obtain ⟨o, m, id, hc⟩ := h e he
  simp [hc]

/-- The installing loop of `initialize_callbacks`: it appends one callback per method
of the entry, in the order of the entry, and logs only native slot updates. -/
theorem install_exact (entry : List MethodBase) (w : World) :
    ∃ s ext, entry.foldl install_callback w
        = { w with self := { w.self with
                      m_callee := w.self.m_callee ++ entry.map (installed w.self.ob_type) },
                   slots := s, trace := w.trace ++ ext }
      ∧ slot_updates ext := by
  induction entry generalizing w with
  | nil => exact ⟨w.slots, [], by simp, fun e he => by simp at he⟩
  | cons m ms ih =>
    obtain ⟨s, ext, h1, h2⟩ := ih (install_callback w m)
    refine ⟨s,
      ⟨.set_callback w.self.m_obj m (some ((w.self.m_callee ++ [installed w.self.ob_type m]).length
          - 1)), w.self.m_obj, w.self.m_owned, w.self.m_destroyed⟩ :: ext, ?_, ?_⟩
    · rw [List.foldl_cons, h1]
      simp [install_callback, set_callback, log, Callee.add_callback, installed]
    · intro e he
      rcases List.mem_cons.mp he with h | h
      · exact ⟨_, _, _, by rw [h]⟩
      · exact h2 e h

/-- What `initialize_callbacks` does, by whether the script class has a cache entry:
on a hit it installs the entry and leaves the cache alone; on a miss it walks the
hierarchy once, appends the entry it found and installs it. -/
theorem initialize_callbacks_exact (w : World) :
    (∀ entry, cache_find w.s_callbacks_cache w.self.ob_type.addr = some entry →
        ∃ s ext, initialize_callbacks w
            = { w with self := { w.self with
                          m_callee := w.self.m_callee ++ entry.map (installed w.self.ob_type) },
                       slots := s, trace := w.trace ++ ext }
          ∧ slot_updates ext)
      ∧ (cache_find w.s_callbacks_cache w.self.ob_type.addr = none →
        ∀ entry, entry = (match w.self.m_cls_decl with
                          | some cls => walk_hierarchy w.self.ob_type w.self.m_owned cls
                          | none => []) →
        ∃ s ext, initialize_callbacks w
            = { w with self := { w.self with
                          m_callee := w.self.m_callee ++ entry.map (installed w.self.ob_type) },
                       s_callbacks_cache :=
                         w.s_callbacks_cache ++ [(w.self.ob_type.addr, entry)],
                       slots := s,
                       trace := w.trace
                         ++ [⟨.hierarchy_walk w.self.ob_type.addr, w.self.m_obj, w.self.m_owned,
                               w.self.m_destroyed⟩] ++ ext }
          ∧ slot_updates ext) := by
  refine ⟨fun entry hf => ?_, fun hf entry he => ?_⟩
  · obtain ⟨s, ext, h1, h2⟩ := install_exact entry w
    refine ⟨s, ext, ?_, h2⟩
    unfold initialize_callbacks
    simp only [hf, Option.getD_some]
    exact h1
  · subst he
    obtain ⟨s, ext, h1, h2⟩ := install_exact
      (match w.self.m_cls_decl with
       | some cls => walk_hierarchy w.self.ob_type w.self.m_owned cls
       | none => [])
      (log (.hierarchy_walk w.self.ob_type.addr)
        { w with s_callbacks_cache := w.s_callbacks_cache ++ [(w.self.ob_type.addr,
            match w.self.m_cls_decl with
            | some cls => walk_hierarchy w.self.ob_type w.self.m_owned cls
            | none => [])] })
    refine ⟨s, ext, ?_, h2⟩
    unfold initialize_callbacks
    simp only [hf, log_cache, cache_find_append, Option.none_or, if_true, Option.getD_some]
    rw [h1]
    simp [log]

theorem set_listener_keeps (w : World) (cls : ClassBase) :
    (set_listener w cls).s_callbacks_cache = w.s_callbacks_cache
      ∧ (set_listener w cls).self.m_callee = w.self.m_callee
      ∧ hierarchy_walks (set_listener w cls).trace = hierarchy_walks w.trace := by
  rw [set_listener_eq]
  split
  · split <;> simp [hierarchy_walks, count_calls_append]
  · exact ⟨rfl, rfl, rfl⟩

/-- What a successful `set` does with the callbacks cache. -/
theorem set_installs (w : World) (cls : ClassBase) (hcls : w.self.m_cls_decl = some cls)
    (h0 : w.self.m_obj = 0) (o : Nat) (ho : o ≠ 0) (owned const_ref can_destroy : Bool) :
    (∀ entry, cache_find w.s_callbacks_cache w.self.ob_type.addr = some entry →
        hierarchy_walks (set w o owned const_ref can_destroy).1.trace = hierarchy_walks w.trace
        ∧ (set w o owned const_ref can_destroy).1.s_callbacks_cache = w.s_callbacks_cache
        ∧ (set w o owned const_ref can_destroy).1.self.m_callee
            = w.self.m_callee ++ entry.map (installed w.self.ob_type))
      ∧ (cache_find w.s_callbacks_cache w.self.ob_type.addr = none →
        hierarchy_walks (set w o owned const_ref can_destroy).1.trace
          = hierarchy_walks w.trace + 1
        ∧ (set w o owned const_ref can_destroy).1.s_callbacks_cache
            = w.s_callbacks_cache
                ++ [(w.self.ob_type.addr, walk_hierarchy w.self.ob_type owned cls)]
        ∧ (set w o owned const_ref can_destroy).1.self.m_callee
            = w.self.m_callee
                ++ (walk_hierarchy w.self.ob_type owned cls).map (installed w.self.ob_type)) := by
  obtain ⟨⟨ty, li, ca, cd, ob, ow, cr, de, cn, st⟩, cache, interp, kept, top, slots, trace⟩ := w
  simp only at hcls h0
  subst hcls h0
  obtain ⟨hhit, hmiss⟩ := initialize_callbacks_exact
    { self := ⟨ty, li, ca, some cls, o, owned, const_ref, de, can_destroy, st⟩,
      s_callbacks_cache := cache, interpreter := interp, kept := kept, heap_top := top,
      slots := slots, trace := trace }
  have hset : ∀ w2, initialize_callbacks
      { self := ⟨ty, li, ca, some cls, o, owned, const_ref, de, can_destroy, st⟩,
        s_callbacks_cache := cache, interpreter := interp, kept := kept, heap_top := top,
        slots := slots, trace := trace } = w2 →
      (set { self := ⟨ty, li, ca, some cls, 0, ow, cr, de, cn, st⟩,
             s_callbacks_cache := cache, interpreter := interp, kept := kept, heap_top := top,
             slots := slots, trace := trace } o owned const_ref can_destroy).1
        = if !(set_listener w2 cls).self.m_owned then Py_INCREF (set_listener w2 cls)
          else set_listener w2 cls := by
    intro w2 hw2
    unfold set
    simp only [bne_self_eq_false, Bool.false_eq_true, if_false, beq_iff_eq, ho, hw2]
    split <;> rfl
  refine ⟨fun entry hf => ?_, fun hf => ?_⟩
  · obtain ⟨s, ext, h1, h2⟩ := hhit entry hf
    rw [hset _ h1]
    obtain ⟨k1, k2, k3⟩ := set_listener_keeps
      { self := ⟨ty, li, ca ++ entry.map (installed ty), some cls, o, owned, const_ref, de,
          can_destroy, st⟩,
        s_callbacks_cache := cache, interpreter := interp, kept := kept, heap_top := top,
        slots := s, trace := trace ++ ext } cls
    have hw : hierarchy_walks (trace ++ ext) = hierarchy_walks trace := by
      simp [hierarchy_walks, count_calls_append]
      exact slot_updates_walks h2
    split <;> simp_all [Py_INCREF, hierarchy_walks]
  · obtain ⟨s, ext, h1, h2⟩ := hmiss hf _ rfl
    rw [hset _ h1]
    obtain ⟨k1, k2, k3⟩ := set_listener_keeps
      { self := ⟨ty, li, ca ++ (walk_hierarchy ty owned cls).map (installed ty), some cls, o,
          owned, const_ref, de, can_destroy, st⟩,
        s_callbacks_cache := cache ++ [(ty.addr, walk_hierarchy ty owned cls)],
        interpreter := interp, kept := kept, heap_top := top,
        slots := s,
        trace := trace ++ [⟨.hierarchy_walk ty.addr, o, owned, de⟩] ++ ext } cls
    have hw : hierarchy_walks (trace ++ [⟨.hierarchy_walk ty.addr, o, owned, de⟩] ++ ext)
        = hierarchy_walks trace + 1 := by
      have := slot_updates_walks h2
      simp [hierarchy_walks, count_calls_append] at this ⊢
      exact this
    split <;> simp_all [Py_INCREF, hierarchy_walks]

theorem cache_kept_refl (w : World) : CacheKept w w := fun _ _ h => h

theorem cache_kept_trans {a b c : World} (h1 : CacheKept a b) (h2 : CacheKept b c) :
    CacheKept a c := fun t e h => h2 t e (h1 t e h)

theorem cache_kept_of_eq {w w2 : World} (h : w2.s_callbacks_cache = w.s_callbacks_cache) :
    CacheKept w w2 := by
  intro t e he
  rw [h]; exact he

theorem keep_internal_cache (w : World) :
    (keep_internal w).s_callbacks_cache = w.s_callbacks_cache := by
  unfold keep_internal
  split <;> rfl

theorem gsi_keep_cache (w : World) (o : Nat) :
    (gsi_keep w o).s_callbacks_cache = w.s_callbacks_cache := by
  unfold gsi_keep
  simp only []
  split
  · rw [keep_internal_cache]; rfl
  · rfl

theorem detach_cache (w : World) : (detach w).s_callbacks_cache = w.s_callbacks_cache := by
  obtain ⟨s, ext, h, _⟩ := detach_frame w
  rw [h]

theorem cache_kept_set (w : World) (o : Nat) (owned const_ref can_destroy : Bool) :
    CacheKept w (set w o owned const_ref can_destroy).1 := by
  cases hcls : w.self.m_cls_decl with
  | none => simp [set, hcls, cache_kept_refl]
  | some cls =>
    by_cases h0 : w.self.m_obj = 0
    · by_cases ho : o = 0
      · simp [set, hcls, h0, ho, cache_kept_refl]
      · obtain ⟨hhit, hmiss⟩ := set_installs w cls hcls h0 o ho owned const_ref can_destroy
        cases hf : cache_find w.s_callbacks_cache w.self.ob_type.addr with
        | some entry => exact cache_kept_of_eq (hhit entry hf).2.1
        | none =>
          intro t e he
          rw [(hmiss hf).2.1, cache_find_append, he]
          rfl
    · simp [set, hcls, h0, cache_kept_refl]

theorem cache_kept_obj (w : World) : CacheKept w (obj w).1 := by
  by_cases h0 : w.self.m_obj = 0
  · cases hd : w.self.m_destroyed
    · cases hcls : w.self.m_cls_decl with
      | none => simp [obj, hcls, h0, hd, cache_kept_refl]
      | some cls =>
        rw [obj_creates w cls hcls h0 hd]
        exact cache_kept_trans (cache_kept_of_eq (w := w) (by simp [cls_create])) (cache_kept_set _ _ _ _ _)
    · simp [obj, h0, hd, cache_kept_refl]
  · rw [obj_attached w h0]; exact cache_kept_refl w

theorem cache_kept_release (w : World) : CacheKept w (release w).1 := by
  have h1 : CacheKept w (release_others w).1 := by
    cases hm : w.managed
    · rw [release_others_unmanaged w hm]; exact cache_kept_refl w
    · rw [release_others_managed w hm]
      split
      · exact cache_kept_trans (cache_kept_obj w) (cache_kept_of_eq (gsi_keep_cache _ _))
      · exact cache_kept_obj w
  unfold release
  simp only []
  split
  · exact h1
  · refine cache_kept_trans h1 (cache_kept_of_eq ?_)
    unfold release_own
    split <;> rfl

theorem cache_kept_keep (w : World) : CacheKept w (keep w).1 := by
  unfold keep
  cases hcls : w.self.m_cls_decl with
  | none => exact cache_kept_refl w
  | some cls =>
    simp only []
    cases ho : (obj w).2 with
    | some e => exact cache_kept_obj w
    | none =>
      have hne := obj_returns w ho
      simp only [bne_iff_ne, ne_eq, hne, not_false_eq_true, if_true]
      split
      · exact cache_kept_trans (cache_kept_obj w) (cache_kept_of_eq (gsi_keep_cache _ _))
      · exact cache_kept_trans (cache_kept_obj w) (cache_kept_of_eq (keep_internal_cache _))

theorem cache_kept_object_status_changed (w : World) (type : StatusEventType) :
    CacheKept w (object_status_changed w type).1 := by
  cases type with
  | ObjectDestroyed =>
    unfold object_status_changed
    simp only []
    split
    · split
      · exact cache_kept_of_eq (by simp [Py_DECREF, detach_cache])
      · exact cache_kept_of_eq (by simp [detach_cache])
    · exact cache_kept_refl w
  | ObjectKeep => exact cache_kept_of_eq (keep_internal_cache w)
  | ObjectRelease => exact cache_kept_release w

theorem cache_kept_destroy (w : World) : CacheKept w (destroy w).1 := by
  cases hcls : w.self.m_cls_decl with
  | none =>
    have hd : (destroy w).1 = { w with self := { w.self with m_obj := 0 } } := by
      simp [destroy, hcls]
    rw [hd]
    exact cache_kept_of_eq rfl
  | some cls =>
    by_cases hok : (destroy w).2 = none
    · have hpre := destroy_ok_pre w cls hcls hok
      obtain ⟨_, hrun⟩ := destroy_runs w cls hcls hpre
      obtain ⟨l, d, ext2, hc, _, _⟩ :=
        cls_destroy_idle (detach (destroy_ensure_obj w)) cls (destroy_ensure_obj w).self.m_obj
          (detach_obj _)
      refine cache_kept_of_eq ?_
      rw [hrun, hc]
      simp only [detach_cache]
      rcases hpre with ⟨h0, _⟩ | ⟨h0, _⟩
      · rw [destroy_ensure_obj_ne w h0]
      · rw [destroy_ensure_obj_new w h0]
    · have : (destroy w).1 = w := by
        unfold destroy at hok ⊢
        simp only [hcls] at hok ⊢
        split at hok
        · simp_all
        · split at hok
          · simp_all
          · simp at hok
      rw [this]
      exact cache_kept_refl w

theorem cache_kept_signal_handler (w : World) (meth : MethodBase) :
    CacheKept w (signal_handler w meth).1 := by
  unfold signal_handler
  split
  · exact cache_kept_refl w
  · simp only []
    have h1 : CacheKept w { w with self := { w.self with
        m_signal_table := w.self.m_signal_table ++ [(meth, [])] } } := cache_kept_of_eq rfl
    split
    · exact cache_kept_trans h1 (cache_kept_obj _)
    · exact cache_kept_trans (cache_kept_trans h1 (cache_kept_obj _)) (cache_kept_of_eq rfl)

/-- Every entry point but `clear_callbacks_cache` keeps the entries of the cache. -/
theorem cache_kept_step (op : Op) (w : World) (hop : op ≠ .clear_callbacks_cache) :
    CacheKept w (step op w).1 := by
  cases op with
  | set o owned const_ref can_destroy => exact cache_kept_set w o owned const_ref can_destroy
  | detach => exact cache_kept_of_eq (detach_cache w)
  | destroy => exact cache_kept_destroy w
  | keep => exact cache_kept_keep w
  | keep_internal => exact cache_kept_of_eq (keep_internal_cache w)
  | release => exact cache_kept_release w
  | object_status_changed type => exact cache_kept_object_status_changed w type
  | obj => exact cache_kept_obj w
  | signal_handler meth => exact cache_kept_signal_handler w meth
  | clear_callbacks_cache => exact absurd rfl hop

theorem system_step_cache (s : System) (i : Nat) (op : Op) (hop : op ≠ .clear_callbacks_cache)
    (t : Nat) (e : List MethodBase) (h : cache_find s.s_callbacks_cache t = some e) :
    cache_find (System.step s i op).1.s_callbacks_cache t = some e := by
  cases hi : List.get? s.objs i with
  | none =>
    unfold System.step
    rw [hi]
    exact h
  | some a =>
    rw [system_step_eq s i op a hi]
    exact cache_kept_step op (s.focus a) hop t e h

theorem system_run_cache (ops : List (Nat × Op)) (s : System)
    (hops : ∀ p ∈ ops, p.2 ≠ Op.clear_callbacks_cache)
    (t : Nat) (e : List MethodBase) (h : cache_find s.s_callbacks_cache t = some e) :
    cache_find (System.run s ops).s_callbacks_cache t = some e := by
  induction ops generalizing s with
  | nil => exact h
  | cons p ps ih =>
    unfold System.run
    rw [List.foldl_cons]
    exact ih _ (fun q hq => hops q (List.mem_cons_of_mem p hq))
      (system_step_cache s p.1 p.2 (hops p (List.mem_cons_self p ps)) t e h)

/-- C18: the native hierarchy is walked only on a cache miss.  An attach of a wrapper
whose script class has no cache entry walks the hierarchy exactly once, inserts the
entry for the class and installs it; an attach of a wrapper whose script class has
an entry walks nothing, leaves the cache alone and installs exactly the callbacks of
the cached entry, in its order; and an entry, once in the cache, is still there
after any sequence of entry points of any wrappers that does not contain
`clear_callbacks_cache`, so it serves every later attach of that class. -/
theorem walk_only_on_cache_miss (s : System) (i : Nat) (a : PYAObjectBase)
    (hi : List.get? s.objs i = some a) (cls : ClassBase) (hcls : a.m_cls_decl = some cls)
    (h0 : a.m_obj = 0) (o : Nat) (ho : o ≠ 0) (owned const_ref can_destroy : Bool) :
    (cache_find s.s_callbacks_cache a.ob_type.addr = none →
        hierarchy_walks (System.step s i (.set o owned const_ref can_destroy)).1.trace
          = hierarchy_walks s.trace + 1
        ∧ cache_find (System.step s i (.set o owned const_ref can_destroy)).1.s_callbacks_cache
            a.ob_type.addr = some (walk_hierarchy a.ob_type owned cls)
        ∧ (List.get? (System.step s i (.set o owned const_ref can_destroy)).1.objs i).map
            (fun b => b.m_callee)
            = some (a.m_callee
                ++ (walk_hierarchy a.ob_type owned cls).map (installed a.ob_type)))
      ∧ (∀ entry, cache_find s.s_callbacks_cache a.ob_type.addr = some entry →
        hierarchy_walks (System.step s i (.set o owned const_ref can_destroy)).1.trace
          = hierarchy_walks s.trace
        ∧ (System.step s i (.set o owned const_ref can_destroy)).1.s_callbacks_cache
            = s.s_callbacks_cache
        ∧ (List.get? (System.step s i (.set o owned const_ref can_destroy)).1.objs i).map
            (fun b => b.m_callee)
            = some (a.m_callee ++ entry.map (installed a.ob_type)))
      ∧ (∀ (ops : List (Nat × Op)) (t : Nat) (e : List MethodBase),
          (∀ p ∈ ops, p.2 ≠ Op.clear_callbacks_cache) →
          cache_find s.s_callbacks_cache t = some e →
          cache_find (System.run s ops).s_callbacks_cache t = some e) := by
  obtain ⟨hhit, hmiss⟩ := set_installs (s.focus a) cls hcls h0 o ho owned const_ref can_destroy
  rw [system_step_eq s i _ a hi]
  refine ⟨fun hf => ?_, fun entry hf => ?_, fun ops t e hops h => system_run_cache ops s hops t e h⟩
  · obtain ⟨m1, m2, m3⟩ := hmiss hf
    refine ⟨m1, ?_, ?_⟩
    · show cache_find (set (s.focus a) o owned const_ref can_destroy).1.s_callbacks_cache _ = _
      rw [m2, cache_find_append]
      have hf2 : cache_find (s.focus a).s_callbacks_cache a.ob_type.addr = none := hf
      rw [hf2]
      simp [System.focus]
    · rw [get_set_self s.objs i a _ hi]
      exact congrArg some m3
  · obtain ⟨m1, m2, m3⟩ := hhit entry hf
    refine ⟨m1, m2, ?_⟩
    rw [get_set_self s.objs i a _ hi]
    exact congrArg some m3

theorem walk_only_on_cache_miss_witness :
    List.get? two_wrappers.objs 0 = some (PYAObjectBase.new MyShape (some (Shape false)))
      ∧ (PYAObjectBase.new MyShape (some (Shape false))).m_cls_decl = some (Shape false)
      ∧ (PYAObjectBase.new MyShape (some (Shape false))).m_obj = 0
      ∧ (5 : Nat) ≠ 0
      ∧ cache_find two_wrappers.s_callbacks_cache
          (PYAObjectBase.new MyShape (some (Shape false))).ob_type.addr = none
      ∧ hierarchy_walks (System.step two_wrappers 0 (.set 5 true false true)).1.trace
          = hierarchy_walks two_wrappers.trace + 1 :=
  ⟨by decide, by decide, by decide, by decide, by decide,
    ((walk_only_on_cache_miss two_wrappers 0 (PYAObjectBase.new MyShape (some (Shape false)))
      (by decide) (Shape false) (by decide) (by decide) 5 (by decide) true false true).1
      (by decide)).1⟩

/-- The entry a hierarchy walk finds: the spec's entry when the wrapper that
triggered the walk is script-owned, the empty entry when it is not. -/
theorem walk_hierarchy_by_owner (ty : PyTypeObject) (cls : ClassBase) :
    walk_hierarchy ty true cls = spec_entry ty cls ∧ walk_hierarchy ty false cls = [] := by
  have hf : ∀ cbs : List MethodBase, overridden_in ty true cbs = cbs.filter (overrides ty) := by
    intro cbs
    unfold overridden_in
    congr 1
  have hn : ∀ cbs : List MethodBase, overridden_in ty false cbs = [] := by
    intro cbs
    simp [overridden_in]
  induction cls with
  | root n mg cbs => simp [walk_hierarchy, spec_entry, hf, hn]
  | derived n mg cbs parent ih => simp [walk_hierarchy, spec_entry, hf, hn, ih.1, ih.2]

/-- C19: the code at the failing input.  The script class `MyShape` overrides the
overridable method `area` of `Shape`, so the spec's entry is `[area]`.  When the
first wrapper of `MyShape` is attached with `owned = false`, the entry stored in the
cache is empty, while with `owned = true` it is `[area]`: the entry depends on the
flag of the instance that triggered the walk.  The empty entry then serves a second,
script-owned wrapper of `MyShape`, which gets no callback installed. -/
theorem cache_entry_depends_on_owner :
    spec_entry MyShape (Shape false) = [area]
      ∧ cache_find (set (sample false []) 5 false false true).1.s_callbacks_cache MyShape.addr
          = some []
      ∧ cache_find (set (sample false []) 5 true false true).1.s_callbacks_cache MyShape.addr
          = some [area]
      ∧ (List.get? (System.run two_wrappers
            [(0, .set 5 false false true), (1, .set 6 true false true)]).objs 1).map
          (fun b => (b.m_obj, b.m_owned, b.m_callee)) = some (6, true, []) := by
  decide


/-! ## The heap of temporaries of a call into script -/

/-- A broadcast that returns normally has left no temporary: neither `pop_arg` nor
`push_arg` put one into the heap of `SignalHandler::call`. -/
theorem broadcast_checks_heap (rt : Runtime) (h : SignalHandler) (meth : MethodBase)
    (args : List Nat) (hok : (SignalHandler.call rt h meth args).error = none) :
    ∃ result, (SignalHandler.call rt h meth args).ret = some result
      ∧ popped_temps rt meth.n_arguments args = 0 ∧ rt.push_temps result = 0 := by
  unfold SignalHandler.call at hok ⊢
  cases hr : (SignalHandler.invoke_all rt meth.n_arguments
      (build_argv meth.n_arguments args) h none).2 with
  | error e => simp [hr] at hok
  | ok result =>
    simp only [hr] at hok ⊢
    by_cases ht : popped_temps rt meth.n_arguments args + rt.push_temps result = 0
    · refine ⟨result, by simp [ht], by omega, by omega⟩
    · simp [ht] at hok

/-- A dispatch that returns normally after its script call has left no temporary of
`push_arg`: the heap the assertion of `Callee::call` looks at is the one declared
next to `push_arg`. -/
theorem dispatch_checks_return_heap (rt : Runtime) (cls_name : String) (mp_obj : Nat)
    (c : Callee) (id : Nat) (args : List Nat)
    (hok : (Callee.call rt cls_name mp_obj c id args).error = none) (v : Option Nat)
    (hret : (Callee.call rt cls_name mp_obj c id args).ret = some v) :
    rt.push_temps v = 0 := by
  unfold Callee.call at hok hret
  cases hc : List.get? c id with
  | none => rw [hc] at hok; simp at hok
  | some cb =>
    rw [hc] at hok hret
    cases hf : cb.callable rt.expired with
    | none => simp [hf] at hret
    | some callable =>
      cases hm : cb.method with
      | none => simp [hf, hm] at hok
      | some meth =>
        simp only [hf, hm] at hok hret
        cases hr : rt.call_object callable (some mp_obj :: build_argv meth.n_arguments args) with
        | value r =>
          simp only [hr] at hok hret
          by_cases ht : rt.push_temps (some r) = 0
          · simp [ht] at hret
            rw [← hret]; exact ht
          · simp [ht] at hok
        | error msg => simp [hr] at hret
        | system_exit => simp [hr] at hret

/-- C21: the code at the failing input.  The dispatch table holds the script function
that overrides `scaled (factor)`; unmarshaling the one native argument leaves a
temporary.  `Callee::call` makes the script call and returns normally, because the
heap its assertion looks at is a second one that only `push_arg` has used;
`SignalHandler::call`, which has one heap for both, fails its assertion for the same
arguments. -/
theorem dispatch_leaves_argument_temporaries :
    popped_temps leaky_runtime scaled.n_arguments [3] = 1
      ∧ Callee.call leaky_runtime "Shape" 1 scaled_table 0 [3]
          = { calls := [⟨.function 7 2, [some 1, some 3]⟩], ret := some (some 107),
              error := none }
      ∧ SignalHandler.call leaky_runtime [CallbackFunction.new (some (.function 7 1)) none]
            scaled [3]
          = { calls := [⟨.function 7 1, [some 3]⟩], ret := some (some 107),
              error := some (.assertion "heap.empty ()") } := by
  decide


/-! ## Native callback slots and the dispatch table -/

/-- The id `add_callback` returns is the index at which it stored the entry. -/
theorem add_callback_index (c : Callee) (vf : CallbackFunction) :
    (Callee.add_callback c vf).2 = c.length
      ∧ List.get? (Callee.add_callback c vf).1 (Callee.add_callback c vf).2 = some vf
      ∧ (Callee.add_callback c vf).2 < (Callee.add_callback c vf).1.length := by
  simp [Callee.add_callback]

/-- One round of the installing loop keeps every slot id inside the dispatch table. -/
theorem install_callback_valid (w : World) (m : MethodBase) (h : slots_valid w = true) :
    slots_valid (install_callback w m) = true := by
  unfold slots_valid at h ⊢
  simp only [List.all_eq_true, decide_eq_true_eq] at h ⊢
  intro x hx
  simp only [install_callback, set_callback, log, Callee.add_callback, List.mem_append,
    List.mem_filter, List.mem_singleton] at hx
  simp only [install_callback, set_callback, log, Callee.add_callback, List.length_append,
    List.length_singleton]
  rcases hx with ⟨hx, _⟩ | hx
  · have := h x hx
    omega
  · subst hx
    simp

/-- The installing loop of `initialize_callbacks` keeps every slot id inside the
dispatch table. -/
theorem install_valid (entry : List MethodBase) (w : World) (h : slots_valid w = true) :
    slots_valid (entry.foldl install_callback w) = true := by
  induction entry generalizing w with
  | nil => exact h
  | cons m ms ih => exact ih _ (install_callback_valid w m h)

/-- C23: the code at the failing input.  The sample wrapper is attached to the handle
`5`, which installs the callback of `area` with id `0` in the native slot of the
handle.  With the cache left alone `detach` resets the slot; when the cache is
invalidated in between, `detach_callbacks` finds no entry for the script class, the
slot still refers to id `0`, and the dispatch table it refers to is empty, so a
native call of `area` on the handle indexes the table outside its bounds. -/
theorem detach_after_invalidation_leaves_slot :
    (run [.set 5 true false true] (sample false [])).slots = [(5, area, 0)]
      ∧ slots_valid (run [.set 5 true false true] (sample false [])) = true
      ∧ (run [.set 5 true false true, .detach] (sample false [])).slots = []
      ∧ stale.self.m_obj = 0
      ∧ stale.slots = [(5, area, 0)]
      ∧ stale.self.m_callee = []
      ∧ slots_valid stale = false
      ∧ Callee.call (sample_runtime []) "Shape" 1 stale.self.m_callee 0 []
          = { calls := [], ret := none, error := some .bad_index } := by
  decide


/-! ## The destroyed state -/

/-- On a destroyed wrapper without a handle, every entry point other than `set` and
`signal_handler` leaves the wrapper without a handle, and the whole world as it was
when it throws; `obj ()` throws 'Object has been destroyed already'. -/
theorem destroyed_stays_detached (w : World) (hd : w.self.m_destroyed = true)
    (h0 : w.self.m_obj = 0) :
    (w.self.m_cls_decl ≠ none →
        obj w = (w, some (.exception "Object has been destroyed already")))
      ∧ ∀ op : Op, (∀ o a b c, op ≠ .set o a b c) → (∀ m, op ≠ .signal_handler m) →
          (step op w).1.self.m_obj = 0
          ∧ (step op w).1.self.m_destroyed = true
          ∧ ((step op w).2 ≠ none → (step op w).1 = w) := by
  have hobj : ∀ cls, w.self.m_cls_decl = some cls →
      obj w = (w, some (.exception "Object has been destroyed already")) := by
    intro cls hc
    simp [obj, h0, hd]
  have hown : (release_own w).self.m_obj = 0 ∧ (release_own w).self.m_destroyed = true := by
    unfold release_own
    cases w.self.m_owned <;> simp [Py_DECREF, h0, hd]
  have hki : (keep_internal w).self.m_obj = 0 ∧ (keep_internal w).self.m_destroyed = true := by
    unfold keep_internal
    cases w.self.m_owned <;> simp [Py_INCREF, h0, hd]
  have hrel : (release w).1.self.m_obj = 0 ∧ (release w).1.self.m_destroyed = true
      ∧ ((release w).2 ≠ none → (release w).1 = w) := by
    unfold release release_others
    cases hc : w.self.m_cls_decl with
    | none => simpa using hown
    | some cls =>
      cases hm : cls.is_managed
      · simpa [hm] using hown
      · simp [hm, hobj cls hc, h0, hd]
  refine ⟨fun hc => ?_, fun op hset hsig => ?_⟩
  · unfold obj
    cases hcls : w.self.m_cls_decl with
    | none => exact absurd hcls hc
    | some cls => simp [h0, hd]
  · cases op with
    | set o a b c => exact absurd rfl (hset o a b c)
    | signal_handler m => exact absurd rfl (hsig m)
    | detach => simp [step, detach_idle w h0, h0, hd]
    | destroy =>
      unfold step destroy
      cases hc : w.self.m_cls_decl with
      | none => simp [hd]
      | some cls => simp [h0, hd]
    | keep =>
      unfold step keep
      cases hc : w.self.m_cls_decl with
      | none => simp [h0, hd]
      | some cls => simp [hobj cls hc, h0, hd]
    | keep_internal => simpa [step] using hki
    | release => simpa [step] using hrel
    | object_status_changed type =>
      cases type with
      | ObjectDestroyed =>
        simp only [step]
        rw [notify_destroyed_idle w h0]
        refine ⟨?_, ?_, fun h => ?_⟩
        · cases w.interpreter <;> cases w.self.m_owned <;> simp [Py_DECREF, h0]
        · cases w.interpreter <;> cases w.self.m_owned <;> simp [Py_DECREF, hd]
        · exfalso; apply h
          unfold object_status_changed
          cases w.interpreter <;> cases w.self.m_owned <;> simp
      | ObjectKeep => simpa [step, object_status_changed] using hki
      | ObjectRelease => simpa [step, object_status_changed] using hrel
    | obj =>
      simp only [step]
      cases hc : w.self.m_cls_decl with
      | none => simp [obj, h0, hd, hc]
      | some cls => simp [hobj cls hc, h0, hd]
    | clear_callbacks_cache => simp [step, clear_callbacks_cache, h0, hd]

/-- C24: the code at the failing input.  The sample wrapper of the managed class is
destroyed; it has no handle and `obj ()` throws.  `set` on it succeeds all the same:
the wrapper has the handle `6` and is still marked destroyed.  A later `detach` then
leaves the lifecycle listener subscribed to the handle, because it takes the
listener of a destroyed wrapper to be gone. -/
theorem set_on_destroyed_wrapper :
    destroyed_sample.self.m_destroyed = true
      ∧ destroyed_sample.self.m_obj = 0
      ∧ obj destroyed_sample
          = (destroyed_sample, some (.exception "Object has been destroyed already"))
      ∧ (set destroyed_sample 6 true false true).2 = none
      ∧ (set destroyed_sample 6 true false true).1.self.m_obj = 6
      ∧ (set destroyed_sample 6 true false true).1.self.m_destroyed = true
      ∧ (detach (set destroyed_sample 6 true false true).1).self.m_listener = [6]
      ∧ listener_removals (detach (set destroyed_sample 6 true false true).1)
          = listener_removals (set destroyed_sample 6 true false true).1 := by
  decide


/-! ## The balance of retentions -/

theorem taken_log (c : Call) (w : World) :
    retentions_taken (log c w) = retentions_taken w + (if c = .py_incref then 1 else 0) := by
  simp [retentions_taken, log]

theorem dropped_log (c : Call) (w : World) :
    retentions_dropped (log c w) = retentions_dropped w + (if c = .py_decref then 1 else 0) := by
  simp [retentions_dropped, log]

theorem balance_of_eq {w w2 : World} (h : Balance w)
    (hT : retentions_taken w2 = retentions_taken w)
    (hD : retentions_dropped w2 = retentions_dropped w)
    (ho : w2.self.m_obj = w.self.m_obj) (hw : w2.self.m_owned = w.self.m_owned) :
    Balance w2 := by
  unfold Balance held at h ⊢
  rw [hT, hD, ho, hw]
  exact h

/-- `set` drops no retention. -/
theorem set_dropped (w : World) (o : Nat) (owned const_ref can_destroy : Bool) :
    retentions_dropped (set w o owned const_ref can_destroy).1 = retentions_dropped w := by
  cases hcls : w.self.m_cls_decl with
  | none => simp [set, hcls]
  | some cls =>
    by_cases h0 : w.self.m_obj = 0
    · by_cases ho : o = 0
      · simp [set, hcls, h0, ho]
      · obtain ⟨cbs, cache, s, ext, w2, hw2, hb, hset⟩ :=
          set_runs w cls hcls h0 o ho owned const_ref can_destroy
        have hc : count_calls (fun c => c == .py_decref) ext = 0 :=
          count_calls_bookkeeping ⟨fun _ _ _ => rfl, fun _ => rfl⟩ hb
        rw [hset, set_listener_eq]
        subst hw2
        unfold retentions_dropped
        cases hm : cls.is_managed <;> by_cases hk : o ∈ w.kept <;> cases owned <;>
          by_cases hl : o ∈ w.self.m_listener <;>
          simp [hm, hk, hl, hcls, Py_INCREF, log, count_calls_append, hc]
    · simp [set, hcls, h0]

theorem balance_set (w : World) (h : Balance w) (o : Nat) (owned const_ref can_destroy : Bool)
    (hg : keeps_balance w (.set o owned const_ref can_destroy) = true) :
    Balance (set w o owned const_ref can_destroy).1 := by
  cases hcls : w.self.m_cls_decl with
  | none => simpa [set, hcls] using h
  | some cls =>
    by_cases h0 : w.self.m_obj = 0
    · by_cases ho : o = 0
      · simpa [set, hcls, h0, ho] using h
      · obtain ⟨_, h2, h3, _, _, _, _, hT, _⟩ :=
          set_attaches w cls hcls h0 o ho owned const_ref can_destroy
        have hD := set_dropped w o owned const_ref can_destroy
        obtain ⟨hb, _⟩ := h
        unfold held at hb
        unfold Balance held
        rw [hT, hD, h2, h3]
        simp only [keeps_balance, World.managed, hcls, already_kept, h0] at hg
        simp only [h0] at hb
        refine ⟨?_, fun h => absurd h ho⟩
        have hmk : (cls.is_managed && w.kept.contains o) = true → owned = false := by
          intro hmk
          cases owned
          · rfl
          · simp only [Bool.and_eq_true] at hmk
            simp [hmk.1] at hg
            exact absurd (by simpa using hmk.2) hg
        simp at hb
        cases owned
        · simp [ho]; omega
        · cases hx : (cls.is_managed && w.kept.contains o)
          · have hx2 : ¬ (cls.is_managed = true ∧ o ∈ w.kept) := by simpa using hx
            simp [hx, hx2]; omega
          · exact absurd (hmk hx) (by simp)
    · simpa [set, hcls, h0] using h

theorem balance_obj (w : World) (h : Balance w) (hg : w.creates_kept = false) :
    Balance (obj w).1 := by
  by_cases h0 : w.self.m_obj = 0
  · cases hd : w.self.m_destroyed
    · cases hcls : w.self.m_cls_decl with
      | none => simpa [obj, h0, hd, hcls] using h
      | some cls =>
        rw [obj_creates w cls hcls h0 hd]
        apply balance_set
        · exact balance_of_eq h (by simp [cls_create, retentions_taken, log])
            (by simp [cls_create, retentions_dropped, log]) (by simp [cls_create])
            (by simp [cls_create])
        · simp only [World.creates_kept, World.managed, hcls, already_kept, h0, hd] at hg
          simp only [keeps_balance, World.managed, already_kept, cls_create, log]
          cases hm : cls.is_managed <;> simp [hcls, h0, hm] at hg ⊢
          exact hg
    · simpa [obj, h0, hd] using h
  · rw [obj_attached w h0]; exact h

/-- What `detach` does to the members and counters the balance reads. -/
theorem detach_effect (w : World) :
    retentions_taken (detach w) = retentions_taken w
      ∧ retentions_dropped (detach w) = retentions_dropped w
      ∧ (detach w).self.m_obj = 0
      ∧ (w.self.m_obj ≠ 0 → (detach w).self.m_owned = false)
      ∧ (detach w).self.m_destroyed = w.self.m_destroyed
      ∧ (detach w).self.m_cls_decl = w.self.m_cls_decl
      ∧ (w.unsubscribes = true → w.self.m_obj ∉ (detach w).self.m_listener) := by
  have hu : ∀ p : Call → Bool, (∀ o, p (.listener_remove o) = false) →
      count_calls p (unsubscription w) = 0 := by
    intro p hp
    unfold unsubscription
    split <;> simp [hp]
  refine ⟨?_, ?_, detach_obj w, ?_⟩
  · unfold retentions_taken
    rw [detach_count _ ⟨fun _ _ _ => rfl, fun _ => rfl⟩ w, hu _ (fun _ => rfl)]
    rfl
  · unfold retentions_dropped
    rw [detach_count _ ⟨fun _ _ _ => rfl, fun _ => rfl⟩ w, hu _ (fun _ => rfl)]
    rfl
  · obtain ⟨s, ext, hd, _⟩ := detach_frame w
    rw [hd]
    refine ⟨fun h0 => by simp [detached, h0], ?_, ?_, fun hun => ?_⟩
    · by_cases h0 : w.self.m_obj = 0 <;> simp [detached, h0]
    · by_cases h0 : w.self.m_obj = 0 <;> simp [detached, h0]
    · have h0 : w.self.m_obj ≠ 0 := by
        intro h0; simp [World.unsubscribes, h0] at hun
      simp [detached, h0, hun]

theorem balance_detach (w : World) (h : Balance w)
    (hg : keeps_balance w .detach = true) : Balance (detach w) := by
  by_cases h0 : w.self.m_obj = 0
  · rw [detach_idle w h0]; exact h
  · obtain ⟨hT, hD, ho, hw, _⟩ := detach_effect w
    have hown : w.self.m_owned = true := by simpa [keeps_balance, h0] using hg
    obtain ⟨hb, _⟩ := h
    unfold held at hb
    unfold Balance held
    rw [hT, hD, ho, hw h0]
    simp [hown] at hb
    simpa using hb


theorem balance_keep_internal (w : World) (h : Balance w) : Balance (keep_internal w) := by
  unfold keep_internal
  cases ho : w.self.m_owned
  · simpa using h
  · obtain ⟨h1, h2⟩ := h
    have h0 : w.self.m_obj ≠ 0 := fun h0 => by simp [h2 h0] at ho
    unfold held at h1
    unfold Balance held
    simp only [ho, if_true]
    refine ⟨?_, fun h => absurd h (by simpa [Py_INCREF] using h0)⟩
    have hT := taken_log .py_incref w
    have hD := dropped_log .py_incref w
    simp only [if_true] at hT
    simp [ho, h0] at h1
    simp [retentions_taken, retentions_dropped, Py_INCREF, h0] at hT hD h1 ⊢
    omega

theorem balance_gsi_keep (w : World) (o : Nat) (h : Balance w) : Balance (gsi_keep w o) := by
  have hl : Balance (log (.gsi_keep o) w) :=
    balance_of_eq h (by simp [taken_log]) (by simp [dropped_log]) rfl rfl
  unfold gsi_keep
  simp only
  split
  · exact balance_keep_internal _ hl
  · exact hl

theorem balance_release_own (w : World) (h : Balance w) (h0 : w.self.m_obj ≠ 0) :
    Balance (release_own w) := by
  unfold release_own
  cases ho : w.self.m_owned
  · obtain ⟨h1, _⟩ := h
    unfold held at h1
    unfold Balance held
    simp [ho, h0] at h1
    simp [retentions_taken, retentions_dropped, Py_DECREF, log, h0] at h1 ⊢
    omega
  · simpa using h

theorem balance_keep (w : World) (h : Balance w) (hg : w.creates_kept = false) :
    Balance (keep w).1 := by
  have hobj := balance_obj w h hg
  unfold keep
  cases hcls : w.self.m_cls_decl with
  | none => exact h
  | some cls =>
    simp only
    cases he : (obj w).2 with
    | some e => exact hobj
    | none =>
      simp only
      split
      · split
        · exact balance_gsi_keep _ _ hobj
        · exact balance_keep_internal _ hobj
      · exact hobj

theorem balance_release (w : World) (h : Balance w)
    (hg : keeps_balance w .release = true) : Balance (release w).1 := by
  simp only [keeps_balance, Bool.and_eq_true, Bool.or_eq_true, bne_iff_ne, ne_eq,
    Bool.not_eq_true'] at hg
  obtain ⟨hg1, hg2⟩ := hg
  have hobj := balance_obj w h hg2
  unfold release
  cases hm : w.managed
  · rw [release_others_unmanaged w hm]
    have h0 : w.self.m_obj ≠ 0 := by
      rcases hg1 with h0 | h0
      · exact h0
      · rw [hm] at h0; exact absurd h0 (by simp)
    exact balance_release_own w h h0
  · rw [release_others_managed w hm]
    cases he : (obj w).2 with
    | none =>
      simp only [if_true]
      apply balance_release_own _ (balance_gsi_keep _ _ hobj)
      rw [gsi_keep_obj]
      exact obj_returns w he
    | some e => simpa using hobj

/-- The `ObjectDestroyed` branch on a world that differs from a balanced one in
`m_destroyed` only. -/
theorem balance_detach_drop (w w1 : World) (h : Balance w) (h0 : w.self.m_obj ≠ 0)
    (ht : w1.trace = w.trace) (ho : w1.self.m_obj = w.self.m_obj) :
    Balance (if !w.self.m_owned then Py_DECREF (detach w1) else detach w1) := by
  obtain ⟨hT, hD, hobj, hown, _⟩ := detach_effect w1
  have hown2 := hown (by rw [ho]; exact h0)
  obtain ⟨hb, _⟩ := h
  unfold held at hb
  unfold retentions_taken at hT hb
  unfold retentions_dropped at hD hb
  rw [ht] at hT hD
  cases hx : w.self.m_owned
  · simp only [Bool.not_false, if_true]
    unfold Balance held retentions_taken retentions_dropped
    simp only [Py_DECREF, log_trace, log_self, count_calls_snoc, hT, hD, hobj]
    simp [hx, h0] at hb
    simp
    exact ⟨hb, hown2⟩
  · simp only [Bool.not_true, Bool.false_eq_true, if_false]
    unfold Balance held retentions_taken retentions_dropped
    simp only [hT, hD, hobj, hown2]
    simp [hx, h0] at hb
    simpa using hb

theorem balance_notify_destroyed (w : World) (h : Balance w)
    (hg : keeps_balance w (.object_status_changed .ObjectDestroyed) = true) :
    Balance (object_status_changed w .ObjectDestroyed).1 := by
  unfold object_status_changed
  by_cases hi : w.interpreter = true
  · have h0 : w.self.m_obj ≠ 0 := by simpa [keeps_balance, hi] using hg
    have key := balance_detach_drop w { w with self := { w.self with m_destroyed := true } }
      h h0 rfl rfl
    simp only
    rw [if_pos hi]
    by_cases hc : (!w.self.m_owned) = true
    · rw [if_pos hc] at key ⊢
      exact key
    · rw [if_neg hc] at key ⊢
      exact key
  · simp only
    rw [if_neg hi]
    exact h

/-- The native `destroy` of a handle the listener is not subscribed to only logs the
call. -/
theorem cls_destroy_quiet (w : World) (cls : ClassBase) (o : Nat)
    (h : cls.is_managed = true → o ∉ w.self.m_listener) :
    cls_destroy w cls o = log (.cls_destroy o) w := by
  unfold cls_destroy
  cases hm : cls.is_managed
  · rfl
  · have := h hm
    simp [this]

theorem balance_destroy (w : World) (hi : Inv w) (h : Balance w)
    (hg : keeps_balance w .destroy = true) : Balance (destroy w).1 := by
  cases hcls : w.self.m_cls_decl with
  | none =>
    have h0 := hi.1 hcls
    unfold destroy
    split
    · exact balance_of_eq h rfl rfl h0.symm rfl
    · rename_i c hc
      rw [hcls] at hc
      exact absurd hc (by simp)
  | some cls =>
    have hrun : ((w.self.m_obj ≠ 0 ∧ w.self.m_can_destroy = true)
          ∨ (w.self.m_obj = 0 ∧ w.self.m_destroyed = false)) →
        Balance (destroy w).1 := by
      intro hpre
      obtain ⟨hne, hd⟩ := destroy_runs w cls hcls hpre
      have hw1 : (destroy_ensure_obj w).self.m_owned = true
          ∧ (destroy_ensure_obj w).self.m_destroyed = false
          ∧ (destroy_ensure_obj w).self.m_cls_decl = some cls
          ∧ retentions_taken (destroy_ensure_obj w) = retentions_taken w
          ∧ retentions_dropped (destroy_ensure_obj w) = retentions_dropped w
          ∧ held w = 0 := by
        rcases hpre with ⟨h0, hc⟩ | ⟨h0, hdd⟩
        · have hx : w.self.m_owned = true ∧ w.self.m_destroyed = false := by
            simpa [keeps_balance, h0, hc] using hg
          rw [destroy_ensure_obj_ne w h0]
          exact ⟨hx.1, hx.2, hcls, rfl, rfl, by simp [held, hx.1]⟩
        · rw [destroy_ensure_obj_new w h0]
          exact ⟨rfl, hdd, hcls, by simp [retentions_taken], by simp [retentions_dropped],
            by simp [held, h0]⟩
      obtain ⟨hown, hdes, hc1, hT1, hD1, hheld⟩ := hw1
      obtain ⟨hT, hD, ho, hw, hd2, hc2, hl⟩ := detach_effect (destroy_ensure_obj w)
      have hq := cls_destroy_quiet (detach (destroy_ensure_obj w)) cls
        (destroy_ensure_obj w).self.m_obj (fun hm => hl (by
          simp [World.unsubscribes, World.managed, hc1, hm, hdes, hne]))
      rw [hd, hq]
      obtain ⟨hb, _⟩ := h
      rw [hheld] at hb
      unfold Balance held
      refine ⟨?_, fun _ => ?_⟩
      · have e1 : retentions_taken (log (.cls_destroy (destroy_ensure_obj w).self.m_obj)
            (detach (destroy_ensure_obj w))) = retentions_taken w := by
          rw [taken_log, hT, hT1]; simp
        have e2 : retentions_dropped (log (.cls_destroy (destroy_ensure_obj w).self.m_obj)
            (detach (destroy_ensure_obj w))) = retentions_dropped w := by
          rw [dropped_log, hD, hD1]; simp
        show retentions_taken (log (.cls_destroy (destroy_ensure_obj w).self.m_obj)
            (detach (destroy_ensure_obj w)))
          = retentions_dropped (log (.cls_destroy (destroy_ensure_obj w).self.m_obj)
              (detach (destroy_ensure_obj w)))
            + (if (detach (destroy_ensure_obj w)).self.m_obj != 0
                  && !(detach (destroy_ensure_obj w)).self.m_owned then 1 else 0)
        rw [e1, e2, hb, ho]
        simp
      · simpa using hw hne
    by_cases h0 : w.self.m_obj = 0
    · cases hd : w.self.m_destroyed
      · exact hrun (Or.inr ⟨h0, hd⟩)
      · rw [destroy_already_destroyed w cls hcls h0 hd]; exact h
    · cases hc : w.self.m_can_destroy
      · have he : destroy w = (w, some (.exception "Object cannot be destroyed explicitly")) := by
          simp [destroy, hcls, h0, hc]
        rw [he]; exact h
      · exact hrun (Or.inl ⟨h0, hc⟩)

theorem balance_signal_handler (w : World) (meth : MethodBase) (h : Balance w)
    (hg : w.creates_kept = false) : Balance (signal_handler w meth).1 := by
  unfold signal_handler
  cases hl : w.self.m_signal_table.lookup meth with
  | some r => exact h
  | none =>
    simp only
    have hobj := balance_obj
      { w with self := { w.self with m_signal_table := w.self.m_signal_table ++ [(meth, [])] } }
      (balance_of_eq h rfl rfl rfl rfl) hg
    split
    · exact hobj
    · exact balance_of_eq hobj (by simp [taken_log]) (by simp [dropped_log]) rfl rfl

/-- One call under which the retentions stay balanced keeps the balance. -/
theorem balance_step (op : Op) (w : World) (hi : Inv w) (h : Balance w)
    (hg : keeps_balance w op = true) : Balance (step op w).1 := by
  cases op with
  | set o owned const_ref can_destroy => exact balance_set w h o owned const_ref can_destroy hg
  | detach => exact balance_detach w h hg
  | destroy => exact balance_destroy w hi h hg
  | keep => exact balance_keep w h (by simpa [keeps_balance] using hg)
  | keep_internal => exact balance_keep_internal w h
  | release => exact balance_release w h hg
  | object_status_changed type =>
    cases type with
    | ObjectDestroyed => exact balance_notify_destroyed w h hg
    | ObjectKeep => exact balance_keep_internal w h
    | ObjectRelease => exact balance_release w h hg
  | obj => exact balance_obj w h (by simpa [keeps_balance] using hg)
  | signal_handler meth => exact balance_signal_handler w meth h (by simpa [keeps_balance] using hg)
  | clear_callbacks_cache => exact balance_of_eq h rfl rfl rfl rfl

theorem balance_run (ops : List Op) (w : World) (hi : Inv w) (h : Balance w)
    (ha : admissible w ops = true) : Balance (run ops w) := by
  induction ops generalizing w with
  | nil => exact h
  | cons op ops ih =>
    simp only [admissible, Bool.and_eq_true] at ha
    exact ih (step op w).1 ((keeps_step op w).2.2 hi) (balance_step op w hi h ha.1) ha.2

theorem admissible_take (ops : List Op) (w : World) (n : Nat)
    (ha : admissible w ops = true) : admissible w (ops.take n) = true := by
  induction ops generalizing w n with
  | nil => simp [admissible]
  | cons op ops ih =>
    cases n with
    | zero => simp [admissible]
    | succ k =>
      simp only [admissible, Bool.and_eq_true, List.take_succ_cons] at ha ⊢
      exact ⟨ha.1, ih _ k ha.2⟩

theorem fresh_balance (ty : PyTypeObject) (cls_decl : Option ClassBase)
    (cache : List (Nat × List MethodBase)) (interp : Bool) (kept : List Nat) (top : Nat) :
    Balance (World.fresh ty cls_decl cache interp kept top) := by
  simp [Balance, held, World.fresh, PYAObjectBase.new, retentions_taken, retentions_dropped]


/-- C22: the code at the failing inputs.  A wrapper of the managed class is attached
as native-owned, which takes a retention; `destroy ()` then leaves it without a
handle and drops nothing, while the `ObjectDestroyed` status, coming from native code
for the same wrapper, drops that retention.  And `release ()` on the fresh wrapper of
the unmanaged class drops a retention though none was taken. -/
theorem retentions_not_balanced :
    (run [.set 5 false false true, .destroy] (sample true [])).self.m_obj = 0
      ∧ retentions_taken (run [.set 5 false false true, .destroy] (sample true [])) = 1
      ∧ retentions_dropped (run [.set 5 false false true, .destroy] (sample true [])) = 0
      ∧ (run [.set 5 false false true, .object_status_changed .ObjectDestroyed]
            (sample true [])).self.m_obj = 0
      ∧ retentions_taken (run [.set 5 false false true,
            .object_status_changed .ObjectDestroyed] (sample true [])) = 1
      ∧ retentions_dropped (run [.set 5 false false true,
            .object_status_changed .ObjectDestroyed] (sample true [])) = 1
      ∧ (run [.obj, .keep, .destroy] (sample true [])).self.m_obj = 0
      ∧ retentions_taken (run [.obj, .keep, .destroy] (sample true [])) = 1
      ∧ retentions_dropped (run [.obj, .keep, .destroy] (sample true [])) = 0
      ∧ retentions_taken (run [.release] (sample false [])) = 0
      ∧ retentions_dropped (run [.release] (sample false [])) = 1 := by
  decide

/-- Starting from a freshly constructed wrapper, in every state of a sequence of
entry points each of which keeps the balance in the state it is called in
(`admissible`), the retentions taken are those dropped plus one when a handle is
attached and the wrapper is native-owned, and those dropped otherwise. -/
theorem retentions_balanced (ty : PyTypeObject) (cls_decl : Option ClassBase)
    (cache : List (Nat × List MethodBase)) (interp : Bool) (kept : List Nat) (top : Nat)
    (ops : List Op)
    (ha : admissible (World.fresh ty cls_decl cache interp kept top) ops = true) (n : Nat) :
    retentions_taken (run (ops.take n) (World.fresh ty cls_decl cache interp kept top))
        = retentions_dropped (run (ops.take n) (World.fresh ty cls_decl cache interp kept top))
          + held (run (ops.take n) (World.fresh ty cls_decl cache interp kept top))
      ∧ retentions_dropped (run (ops.take n) (World.fresh ty cls_decl cache interp kept top))
          ≤ retentions_taken (run (ops.take n) (World.fresh ty cls_decl cache interp kept top))
      ∧ ((run (ops.take n) (World.fresh ty cls_decl cache interp kept top)).self.m_obj = 0 →
          retentions_taken (run (ops.take n) (World.fresh ty cls_decl cache interp kept top))
            = retentions_dropped
                (run (ops.take n) (World.fresh ty cls_decl cache interp kept top))) := by
  have hb := balance_run (ops.take n) _
    (reachable_inv _ (Reachable.fresh ty cls_decl cache interp kept top))
    (fresh_balance ty cls_decl cache interp kept top) (admissible_take ops _ n ha)
  refine ⟨hb.1, by rw [hb.1]; omega, fun h0 => ?_⟩
  rw [hb.1]
  simp [held, h0]

theorem retentions_balanced_witness :
    admissible (sample true [])
        [.set 5 false false true, .release, .keep, .object_status_changed .ObjectDestroyed,
         .destroy] = true
      ∧ retentions_taken (run (List.take 3
            [.set 5 false false true, .release, .keep, .object_status_changed .ObjectDestroyed,
             .destroy]) (sample true []))
          = retentions_dropped (run (List.take 3
              [.set 5 false false true, .release, .keep, .object_status_changed .ObjectDestroyed,
               .destroy]) (sample true []))
            + held (run (List.take 3
              [.set 5 false false true, .release, .keep, .object_status_changed .ObjectDestroyed,
               .destroy]) (sample true [])) :=
  ⟨by decide,
    (retentions_balanced MyShape (some (Shape true)) [] true [] 10
      [.set 5 false false true, .release, .keep, .object_status_changed .ObjectDestroyed,
       .destroy] (by decide) 3).1⟩
end pya
